import Mathlib

/-!
# Serial protocol engine of `app/uart.c`

A shallow embedding of the frame synchroniser (`UART_IsCommandAvailable`), the
reply encoder (`SendReply`) and the session, authentication and EEPROM command
handlers (`CMD_0514`, `CMD_051B`, `CMD_051D`, `CMD_052D`, `CMD_052F`) together
with theorems about them.

Conventions of the embedding.

* C byte arrays are functions `Nat → Nat` from an index to a byte value.
* `uint16_t` assignments are written with an explicit `% 65536` (`u16`),
  `uint8_t` ones with `% 256` (`u8`).
* `sizeof(UART_DMA_Buffer)` is declared in `driver/uart.h`; it is the
  parameter `N` of every definition that uses the ring.
* `DMA_CH0->ST & 0xFFF`, the position up to which the DMA engine has written
  the ring, is the parameter `DmaLength`.
* `CRC_Calculate`, `AES_Encrypt` belong to drivers; they are parameters.
* Every byte handed to `UART_Send` is appended to the field `tx`.
-/

namespace Uart

/-! ## Machine integers and memory -/

/-- Truncation of a value stored into a `uint8_t`. -/
def u8 (x : Nat) : Nat := x % 256

/-- Truncation of a value stored into a `uint16_t`. -/
def u16 (x : Nat) : Nat := x % 65536

/-- Truncation of a value stored into a `uint32_t`. -/
def u32 (x : Nat) : Nat := x % 4294967296

/-- A byte array in memory, index to value. -/
abbrev Mem := Nat → Nat

/-- The C call `memcpy(dst + d, src + s, n)`. -/
def memcpy (dst : Mem) (d : Nat) (src : Mem) (s n : Nat) : Mem :=
  fun i => if d ≤ i ∧ i < d + n then src (s + (i - d)) else dst i

/-- The C call `memset(dst + d, v, n)`. -/
def memset (dst : Mem) (d v n : Nat) : Mem :=
  fun i => if d ≤ i ∧ i < d + n then v else dst i

/-- Little-endian `uint16_t` field at byte offset `off` of a buffer. -/
def le16 (buf : Mem) (off : Nat) : Nat :=
  buf off ||| (buf (off + 1) <<< 8)

/-- Little-endian `uint32_t` field at byte offset `off` of a buffer. -/
def le32 (buf : Mem) (off : Nat) : Nat :=
  buf off ||| (buf (off + 1) <<< 8) ||| (buf (off + 2) <<< 16) ||| (buf (off + 3) <<< 24)

/-- The first `n` bytes of a buffer, as a list. -/
def bytes (buf : Mem) (n : Nat) : List Nat := (List.range n).map buf

/-! ## Obfuscation keystream -/

/-- The table `Obfuscation[16]`. -/
def Obfuscation : List Nat :=
  [0x16, 0x6C, 0x14, 0xE6, 0x2E, 0x91, 0x0D, 0x40, 0x21, 0x35, 0xD5, 0x40, 0x13, 0x03, 0xE9, 0x80]

/-- The expression `Obfuscation[i % 16]`. -/
def obf (i : Nat) : Nat := Obfuscation.getD (i % 16) 0

/-- The macro `DMA_INDEX(x, y)` for a ring of `N` bytes. -/
def DMA_INDEX (N x y : Nat) : Nat := (x + y) % N

/-! ## Protocol state -/

/-- One call of an EEPROM driver routine, as seen on the bus. -/
inductive EepromOp where
  | read (Offset Size : Nat)
  | write (Offset : Nat)
  deriving DecidableEq, Repr

/-- A call of a driver or radio routine whose body lies outside `app/uart.c`. -/
inductive HwCall where
  | FUNCTION_Select_FOREGROUND
  | RADIO_SetupAGC
  | AUDIO_AudioPathOff
  | BK4819_SetFilterBandwidth_WIDE
  | RADIO_SetupRegisters
  | BK4819_SetFrequency (f : Nat)
  | BK4819_PickRXFilterPathBasedOnFrequency (f : Nat)
  | BK4819_WriteRegister (reg val : Nat)
  | SYSTICK_DelayUs (us : Nat)
  | GPIO_SetBit (port bit : Nat)
  | GPIO_ClearBit (port bit : Nat)
  | NVIC_SystemReset
  /-- the block of assignments to `gEeprom` and `gIsNoaaMode` at the head of `CMD_052F` -/
  | radioStateReset
  deriving DecidableEq, Repr

/-- The radio hardware and the globals of the dock commands. -/
structure Radio where
  /-- whether the build defines `ENABLE_DOCK` -/
  ENABLE_DOCK : Bool
  /-- whether the build defines `ENABLE_UART_RW_BK_REGS` -/
  ENABLE_UART_RW_BK_REGS : Bool
  /-- whether the build defines `ENABLE_SCREEN_DUMP` -/
  ENABLE_SCREEN_DUMP : Bool
  /-- the register file of the BK4819, register number to value -/
  regs : Mem
  /-- the statics `R10 .. R7E`, by register number -/
  R : Mem
  /-- the calls of driver and radio routines, oldest first -/
  hw : List HwCall
  /-- the values `BK4819_GetRSSI` returns, by number of the call -/
  rssi : Mem
  /-- number of calls of `BK4819_GetRSSI` so far -/
  rssiReads : Nat
  /-- what `BOARD_ADC_GetBatteryInfo` stores to `Voltage` -/
  adcVoltage : Nat
  /-- what `BOARD_ADC_GetBatteryInfo` stores to `Current` -/
  adcCurrent : Nat
  /-- what `GPIO_CheckBit` returns, by port (0, 1, 2 for A, B, C) and bit -/
  gpio : Nat → Nat → Bool
  gStatusLine : Mem
  gFrameBuffer : Mem
  gSimulateKey : Nat
  gSimulateHold : Nat
  gDebounceDefeat : Nat
  gPttCounter : Nat
  /-- the enumerator `KEY_INVALID` of `driver/keyboard.h` -/
  KEY_INVALID : Nat
  /-- the enumerator `KEY_PTT` of `driver/keyboard.h` -/
  KEY_PTT : Nat
  /-- the field `gCurrentVfo->pRX->Frequency` -/
  rxFrequency : Nat
  /-- the field `gCurrentVfo->pTX->Frequency` -/
  txFrequency : Nat
  /-- whether `gCurrentFunction == FUNCTION_POWER_SAVE` -/
  inPowerSave : Bool

/-- The globals read or written by the protocol engine. -/
structure State where
  /-- the receive ring `UART_DMA_Buffer` -/
  UART_DMA_Buffer : Mem
  /-- the read cursor `gUART_WriteIndex` -/
  gUART_WriteIndex : Nat
  /-- the scratch buffer `UART_Command.Buffer` -/
  UART_Command : Mem
  bIsEncrypted : Bool
  Timestamp : Nat
  gIsLocked : Bool
  gTryCount : Nat
  bHasCustomAesKey : Bool
  bIsInLockScreen : Bool
  gCustomAesKey : Mem
  gDefaultAesKey : Mem
  gChallenge : Mem
  gSerialConfigCountDown_500ms : Nat
  /-- whether the build defines `ENABLE_FMRADIO` -/
  ENABLE_FMRADIO : Bool
  /-- the constant `fm_radio_countdown_500ms` of `misc.c` -/
  fm_radio_countdown_500ms : Nat
  gFmRadioCountdown_500ms : Nat
  /-- the string `Version` of `version.c`, without its terminating zero -/
  Version : List Nat
  /-- the bytes found in the parts of a local reply record that the code never assigns,
  by byte offset into the record -/
  uninit : Mem
  /-- contents of the EEPROM, address to byte -/
  eeprom : Mem
  /-- the calls of `EEPROM_ReadBuffer` and `EEPROM_WriteBuffer`, oldest first -/
  eepromOps : List EepromOp
  /-- number of calls of `SETTINGS_InitEEPROM` -/
  reloads : Nat
  /-- number of calls of `BACKLIGHT_TurnOff` -/
  backlightOff : Nat
  /-- bytes handed to `UART_Send`, oldest first -/
  tx : List Nat
  /-- the register `DMA_CH0->ST`: where the DMA engine stores the next received byte -/
  dmaST : Nat
  /-- the command IDs with which `UART_HandleCommand` has been entered, oldest first;
  a record kept by the embedding -/
  handled : List Nat
  radio : Radio

/-! ## Reply encoder -/

/-- The bytes `pReply[0 .. Size)` after the obfuscation loop of `SendReply`. -/
def encodePayload (bIsEncrypted : Bool) (pReply : List Nat) (Size : Nat) : List Nat :=
  (List.range Size).map fun i =>
    if bIsEncrypted then pReply.getD i 0 ^^^ obf i else pReply.getD i 0

/-- The three `UART_Send` calls of `SendReply(pReply, Size)`: header, payload, footer. -/
def SendReply (bIsEncrypted : Bool) (pReply : List Nat) (Size : Nat) : List Nat :=
  [0xAB, 0xCD, u16 Size % 256, u16 Size / 256]
    ++ encodePayload bIsEncrypted pReply Size
    ++ (if bIsEncrypted
        then [obf (Size + 0) ^^^ 0xFF, obf (Size + 1) ^^^ 0xFF]
        else [0xFF, 0xFF])
    ++ [0xDC, 0xBA]

/-! ## Frame synchroniser -/

/-- The inner loop
`while (gUART_WriteIndex != DmaLength && UART_DMA_Buffer[gUART_WriteIndex] != 0xAB)`;
the result is the cursor on leaving the loop, `none` when the fuel runs out. -/
def skipToSync (N : Nat) (buf : Mem) (DmaLength : Nat) : Nat → Nat → Option Nat
  | 0, _ => none
  | fuel + 1, w =>
    if w ≠ DmaLength ∧ buf w ≠ 0xAB then
      skipToSync N buf DmaLength fuel (u16 (DMA_INDEX N w 1))
    else some w

/-- How the `while (1)` loop of `UART_IsCommandAvailable` is left. -/
inductive Sync where
  /-- one of the `return false` statements inside the loop, with the cursor -/
  | ret (w : Nat)
  /-- the `break`, with the cursor and `CommandLength` -/
  | brk (w CommandLength : Nat)
  deriving DecidableEq, Repr

/-- The `while (1)` loop of `UART_IsCommandAvailable`; `none` when the fuel runs out. -/
def syncLoop (N : Nat) (buf : Mem) (DmaLength : Nat) : Nat → Nat → Option Sync
  | 0, _ => none
  | fuel + 1, w =>
    if w = DmaLength then some (.ret w)
    else
      match skipToSync N buf DmaLength (N + 1) w with
      | none => none
      | some w1 =>
        if w1 = DmaLength then some (.ret w1)
        else
          let CommandLength :=
            if w1 < DmaLength then u16 (DmaLength - w1) else u16 ((DmaLength + N) - w1)
          if CommandLength < 8 then some (.ret w1)
          else if buf (DMA_INDEX N w1 1) = 0xCD then some (.brk w1 CommandLength)
          else syncLoop N buf DmaLength fuel (u16 (DMA_INDEX N w1 1))

/-- The de-obfuscation loop `for (i = 0; i < Size + 2; i++) Buffer[i] ^= Obfuscation[i % 16]`. -/
def deobfuscate (cmd : Mem) (Size : Nat) : Mem :=
  fun i => if i < Size + 2 then cmd i ^^^ obf i else cmd i

/-- The two mode switches `if (ID == 0x0514) bIsEncrypted = false;` and
`if (ID == 0x6902) bIsEncrypted = true;`, applied to the raw command ID. -/
def modeSwitch (ID : Nat) (bIsEncrypted : Bool) : Bool :=
  let e := if ID = 0x0514 then false else bIsEncrypted
  if ID = 0x6902 then true else e

/-- The part of `UART_IsCommandAvailable` after the `while (1)` loop, entered with
the cursor on the sync byte and `CommandLength` bytes available. -/
def extractFrame (CRC_Calculate : List Nat → Nat) (N DmaLength CommandLength : Nat)
    (st : State) : Bool × State :=
  let buf := st.UART_DMA_Buffer
  let w := st.gUART_WriteIndex
  let Index := u16 (DMA_INDEX N w 2)
  let Size := u16 ((buf (DMA_INDEX N Index 1) <<< 8) ||| buf Index)
  if Size + 8 > N then
    (false, { st with gUART_WriteIndex := DmaLength })
  else if CommandLength < Size + 8 then
    (false, st)
  else
    let Index := u16 (DMA_INDEX N Index 2)
    let TailIndex := u16 (DMA_INDEX N Index (Size + 2))
    if buf TailIndex ≠ 0xDC ∨ buf (DMA_INDEX N TailIndex 1) ≠ 0xBA then
      (false, { st with gUART_WriteIndex := DmaLength })
    else
      let cmd :=
        if TailIndex < Index then
          let ChunkSize := u16 (N - Index)
          memcpy (memcpy st.UART_Command 0 buf Index ChunkSize) ChunkSize buf 0 TailIndex
        else
          memcpy st.UART_Command 0 buf Index (TailIndex - Index)
      let TailIndex := u16 (DMA_INDEX N TailIndex 2)
      let buf :=
        if TailIndex < w then memset (memset buf w 0 (N - w)) 0 0 TailIndex
        else memset buf w 0 (TailIndex - w)
      let enc := modeSwitch (le16 cmd 0) st.bIsEncrypted
      let cmd := if enc then deobfuscate cmd Size else cmd
      let CRC := u16 (cmd Size ||| (cmd (Size + 1) <<< 8))
      (if CRC_Calculate (bytes cmd Size) ≠ CRC then false else true,
       { st with
          UART_DMA_Buffer := buf
          gUART_WriteIndex := TailIndex
          UART_Command := cmd
          bIsEncrypted := enc })

/-- The function `UART_IsCommandAvailable`: the returned boolean and the state it
leaves, `none` when the `while (1)` loop does not end within `N + 1` rounds. -/
def UART_IsCommandAvailable (CRC_Calculate : List Nat → Nat) (N DmaLength : Nat)
    (st : State) : Option (Bool × State) :=
  match syncLoop N st.UART_DMA_Buffer DmaLength (N + 1) st.gUART_WriteIndex with
  | none => none
  | some (.ret w) => some (false, { st with gUART_WriteIndex := w })
  | some (.brk w CommandLength) =>
    some (extractFrame CRC_Calculate N DmaLength CommandLength { st with gUART_WriteIndex := w })

/-! ## Command handlers -/

/-- The call `SendReply(pReply, Size)` as a state change: the emitted bytes go to `tx`. -/
def emitReply (pReply : List Nat) (Size : Nat) (st : State) : State :=
  { st with tx := st.tx ++ SendReply st.bIsEncrypted pReply Size }

/-- The statement `gFmRadioCountdown_500ms = fm_radio_countdown_500ms;`, present when the
build defines `ENABLE_FMRADIO`. -/
def resetFmCountdown (st : State) : State :=
  if st.ENABLE_FMRADIO then { st with gFmRadioCountdown_500ms := st.fm_radio_countdown_500ms }
  else st

/-- Modelled from the spec: `EEPROM_ReadBuffer(Address, pBuffer, Size)` of
`driver/eeprom.c`, which the sources do not include; it returns the `Size` stored bytes
from `Address` on. The call is recorded in `eepromOps`. -/
def EEPROM_ReadBuffer (Address Size : Nat) (st : State) : List Nat × State :=
  ((List.range Size).map fun i => st.eeprom (Address + i),
   { st with eepromOps := st.eepromOps ++ [.read Address Size] })

/-- Modelled from the spec: `EEPROM_WriteBuffer(Address, pBuffer)` of `driver/eeprom.c`,
which the sources do not include; it stores the 8 bytes at `pBuffer` to the addresses
`Address .. Address + 7`. The call is recorded in `eepromOps`. -/
def EEPROM_WriteBuffer (Address : Nat) (pBuffer : Mem) (st : State) : State :=
  { st with
      eeprom := memcpy st.eeprom Address pBuffer 0 8
      eepromOps := st.eepromOps ++ [.write Address] }

/-- The four bytes of a `uint32_t`, low byte first. -/
def bytes32 (x : Nat) : List Nat :=
  [x % 256, x / 256 % 256, x / 65536 % 256, x / 16777216 % 256]

/-- The record `Reply` that `SendVersion` builds: header `0x0515`, the version string and
its terminating zero in a field of 16 bytes, the two flags, two padding bytes and the
four challenge words. Bytes the code does not assign come from `uninit`. -/
def versionReply (st : State) : List Nat :=
  [0x15, 0x05, 36, 0]
    ++ (List.range 16).map (fun i =>
          if i < st.Version.length then st.Version.getD i 0
          else if i = st.Version.length then 0 else st.uninit (4 + i))
    ++ [if st.bHasCustomAesKey then 1 else 0, if st.bIsInLockScreen then 1 else 0,
        st.uninit 22, st.uninit 23]
    ++ bytes32 (st.gChallenge 0) ++ bytes32 (st.gChallenge 1)
    ++ bytes32 (st.gChallenge 2) ++ bytes32 (st.gChallenge 3)

/-- The function `SendVersion`. -/
def SendVersion (st : State) : State := emitReply (versionReply st) 40 st

/-- The function `IsBadChallenge(pKey, pIn, pResponse)`; `AES_Encrypt key iv input` is the
block that `AES_Encrypt(pKey, IV, pIn, IV, true)` leaves in `IV`. -/
def IsBadChallenge (AES_Encrypt : Mem → Mem → Mem → Mem) (pKey pIn pResponse : Mem) : Bool :=
  let IV : Mem := fun _ => 0
  let IV := AES_Encrypt pKey IV pIn
  (List.range 4).any fun i => IV i != pResponse i

/-- The handler `CMD_0514`: session init. -/
def CMD_0514 (pBuffer : Mem) (st : State) : State :=
  let st := { st with Timestamp := u32 (le32 pBuffer 4) }
  let st := resetFmCountdown st
  let st := { st with gSerialConfigCountDown_500ms := 12 }
  let st := { st with backlightOff := st.backlightOff + 1 }
  SendVersion st

/-- The handler `CMD_051B`: read EEPROM. The record `Reply` has 136 bytes, 128 of them
data; the result is `none` when `EEPROM_ReadBuffer` would write, or `SendReply` would
read, past its end. -/
def CMD_051B (pBuffer : Mem) (st : State) : Option State :=
  let Offset := u16 (le16 pBuffer 4)
  let Size := u8 (pBuffer 6)
  if u32 (le32 pBuffer 8) ≠ st.Timestamp then some st
  else
    let st := { st with gSerialConfigCountDown_500ms := 12 }
    let st := resetFmCountdown st
    let hdr := [0x1C, 0x05, u16 (Size + 4) % 256, u16 (Size + 4) / 256,
                Offset % 256, Offset / 256, Size, 0]
    let bLocked := if st.bHasCustomAesKey then st.gIsLocked else false
    if !bLocked then
      if Size > 128 then none
      else
        let r := EEPROM_ReadBuffer Offset Size st
        let Reply := hdr ++ r.1 ++ List.replicate (128 - Size) 0
        some (emitReply Reply (Size + 8) r.2)
    else
      if Size + 8 > 136 then none
      else some (emitReply (hdr ++ List.replicate 128 0) (Size + 8) st)

/-- One round of the chunk loop of `CMD_051D`, for the loop counter `i`; the state is
the protocol state and the local flag `bReloadEeprom`. -/
def writeChunk (pBuffer : Mem) (acc : State × Bool) (i : Nat) : State × Bool :=
  let st := acc.1
  let Offset := u16 (u16 (le16 pBuffer 4) + i * 8)
  let bReloadEeprom :=
    if Offset ≥ 0x0F30 ∧ Offset < 0x0F40 then (if !st.gIsLocked then true else acc.2)
    else acc.2
  if (Offset < 0x0E98 ∨ Offset ≥ 0x0EA0) ∨ !st.bIsInLockScreen ∨ pBuffer 7 ≠ 0 then
    (EEPROM_WriteBuffer Offset (fun j => pBuffer (12 + i * 8 + j)) st, bReloadEeprom)
  else (st, bReloadEeprom)

/-- The handler `CMD_051D`: write EEPROM. `SETTINGS_InitEEPROM` is counted in `reloads`. -/
def CMD_051D (pBuffer : Mem) (st : State) : State :=
  let Offset := u16 (le16 pBuffer 4)
  let Size := u8 (pBuffer 6)
  if u32 (le32 pBuffer 8) ≠ st.Timestamp then st
  else
    let st := { st with gSerialConfigCountDown_500ms := 12 }
    let st := resetFmCountdown st
    let Reply := [0x1E, 0x05, 2, 0, Offset % 256, Offset / 256]
    let bIsLocked := if st.bHasCustomAesKey then st.gIsLocked else st.bHasCustomAesKey
    let st :=
      if !bIsLocked then
        let r := (List.range (Size / 8)).foldl (writeChunk pBuffer) (st, false)
        if r.2 then { r.1 with reloads := r.1.reloads + 1 } else r.1
      else st
    emitReply Reply 6 st

/-- The field `Response[4]` of a `CMD_052D_t` command at `pBuffer`, as a word array. -/
def responseOf (pBuffer : Mem) : Mem := fun i => u32 (le32 pBuffer (4 + 4 * i))

/-- The handler `CMD_052D`: challenge response. `gTryCount` is a `uint8_t`. -/
def CMD_052D (AES_Encrypt : Mem → Mem → Mem → Mem) (pBuffer : Mem) (st : State) : State :=
  let Response : Mem := responseOf pBuffer
  let st := resetFmCountdown st
  let bIsLocked := st.bHasCustomAesKey
  let bIsLocked :=
    if !bIsLocked then IsBadChallenge AES_Encrypt st.gCustomAesKey st.gChallenge Response
    else bIsLocked
  let r :=
    if !bIsLocked then
      let b := IsBadChallenge AES_Encrypt st.gDefaultAesKey st.gChallenge Response
      (b, if b then u8 (st.gTryCount + 1) else st.gTryCount)
    else (bIsLocked, st.gTryCount)
  let r := if r.2 < 3 then (r.1, if !r.1 then 0 else r.2) else (true, 3)
  let Reply := [0x2E, 0x05, 4, 0, if r.1 then 1 else 0, st.uninit 5, st.uninit 6, st.uninit 7]
  emitReply Reply 8 { st with gIsLocked := r.1, gTryCount := r.2 }

/-! ## Radio and dock handlers -/

/-- A call of an outside routine, recorded. -/
def hwCall (c : HwCall) (st : State) : State :=
  { st with radio := { st.radio with hw := st.radio.hw ++ [c] } }

/-- Modelled from the spec: `BK4819_ReadRegister` of `driver/bk4819.c`, which the sources
do not include; the register file is a store. -/
def BK4819_ReadRegister (reg : Nat) (st : State) : Nat := st.radio.regs reg

/-- Modelled from the spec: `BK4819_WriteRegister` of `driver/bk4819.c`, which the sources
do not include; the value is stored, to be read back, and the call is recorded. -/
def BK4819_WriteRegister (reg val : Nat) (st : State) : State :=
  { st with radio :=
      { st.radio with
          regs := fun r => if r = reg then val else st.radio.regs r
          hw := st.radio.hw ++ [.BK4819_WriteRegister reg val] } }

/-- The registers that `BackupRegisters` saves, in its order. -/
def savedRegs : List Nat :=
  [0x10, 0x11, 0x12, 0x13, 0x14, 0x30, 0x37, 0x3D, 0x43, 0x47, 0x48, 0x7E]

/-- The function `BackupRegisters`. -/
def BackupRegisters (st : State) : State :=
  { st with radio :=
      { st.radio with R := fun r => if r ∈ savedRegs then BK4819_ReadRegister r st
                                    else st.radio.R r } }

/-- The function `RestoreRegisters`. -/
def RestoreRegisters (st : State) : State :=
  savedRegs.foldl (fun s r => BK4819_WriteRegister r (s.radio.R r) s) st

/-- The call `FUNCTION_Select(FUNCTION_FOREGROUND)`. -/
def FUNCTION_Select_FOREGROUND (st : State) : State :=
  hwCall .FUNCTION_Select_FOREGROUND { st with radio := { st.radio with inPowerSave := false } }

/-- The statements `gSimulateKey = 13; gSimulateHold = 19; gDebounceDefeat = 0;`. -/
def releaseKeys (st : State) : State :=
  { st with radio :=
      { st.radio with gSimulateKey := 13, gSimulateHold := 19, gDebounceDefeat := 0 } }

/-- The handler `CMD_0527`: read RSSI. -/
def CMD_0527 (st : State) : State :=
  let RSSI := BK4819_ReadRegister 0x67 st &&& 0x01FF
  let ExNoiseIndicator := u8 (BK4819_ReadRegister 0x65 st &&& 0x007F)
  let GlitchIndicator := u8 (BK4819_ReadRegister 0x63 st)
  emitReply [0x28, 0x05, 4, 0, RSSI % 256, RSSI / 256, ExNoiseIndicator, GlitchIndicator] 8 st

/-- The handler `CMD_0529`: read ADC. -/
def CMD_0529 (st : State) : State :=
  let V := u16 st.radio.adcVoltage
  let C := u16 st.radio.adcCurrent
  emitReply [0x2A, 0x05, 4, 0, V % 256, V / 256, C % 256, C / 256] 8 st

/-- The handler `CMD_052F`: session init with a reset of the radio state. -/
def CMD_052F (pBuffer : Mem) (st : State) : State :=
  let st := hwCall .radioStateReset st
  let st := if st.radio.inPowerSave then FUNCTION_Select_FOREGROUND st else st
  let st := { st with gSerialConfigCountDown_500ms := 12 }
  let st := { st with Timestamp := u32 (le32 pBuffer 4) }
  let st := { st with backlightOff := st.backlightOff + 1 }
  SendVersion st

/-- The handler `CMD_0601_ReadBK4819Reg`. -/
def CMD_0601_ReadBK4819Reg (pBuffer : Mem) (st : State) : State :=
  let reg := u8 (pBuffer 4)
  let value := u16 (BK4819_ReadRegister reg st)
  emitReply [0x01, 0x06, 3, 0, reg, value % 256, value / 256] 7 st

/-- The handler `CMD_0602_WriteBK4819Reg`. -/
def CMD_0602_WriteBK4819Reg (pBuffer : Mem) (st : State) : State :=
  BK4819_WriteRegister (u8 (pBuffer 4)) (u16 (le16 pBuffer 5)) st

/-- The handler `CMD_0803`: screen dump, sent without a frame. -/
def CMD_0803 (st : State) : State :=
  { st with tx := st.tx ++ [0xAB, 0xEF] ++ bytes st.radio.gStatusLine 128
      ++ bytes st.radio.gFrameBuffer 896 }

/-- The handler `CMD_0801`: simulate a key press. -/
def CMD_0801 (pBuffer : Mem) (st : State) : State :=
  let key := u8 (pBuffer 4) &&& 0x1f
  let click := u8 (pBuffer 4) &&& 32 ≠ 0
  let r := st.radio
  let r :=
    if key ≠ r.KEY_INVALID then
      let r := { r with gSimulateKey := key, gDebounceDefeat := 0 }
      if key = r.KEY_PTT then { r with gPttCounter := 40 } else r
    else r
  let r := { r with gSimulateHold := if click then r.KEY_INVALID else key }
  { st with radio := r }

/-- Element `k` of the array `RegData` of a `CMD_085X_t` command. -/
def RegData (pBuffer : Mem) (k : Nat) : Nat := u16 (le16 pBuffer (6 + 2 * k))

/-- Element `k` of the array `GPIOData` of a `CMD_086X_t` command. -/
def GPIOData (pBuffer : Mem) (k : Nat) : Nat := u8 (pBuffer (6 + k))

/-- The handler `CMD_0850`: write to multiple registers. -/
def CMD_0850 (pBuffer : Mem) (st : State) : State :=
  (List.range (u16 (le16 pBuffer 4))).foldl
    (fun s i => BK4819_WriteRegister (RegData pBuffer (2 * i)) (RegData pBuffer (2 * i + 1)) s)
    st

/-- The handler `CMD_0851`: read multiple registers, one reply each. -/
def CMD_0851 (pBuffer : Mem) (st : State) : State :=
  (List.range (u16 (le16 pBuffer 4))).foldl
    (fun s i =>
      let Register := RegData pBuffer i
      let Value := u16 (BK4819_ReadRegister Register s)
      emitReply [0x51, 0x09, 4, 0, Register % 256, Register / 256, Value % 256, Value / 256] 8 s)
    st

/-- The handler `CMD_0860`: set and clear GPIO bits. -/
def CMD_0860 (pBuffer : Mem) (st : State) : State :=
  (List.range (u16 (le16 pBuffer 4))).foldl
    (fun s i =>
      let bit := GPIOData pBuffer (2 * i + 1)
      let port := GPIOData pBuffer (2 * i)
      if port < 3 then hwCall (.GPIO_SetBit port bit) s
      else if port < 6 then hwCall (.GPIO_ClearBit (port - 3) bit) s
      else s)
    st

/-- The handler `CMD_0861`: read GPIO bits, one reply each. The local `bit` is not
assigned for a port above 2; its value is then taken from `uninit`. -/
def CMD_0861 (pBuffer : Mem) (st : State) : State :=
  (List.range (u16 (le16 pBuffer 4))).foldl
    (fun s i =>
      let port := GPIOData pBuffer (2 * i)
      let bit := if port < 3 then s.radio.gpio port (GPIOData pBuffer (2 * i + 1))
                 else s.uninit 6 ≠ 0
      emitReply [0x61, 0x09, 2, 0, u8 (port + (if bit then 0 else 3)),
                 GPIOData pBuffer (2 * i + 1)] 6 s)
    st

/-! ## Blocking sub-modes and dispatch -/

/-- The byte batches that arrive on the serial line, one before each poll of a blocking
loop, oldest first. -/
abbrev Rx := List (List Nat)

/-- How a handler that may block ends on a given input. -/
inductive Run where
  /-- the handler has returned, with the input not yet consumed -/
  | done (st : State) (rx : Rx)
  /-- the input ended while a blocking loop was polling; the state reached -/
  | waiting (st : State)
  /-- no behaviour is defined: an access past the end of a record, or a loop out of fuel -/
  | undefined

/-- What lies outside the engine: the capacity of the ring and the two driver functions. -/
structure Env where
  /-- the value `sizeof(UART_DMA_Buffer)` -/
  N : Nat
  CRC_Calculate : List Nat → Nat
  AES_Encrypt : Mem → Mem → Mem → Mem

/-- Modelled from the spec: the transport, which stores each received byte at the write
cursor `DMA_CH0->ST` and advances that cursor, wrapping at the capacity. -/
def receive (N : Nat) (batch : List Nat) (st : State) : State :=
  batch.foldl
    (fun s b =>
      { s with
          UART_DMA_Buffer := fun i => if i = s.dmaST % N then b else s.UART_DMA_Buffer i
          dmaST := (s.dmaST + 1) % N })
    st

/-- A call of `UART_IsCommandAvailable` at the present position of the DMA engine;
`DmaLength` is `DMA_CH0->ST & 0xFFF`. -/
def poll (env : Env) (st : State) : Option (Bool × State) :=
  UART_IsCommandAvailable env.CRC_Calculate env.N (st.dmaST % 4096) st

/-- The call `SendReply(Reply, Size)` for a reply that lies in `UART_Command.Buffer`:
the obfuscation loop changes the buffer itself. -/
def emitReplyInPlace (Size : Nat) (st : State) : State :=
  { st with
      tx := st.tx ++ SendReply st.bIsEncrypted (bytes st.UART_Command Size) Size
      UART_Command := fun i =>
        if st.bIsEncrypted ∧ i < Size then st.UART_Command i ^^^ obf i else st.UART_Command i }

/-- The locals `sync`, `icnt` and `freq` of the sweep in `CMD_0808`. -/
structure Sweep where
  sync : Nat
  icnt : Nat
  freq : Nat

/-- One round of the `for (tot = 0; tot < steps; freq += step, tot++)` loop of `CMD_0808`. -/
def sweepStep (step steps : Nat) (acc : State × Sweep) (tot : Nat) : State × Sweep :=
  let st := acc.1
  let v := acc.2
  let st := hwCall (.BK4819_SetFrequency v.freq) st
  let st := hwCall (.BK4819_PickRXFilterPathBasedOnFrequency v.freq) st
  let reg := u16 (BK4819_ReadRegister 0x30 st)
  let st := BK4819_WriteRegister 0x30 0 st
  let st := BK4819_WriteRegister 0x30 reg st
  let st := BK4819_WriteRegister 0x10 (st.radio.R 0x10 &&& 0x3ff) st
  let st := BK4819_WriteRegister 0x11 (st.radio.R 0x11 &&& 0x3ff) st
  let st := BK4819_WriteRegister 0x12 (st.radio.R 0x12 &&& 0x3ff) st
  let st := BK4819_WriteRegister 0x13 (st.radio.R 0x13 &&& 0x3ff) st
  let st := BK4819_WriteRegister 0x14 (st.radio.R 0x14 &&& 0x3ff) st
  let st := hwCall (.SYSTICK_DelayUs 100) st
  let sig := u16 (st.radio.rssi st.radio.rssiReads)
  let st := { st with radio := { st.radio with rssiReads := st.radio.rssiReads + 1 } }
  let st := { st with UART_Command := fun i =>
                if i = 6 + v.icnt then (if sig > 255 then 255 else sig) else st.UART_Command i }
  let icnt := v.icnt + 1
  if icnt ≥ 100 ∨ tot ≥ steps - 1 then
    let st := { st with UART_Command := fun i =>
                  if i = 0 then 0x08 else if i = 1 then 0x09
                  else if i = 2 then 102 else if i = 3 then 0
                  else if i = 5 then v.sync else if i = 4 then u8 icnt
                  else st.UART_Command i }
    let st := emitReplyInPlace 106 st
    (st, { sync := u8 (v.sync + 1), icnt := 0, freq := u32 (v.freq + step) })
  else
    (st, { sync := v.sync, icnt := icnt, freq := u32 (v.freq + step) })

/-- One sweep of `CMD_0808`: the declarations of `sync`, `icnt`, `freq` and the `for` loop. -/
def sweep (step steps startFreq : Nat) (st : State) : State :=
  ((List.range steps).foldl (sweepStep step steps)
    (st, { sync := 0, icnt := 0, freq := startFreq })).1

/-- The value of `startFreq`: `MidFreq - ((steps >> 1) * step)` in `uint32_t`. -/
def startFreqOf (MidFreq step steps : Nat) : Nat :=
  u32 (MidFreq + 4294967296 - u32 ((steps >>> 1) * step))

/-- The statements of `CMD_0808` between the density test and the `while (true)` loop. -/
def scanEntry (st : State) : State :=
  let st := FUNCTION_Select_FOREGROUND st
  let st := BackupRegisters st
  let st := hwCall .RADIO_SetupAGC st
  let st := hwCall .AUDIO_AudioPathOff st
  let st := BK4819_WriteRegister 0x30 (BK4819_ReadRegister 0x30 st &&& 0xFDFF) st
  let st := BK4819_WriteRegister 0x47 (BK4819_ReadRegister 0x47 st &&& 0xFEFF) st
  hwCall .BK4819_SetFilterBandwidth_WIDE st

/-- The exit of the scan on an adjust command with `Density == 0`. -/
def scanRetune (MidFreq : Nat) (st : State) : State :=
  let st := RestoreRegisters st
  let st := { st with radio := { st.radio with rxFrequency := MidFreq, txFrequency := MidFreq } }
  let st := hwCall .RADIO_SetupRegisters st
  releaseKeys st

/-- The exit of the scan on any command other than `0x0809`. -/
def scanAbort (st : State) : State :=
  let st := SendVersion st
  let st := RestoreRegisters st
  let st := hwCall .RADIO_SetupRegisters st
  releaseKeys st

/-- The `while (true)` loop of `CMD_0808`, with the locals `step`, `steps`, `startFreq`;
each round takes one batch of the input before it polls. -/
def scanLoop (env : Env) : Nat → Nat → Nat → Nat → State → Rx → Run
  | 0, _, _, _, _, _ => .undefined
  | _ + 1, _, _, _, st, [] => .waiting st
  | fuel + 1, step, steps, startFreq, st, batch :: rx =>
    match poll env (receive env.N batch st) with
    | none => .undefined
    | some (true, st) =>
      if le16 st.UART_Command 0 = 0x809 then
        if u16 (le16 st.UART_Command 12) = 0 then
          .done (scanRetune (u32 (le32 st.UART_Command 4)) st) rx
        else
          let step := u32 (le32 st.UART_Command 8)
          let steps := u16 (le16 st.UART_Command 12) ||| 1
          let startFreq := startFreqOf (u32 (le32 st.UART_Command 4)) step steps
          scanLoop env fuel step steps startFreq (sweep step steps startFreq st) rx
      else .done (scanAbort st) rx
    | some (false, st) =>
      scanLoop env fuel step steps startFreq (sweep step steps startFreq st) rx

/-- The handler `CMD_0808`: frequency scan. The command is read from
`UART_Command.Buffer`, which also receives the replies. -/
def CMD_0808 (env : Env) (st : State) (rx : Rx) : Run :=
  let Density := u16 (le16 st.UART_Command 12)
  if Density < 0x300 ∧ Density > 0 then
    let step := u32 (le32 st.UART_Command 8)
    let steps := Density ||| 1
    let startFreq := startFreqOf (u32 (le32 st.UART_Command 4)) step steps
    scanLoop env (rx.length + 1) step steps startFreq (scanEntry st) rx
  else .done st rx

/-- The statements of `CMD_0870` after its loop. -/
def passThroughExit (st : State) : State :=
  let st := RestoreRegisters st
  let st := hwCall .RADIO_SetupRegisters st
  releaseKeys st

/-- The `while (true)` loop of `CMD_0870`; `handle` stands for `UART_HandleCommand`. Each
round takes one batch of the input before it polls. -/
def passThroughLoop (env : Env) (handle : State → Rx → Run) : Nat → State → Rx → Run
  | 0, _, _ => .undefined
  | _ + 1, st, [] => .waiting st
  | fuel + 1, st, batch :: rx =>
    match poll env (receive env.N batch st) with
    | none => .undefined
    | some (true, st) =>
      if le16 st.UART_Command 0 = 0x871 then .done (passThroughExit st) rx
      else if le16 st.UART_Command 0 ≠ 0x870 then
        match handle st rx with
        | .done st rx => passThroughLoop env handle fuel (hwCall (.SYSTICK_DelayUs 100) st) rx
        | .waiting st => .waiting st
        | .undefined => .undefined
      else passThroughLoop env handle fuel (hwCall (.SYSTICK_DelayUs 100) st) rx
    | some (false, st) =>
      passThroughLoop env handle fuel (hwCall (.SYSTICK_DelayUs 100) st) rx

/-- The handler `CMD_0870`: hardware pass-through. -/
def CMD_0870 (env : Env) (handle : State → Rx → Run) (st : State) (rx : Rx) : Run :=
  passThroughLoop env handle (rx.length + 1) (BackupRegisters (FUNCTION_Select_FOREGROUND st)) rx

/-- The function `UART_HandleCommand` with room for `depth` nested calls of itself. The
call inside `CMD_0870` is never made for the ID `0x0870`, so no run nests deeper
than two. -/
def handleAt (env : Env) : Nat → State → Rx → Run
  | 0, _, _ => .undefined
  | depth + 1, st, rx =>
    let ID := le16 st.UART_Command 0
    let st := { st with handled := st.handled ++ [ID] }
    let pBuffer := st.UART_Command
    if ID = 0x0514 then .done (CMD_0514 pBuffer st) rx
    else if ID = 0x051B then
      match CMD_051B pBuffer st with
      | some st => .done st rx
      | none => .undefined
    else if ID = 0x051D then .done (CMD_051D pBuffer st) rx
    else if ID = 0x051F then .done st rx
    else if ID = 0x0521 then .done st rx
    else if ID = 0x0527 then .done (CMD_0527 st) rx
    else if ID = 0x0529 then .done (CMD_0529 st) rx
    else if ID = 0x052D then .done (CMD_052D env.AES_Encrypt pBuffer st) rx
    else if ID = 0x052F then .done (CMD_052F pBuffer st) rx
    else if ID = 0x05DD then .done (hwCall .NVIC_SystemReset st) rx
    else if ID = 0x0601 ∧ st.radio.ENABLE_UART_RW_BK_REGS then
      .done (CMD_0601_ReadBK4819Reg pBuffer st) rx
    else if ID = 0x0602 ∧ st.radio.ENABLE_UART_RW_BK_REGS then
      .done (CMD_0602_WriteBK4819Reg pBuffer st) rx
    else if ID = 0x0803 ∧ st.radio.ENABLE_SCREEN_DUMP then .done (CMD_0803 st) rx
    else if ID = 0x0801 ∧ st.radio.ENABLE_DOCK then .done (CMD_0801 pBuffer st) rx
    else if ID = 0x0808 ∧ st.radio.ENABLE_DOCK then CMD_0808 env st rx
    else if ID = 0x0850 ∧ st.radio.ENABLE_DOCK then .done (CMD_0850 pBuffer st) rx
    else if ID = 0x0851 ∧ st.radio.ENABLE_DOCK then .done (CMD_0851 pBuffer st) rx
    else if ID = 0x0860 ∧ st.radio.ENABLE_DOCK then .done (CMD_0860 pBuffer st) rx
    else if ID = 0x0861 ∧ st.radio.ENABLE_DOCK then .done (CMD_0861 pBuffer st) rx
    else if ID = 0x0870 ∧ st.radio.ENABLE_DOCK then CMD_0870 env (handleAt env depth) st rx
    else .done st rx

/-- The function `UART_HandleCommand`. -/
def UART_HandleCommand (env : Env) (st : State) (rx : Rx) : Run := handleAt env 2 st rx

/-! ## Vocabulary for statements about frames -/

/-- Number of bytes between the cursor `s` and `DmaLength`, going round the ring. -/
def avail (N DmaLength s : Nat) : Nat :=
  if s < DmaLength then DmaLength - s else (DmaLength + N) - s

/-- The size field of the frame whose sync byte is at `s`, as `UART_IsCommandAvailable`
reads it. -/
def sizeField (N : Nat) (buf : Mem) (s : Nat) : Nat :=
  u16 ((buf (DMA_INDEX N s 3) <<< 8) ||| buf (DMA_INDEX N s 2))

/-- Byte `k` of the payload-and-CRC region of a frame whose sync byte is at `s`. -/
def rawPayload (N : Nat) (buf : Mem) (s : Nat) : Mem :=
  fun k => buf (DMA_INDEX N s (4 + k))

/-- The command buffer after a frame of size `S` with sync byte at `s` has been copied
out of the ring and decoded under the mode in force after the mode switches. -/
def decodedCommand (N : Nat) (buf : Mem) (s S : Nat) (enc : Bool) (old : Mem) : Mem :=
  fun k =>
    if k < S + 2 then
      (if modeSwitch (le16 (rawPayload N buf s) 0) enc
        then rawPayload N buf s k ^^^ obf k else rawPayload N buf s k)
    else old k

/-- The ring after the bytes of a frame of `L` bytes starting at `s` have been cleared,
written as the two `memset` branches of the source. -/
def clearedRing (N : Nat) (buf : Mem) (s L : Nat) : Mem :=
  if DMA_INDEX N s L < s then memset (memset buf s 0 (N - s)) 0 0 (DMA_INDEX N s L)
  else memset buf s 0 (DMA_INDEX N s L - s)

/-! ## Concrete collaborators for evaluating the engine -/

/-- One shift of the CRC register, polynomial `0x1021`. -/
def crcStep (crc : Nat) : Nat :=
  if crc &&& 0x8000 ≠ 0 then ((crc <<< 1) ^^^ 0x1021) % 65536 else (crc <<< 1) % 65536

/-- The CRC register after one more input byte. -/
def crcByte (crc b : Nat) : Nat := Nat.iterate crcStep 8 (crc ^^^ (b <<< 8))

/-- Modelled from the spec: `CRC_Calculate` of `driver/crc.c`, which the sources do not
include; the spec calls it a CRC-16, taken here as the CCITT polynomial with a zero
initial value. -/
def CRC16 (l : List Nat) : Nat := l.foldl crcByte 0

/-- A buffer that holds zero everywhere. -/
def zeroMem : Mem := fun _ => 0

/-- A buffer that holds the bytes of a list, zero after them. -/
def memOf (l : List Nat) : Mem := fun i => l.getD i 0

/-- A radio with every register zero, every static zero and every optional command group
compiled in; `KEY_INVALID` is 19 and `KEY_PTT` is 16. -/
def idleRadio : Radio :=
  { ENABLE_DOCK := true, ENABLE_UART_RW_BK_REGS := true, ENABLE_SCREEN_DUMP := true,
    regs := zeroMem, R := zeroMem, hw := [], rssi := zeroMem, rssiReads := 0,
    adcVoltage := 0, adcCurrent := 0, gpio := fun _ _ => false,
    gStatusLine := zeroMem, gFrameBuffer := zeroMem,
    gSimulateKey := 0, gSimulateHold := 0, gDebounceDefeat := 0, gPttCounter := 0,
    KEY_INVALID := 19, KEY_PTT := 16, rxFrequency := 0, txFrequency := 0,
    inPowerSave := false }

/-- The state after reset with an empty ring: obfuscation on, nothing received or sent. -/
def idleState : State :=
  { UART_DMA_Buffer := zeroMem, gUART_WriteIndex := 0, UART_Command := zeroMem,
    bIsEncrypted := true, Timestamp := 0, gIsLocked := false, gTryCount := 0,
    bHasCustomAesKey := false, bIsInLockScreen := false, gCustomAesKey := zeroMem,
    gDefaultAesKey := zeroMem, gChallenge := zeroMem, gSerialConfigCountDown_500ms := 0,
    ENABLE_FMRADIO := true, fm_radio_countdown_500ms := 4, gFmRadioCountdown_500ms := 0,
    Version := [], uninit := zeroMem,
    eeprom := zeroMem, eepromOps := [], reloads := 0, backlightOff := 0, tx := [],
    dmaST := 0, handled := [], radio := idleRadio }

/-- A ring of `N` bytes that holds the bytes of `frame` at the positions
`(p + k) % N` and zero everywhere else. -/
def ringWith (N p : Nat) (frame : List Nat) : Mem :=
  fun i => if i < N ∧ (i + N - p) % N < frame.length then frame.getD ((i + N - p) % N) 0 else 0

/-- The command ID that `UART_IsCommandAvailable` sees, before decoding, in the bytes
that `SendReply` emits: bytes 4 and 5 of the frame, little-endian. -/
def replyRawID (bIsEncrypted : Bool) (pReply : List Nat) (Size : Nat) : Nat :=
  (SendReply bIsEncrypted pReply Size).getD 4 0
    ||| ((SendReply bIsEncrypted pReply Size).getD 5 0 <<< 8)

/-- A list of `S + 8` bytes laid out as a frame: sync pair, size field `S`, `S + 2` bytes
of payload and CRC, footer tag. -/
def wellFormedFrame (F : List Nat) (S : Nat) : Prop :=
  F.length = S + 8 ∧ F.getD 0 0 = 0xAB ∧ F.getD 1 0 = 0xCD
    ∧ u16 ((F.getD 3 0 <<< 8) ||| F.getD 2 0) = S
    ∧ F.getD (S + 6) 0 = 0xDC ∧ F.getD (S + 7) 0 = 0xBA

/-- The ring holds byte `k` of `F` at position `(p + k) % N`, for every `k`. -/
def holdsFrameAt (N : Nat) (buf : Mem) (p : Nat) (F : List Nat) : Prop :=
  ∀ k < F.length, buf (DMA_INDEX N p k) = F.getD k 0

/-- The cursor `s` is on the sync byte of a frame with size field `S` that is complete in
the ring: sync pair, at least `S + 8` bytes up to `DmaLength`, footer tag in place. -/
def framedAt (N : Nat) (buf : Mem) (DmaLength s S : Nat) : Prop :=
  s ≠ DmaLength ∧ buf s = 0xAB ∧ buf (DMA_INDEX N s 1) = 0xCD
    ∧ sizeField N buf s = S ∧ S + 8 ≤ avail N DmaLength s
    ∧ buf (DMA_INDEX N s (S + 6)) = 0xDC ∧ buf (DMA_INDEX N s (S + 7)) = 0xBA

/-- A frame with size field 20: sync pair, size, the payload bytes `1 .. 20`, the CRC
bytes `0x12 0x34`, footer tag. -/
def sampleFrame20 : List Nat :=
  [0xAB, 0xCD, 20, 0,
   1, 2, 3, 4, 5, 6, 7, 8, 9, 10, 11, 12, 13, 14, 15, 16, 17, 18, 19, 20,
   0x12, 0x34, 0xDC, 0xBA]

/-- A stand-in for the AES block function, used to evaluate the handlers: word-wise sum
of key, initialisation vector and input. -/
def toyAES (key iv input : Mem) : Mem := fun i => (key i + iv i + input i) % 4294967296

/-- A `CMD_052D_t` command with the four response words `r0 .. r3`. -/
def challengeResponse (r0 r1 r2 r3 : Nat) : Mem :=
  memOf ([0x2D, 0x05, 16, 0] ++ bytes32 r0 ++ bytes32 r1 ++ bytes32 r2 ++ bytes32 r3)

/-- A state with no custom key provisioned: the key slot reads as a blank EEPROM, the
default key is `1, 2, 3, 4`, the challenge is `5, 6, 7, 8`. -/
def sampleAuthState : State :=
  { idleState with
      gCustomAesKey := fun _ => 0xFFFFFFFF
      gDefaultAesKey := memOf [1, 2, 3, 4]
      gChallenge := memOf [5, 6, 7, 8] }

/-- Whether a response passes the test against the contents of `gCustomAesKey`:
1 when it does, 0 when it does not. -/
def passesCustomTest (AES_Encrypt : Mem → Mem → Mem → Mem) (st : State) (pBuffer : Mem) : Nat :=
  if IsBadChallenge AES_Encrypt st.gCustomAesKey st.gChallenge (responseOf pBuffer) then 0 else 1

/-- A `CMD_051B_t` command: read `Size` bytes at `Offset`, with the session token `T`. -/
def readCommand (Offset Size T : Nat) : Mem :=
  memOf ([0x1B, 0x05, 8, 0, Offset % 256, Offset / 256 % 256, Size, 0] ++ bytes32 T)

/-- A `CMD_051D_t` command: write the bytes `Data` at `Offset`, with the session token `T`
and the flag `bAllowPassword`. -/
def writeCommand (Offset : Nat) (bAllowPassword : Bool) (T : Nat) (Data : List Nat) : Mem :=
  memOf ([0x1D, 0x05, (8 + Data.length) % 256, (8 + Data.length) / 256,
          Offset % 256, Offset / 256 % 256, Data.length, if bAllowPassword then 1 else 0]
    ++ bytes32 T ++ Data)

/-- An EEPROM whose byte at address `a` is `a % 251 + 1`, so that no byte is zero. -/
def sampleEeprom : Mem := fun a => a % 251 + 1

/-- The record `Reply` of `CMD_051B` when it is sent: header `0x051C`, the echoed `Offset`
and `Size`, and 128 data bytes that hold the EEPROM contents followed by zeros, or
zeros only when a custom key is provisioned and the device is locked. -/
def readReply (pBuffer : Mem) (st : State) : List Nat :=
  [0x1C, 0x05, u16 (u8 (pBuffer 6) + 4) % 256, u16 (u8 (pBuffer 6) + 4) / 256,
    u16 (le16 pBuffer 4) % 256, u16 (le16 pBuffer 4) / 256, u8 (pBuffer 6), 0]
  ++ (if st.bHasCustomAesKey && st.gIsLocked then List.replicate 128 0
      else (List.range (u8 (pBuffer 6))).map (fun i => st.eeprom (u16 (le16 pBuffer 4) + i))
        ++ List.replicate (128 - u8 (pBuffer 6)) 0)

/-- Number of buffered bytes: write cursor minus read cursor, modulo the capacity. -/
def available (N DmaLength w : Nat) : Nat := (DmaLength + N - w) % N

/-- What the `while (1)` loop establishes when it is left. -/
def SyncPost (N : Nat) (buf : Mem) (D w : Nat) : Sync → Prop
  | .ret w1 => w1 < N ∧ available N D w1 ≤ available N D w
  | .brk s len => s < N ∧ s ≠ D ∧ available N D s ≤ available N D w
      ∧ len = available N D s ∧ 8 ≤ len ∧ buf s = 0xAB ∧ buf (DMA_INDEX N s 1) = 0xCD

/-- The frame a host sends for a command: sync pair, size, the command followed by its
CRC-16, obfuscated when `enc` is set, and the footer tag. -/
def commandFrame (enc : Bool) (payload : List Nat) : List Nat :=
  let body := payload ++ [CRC16 payload % 256, CRC16 payload / 256]
  [0xAB, 0xCD, payload.length % 256, payload.length / 256]
    ++ (List.range body.length).map
        (fun i => if enc then body.getD i 0 ^^^ obf i else body.getD i 0)
    ++ [0xDC, 0xBA]

/-- The environment used to evaluate the engine: a ring of 256 bytes, CRC-16/CCITT and
the stand-in block function. -/
def sampleEnv : Env := { N := 256, CRC_Calculate := CRC16, AES_Encrypt := toyAES }

/-- State reached by a run, or `none` when the run is undefined. -/
def Run.state : Run → Option State
  | .done st _ => some st
  | .waiting st => some st
  | .undefined => none

/-- The command structure `CMD_0808_t` / `CMD_0809_t` with the given middle frequency,
step and density; the header is that of `0x0808`. -/
def scanCommand (MidFreq step Density : Nat) : Mem :=
  memOf ([0x08, 0x08, 12, 0] ++ bytes32 MidFreq ++ bytes32 step
    ++ [Density % 256, Density / 256 % 256, 0, 0])

/-- The frame a host sends for the command `0x0514` with the given `Timestamp`; with `enc`
set its first two payload bytes on the wire are `0x02 0x69`. -/
def helloFrame (enc : Bool) (Timestamp : Nat) : List Nat :=
  commandFrame enc ([0x14, 0x05, 4, 0] ++ bytes32 Timestamp)

/-- The statics `R10 .. R7E` together with the log of handled command IDs: the part of the
state that only `BackupRegisters` and the dispatcher write. -/
def savedAndLog (st : State) : Mem × List Nat := (st.radio.R, st.handled)

/-- A frame of size 4 whose payload starts with the raw ID `0x0514` and whose CRC field
`0x12 0x34` does not match the payload. -/
def switchFrameBadCrc : List Nat :=
  [0xAB, 0xCD, 4, 0, 0x14, 0x05, 0, 0, 0x12, 0x34, 0xDC, 0xBA]

/-- A ring of 16 bytes that holds, from offset 0, the header of a frame with size field 8,
the capacity less 8. -/
def fullRing16 : Mem := ringWith 16 0 [0xAB, 0xCD, 8, 0, 1, 2, 3, 4, 5, 6, 7, 8, 9, 10, 11]

/-- A ring of 16 bytes that holds, from offset 0, a frame with size field 7: fifteen
bytes, one less than the capacity. -/
def largestFrame16 : Mem :=
  ringWith 16 0 [0xAB, 0xCD, 7, 0, 1, 2, 3, 4, 5, 6, 7, 0x12, 0x34, 0xDC, 0xBA]

/-- Whether `P` is a record `REPLY_0808_t` as the sweep fills it in: 106 bytes, header
`0x0908` with size 102, then `Length` and `Sync`. -/
def isScanReply (P : List Nat) (Length Sync : Nat) : Prop :=
  P.length = 106 ∧ P.getD 0 0 = 0x08 ∧ P.getD 1 0 = 0x09 ∧ P.getD 2 0 = 102 ∧ P.getD 3 0 = 0
    ∧ P.getD 4 0 = Length ∧ P.getD 5 0 = Sync

/-- The serial output after the replies `pkts`, each of 106 bytes, have been sent in
order by `SendReply`, following the output `tx`. -/
def sendAll (bIsEncrypted : Bool) (pkts : List (List Nat)) (tx : List Nat) : List Nat :=
  pkts.foldl (fun t P => t ++ SendReply bIsEncrypted P 106) tx

/-! # Theorems -/

/-! ## Ring arithmetic -/

theorem u16_of_lt {x : Nat} (h : x < 65536) : u16 x = x := Nat.mod_eq_of_lt h

theorem DMA_INDEX_lt {N : Nat} (hN : 0 < N) (x y : Nat) : DMA_INDEX N x y < N :=
  Nat.mod_lt _ hN

theorem u16_DMA_INDEX {N : Nat} (hN : 0 < N) (hN16 : N ≤ 65536) (x y : Nat) :
    u16 (DMA_INDEX N x y) = DMA_INDEX N x y :=
  u16_of_lt (Nat.lt_of_lt_of_le (DMA_INDEX_lt hN x y) hN16)

theorem DMA_INDEX_DMA_INDEX (N x y z : Nat) :
    DMA_INDEX N (DMA_INDEX N x y) z = DMA_INDEX N x (y + z) := by
  unfold DMA_INDEX
  rw [Nat.mod_add_mod, Nat.add_assoc]

theorem DMA_INDEX_wrap {N s k : Nat} (hs : s < N) (hk : k ≤ N) :
    DMA_INDEX N s k = if s + k < N then s + k else s + k - N := by
  unfold DMA_INDEX
  split
  · exact Nat.mod_eq_of_lt ‹_›
  · rw [Nat.mod_eq_sub_mod (by omega)]
    exact Nat.mod_eq_of_lt (by omega)

theorem DMA_INDEX_zero {N s : Nat} (hs : s < N) : DMA_INDEX N s 0 = s := by
  unfold DMA_INDEX; simpa using Nat.mod_eq_of_lt hs

theorem skipToSync_at_sync (N : Nat) (buf : Mem) (DmaLength fuel s : Nat) (h : buf s = 0xAB) :
    skipToSync N buf DmaLength (fuel + 1) s = some s := by
  simp [skipToSync, h]

theorem syncLoop_at_sync (N : Nat) (buf : Mem) (DmaLength fuel s : Nat)
    (hne : s ≠ DmaLength) (h0 : buf s = 0xAB) (h1 : buf (DMA_INDEX N s 1) = 0xCD)
    (h8 : 8 ≤ avail N DmaLength s) (h16 : avail N DmaLength s < 65536) :
    syncLoop N buf DmaLength (fuel + 1) s = some (.brk s (avail N DmaLength s)) := by
  unfold avail at h8 h16 ⊢
  rw [syncLoop, if_neg hne, skipToSync_at_sync N buf DmaLength N s h0]
  simp only [if_neg hne]
  split
  · rw [if_pos ‹_›] at h8 h16
    simp [u16_of_lt h16, h1, Nat.not_lt.mpr h8]
  · rw [if_neg ‹_›] at h8 h16
    simp [u16_of_lt h16, h1, Nat.not_lt.mpr h8]


/-! ## Extraction of a well-framed command -/

theorem memcpy_apply (dst : Mem) (d : Nat) (src : Mem) (s n i : Nat) :
    memcpy dst d src s n i = if d ≤ i ∧ i < d + n then src (s + (i - d)) else dst i := rfl

theorem memset_apply (dst : Mem) (d v n i : Nat) :
    memset dst d v n i = if d ≤ i ∧ i < d + n then v else dst i := rfl

theorem copy_eq {N w S : Nat} (hw : w < N) (hS : S + 8 < N) (hN16 : N ≤ 65536)
    (cmd buf : Mem) :
    (if DMA_INDEX N w (S + 6) < DMA_INDEX N w 4 then
        memcpy (memcpy cmd 0 buf (DMA_INDEX N w 4) (u16 (N - DMA_INDEX N w 4)))
          (u16 (N - DMA_INDEX N w 4)) buf 0 (DMA_INDEX N w (S + 6))
      else memcpy cmd 0 buf (DMA_INDEX N w 4) (DMA_INDEX N w (S + 6) - DMA_INDEX N w 4))
    = fun k => if k < S + 2 then rawPayload N buf w k else cmd k := by
  funext k
  rw [DMA_INDEX_wrap hw (by omega : 4 ≤ N), DMA_INDEX_wrap hw (by omega : S + 6 ≤ N)]
  by_cases hk : k < S + 2
  · simp only [if_pos hk, rawPayload]
    rw [DMA_INDEX_wrap hw (by omega : 4 + k ≤ N)]
    simp only [u16]
    split_ifs <;> simp only [memcpy_apply] <;> split_ifs <;> first | omega | (congr 1; omega)
  · simp only [if_neg hk, u16]
    split_ifs <;> simp only [memcpy_apply] <;> split_ifs <;> omega

theorem le16_copied (N : Nat) (buf : Mem) (s S : Nat) (old : Mem) :
    le16 (fun k => if k < S + 2 then rawPayload N buf s k else old k) 0
      = le16 (rawPayload N buf s) 0 := by
  simp [le16]

theorem decode_eq (N : Nat) (buf : Mem) (s S : Nat) (enc : Bool) (old : Mem) :
    (if modeSwitch (le16 (fun k => if k < S + 2 then rawPayload N buf s k else old k) 0) enc
        = true
      then deobfuscate (fun k => if k < S + 2 then rawPayload N buf s k else old k) S
      else fun k => if k < S + 2 then rawPayload N buf s k else old k)
    = decodedCommand N buf s S enc old := by
  rw [le16_copied]
  funext k
  unfold decodedCommand deobfuscate
  split_ifs <;> simp_all

theorem extractFrame_framed (crc : List Nat → Nat) {N DmaLength len S : Nat} (st : State)
    (hN16 : N ≤ 65536) (hw : st.gUART_WriteIndex < N) (hS : S + 8 < N)
    (hSize : sizeField N st.UART_DMA_Buffer st.gUART_WriteIndex = S)
    (hlen : S + 8 ≤ len)
    (hDC : st.UART_DMA_Buffer (DMA_INDEX N st.gUART_WriteIndex (S + 6)) = 0xDC)
    (hBA : st.UART_DMA_Buffer (DMA_INDEX N st.gUART_WriteIndex (S + 7)) = 0xBA) :
    extractFrame crc N DmaLength len st =
      (let cmd := decodedCommand N st.UART_DMA_Buffer st.gUART_WriteIndex S
                    st.bIsEncrypted st.UART_Command
       (if crc (bytes cmd S) ≠ u16 (cmd S ||| (cmd (S + 1) <<< 8)) then false else true,
        { st with
            UART_DMA_Buffer := clearedRing N st.UART_DMA_Buffer st.gUART_WriteIndex (S + 8)
            gUART_WriteIndex := DMA_INDEX N st.gUART_WriteIndex (S + 8)
            UART_Command := cmd
            bIsEncrypted := modeSwitch (le16 (rawPayload N st.UART_DMA_Buffer
              st.gUART_WriteIndex) 0) st.bIsEncrypted })) := by
  have hN : 0 < N := by omega
  unfold sizeField at hSize
  unfold extractFrame
  simp only [u16_DMA_INDEX hN hN16, DMA_INDEX_DMA_INDEX, hSize]
  rw [if_neg (by omega), if_neg (by omega)]
  simp only [show 2 + 2 + (S + 2) = S + 6 by omega, show S + 6 + 1 = S + 7 by omega,
    show S + 6 + 2 = S + 8 by omega, show 2 + 2 = 4 by rfl, hDC, hBA]
  simp only [ne_eq, not_true_eq_false, or_self, if_false]
  rw [copy_eq hw hS hN16, decode_eq, le16_copied]
  rfl

theorem avail_lt {N DmaLength s : Nat} (hs : s < N) (hD : DmaLength < N) (hne : s ≠ DmaLength) :
    avail N DmaLength s < N := by
  unfold avail
  split <;> omega

theorem UART_IsCommandAvailable_framed (crc : List Nat → Nat) {N DmaLength S : Nat} (st : State)
    (hN16 : N ≤ 65536) (hw : st.gUART_WriteIndex < N) (hD : DmaLength < N)
    (hne : st.gUART_WriteIndex ≠ DmaLength)
    (h0 : st.UART_DMA_Buffer st.gUART_WriteIndex = 0xAB)
    (h1 : st.UART_DMA_Buffer (DMA_INDEX N st.gUART_WriteIndex 1) = 0xCD)
    (hSize : sizeField N st.UART_DMA_Buffer st.gUART_WriteIndex = S)
    (hav : S + 8 ≤ avail N DmaLength st.gUART_WriteIndex)
    (hDC : st.UART_DMA_Buffer (DMA_INDEX N st.gUART_WriteIndex (S + 6)) = 0xDC)
    (hBA : st.UART_DMA_Buffer (DMA_INDEX N st.gUART_WriteIndex (S + 7)) = 0xBA) :
    UART_IsCommandAvailable crc N DmaLength st =
      some
      (let cmd := decodedCommand N st.UART_DMA_Buffer st.gUART_WriteIndex S
                    st.bIsEncrypted st.UART_Command
       (if crc (bytes cmd S) ≠ u16 (cmd S ||| (cmd (S + 1) <<< 8)) then false else true,
        { st with
            UART_DMA_Buffer := clearedRing N st.UART_DMA_Buffer st.gUART_WriteIndex (S + 8)
            gUART_WriteIndex := DMA_INDEX N st.gUART_WriteIndex (S + 8)
            UART_Command := cmd
            bIsEncrypted := modeSwitch (le16 (rawPayload N st.UART_DMA_Buffer
              st.gUART_WriteIndex) 0) st.bIsEncrypted })) := by
  have hlt := avail_lt hw hD hne
  unfold UART_IsCommandAvailable
  rw [syncLoop_at_sync N _ DmaLength N _ hne h0 h1 (by omega) (by omega)]
  exact congrArg some (extractFrame_framed crc st hN16 hw (by omega) hSize hav hDC hBA)

/-! ## Bytes emitted by `SendReply` -/

theorem encodePayload_length (enc : Bool) (P : List Nat) (S : Nat) :
    (encodePayload enc P S).length = S := by
  simp [encodePayload]

theorem encodePayload_getD (enc : Bool) (P : List Nat) {S k : Nat} (hk : k < S) :
    (encodePayload enc P S).getD k 0 = if enc then P.getD k 0 ^^^ obf k else P.getD k 0 := by
  simp [encodePayload, List.getElem?_range hk, hk]

theorem SendReply_length (enc : Bool) (P : List Nat) (S : Nat) :
    (SendReply enc P S).length = S + 8 := by
  unfold SendReply
  cases enc <;> simp [encodePayload_length]

/-- The bytes between the header and the footer tag of a reply: payload, then padding. -/
theorem SendReply_getD (enc : Bool) (P : List Nat) (S k : Nat) :
    (SendReply enc P S).getD k 0 =
      if k = 0 then 0xAB else if k = 1 then 0xCD
      else if k = 2 then u16 S % 256 else if k = 3 then u16 S / 256
      else if k < S + 4 then (if enc then P.getD (k - 4) 0 ^^^ obf (k - 4) else P.getD (k - 4) 0)
      else if k = S + 4 then (if enc then obf S ^^^ 0xFF else 0xFF)
      else if k = S + 5 then (if enc then obf (S + 1) ^^^ 0xFF else 0xFF)
      else if k = S + 6 then 0xDC else if k = S + 7 then 0xBA else 0 := by
  unfold SendReply
  rcases k with _ | _ | _ | _ | k
  · rfl
  · rfl
  · rfl
  · rfl
  · simp only [Nat.add_eq_zero, OfNat.ofNat_ne_zero, and_false, if_false, Nat.reduceEqDiff,
      Nat.add_lt_add_iff_right, Nat.add_sub_cancel, List.append_assoc, List.cons_append,
      List.nil_append, List.getD_cons_succ]
    by_cases h1 : k < S
    · rw [List.getD_append _ _ _ _ (by rw [encodePayload_length]; exact h1),
        encodePayload_getD enc P h1]
      simp [h1]
    · rw [List.getD_append_right _ _ _ _ (by rw [encodePayload_length]; omega),
        encodePayload_length]
      simp only [h1, if_false]
      obtain ⟨j, rfl⟩ : ∃ j, k = S + j := ⟨k - S, by omega⟩
      simp only [Nat.add_sub_cancel_left]
      rcases j with _ | _ | _ | _ | j <;> cases enc <;> simp

theorem ringWith_at {N p k : Nat} (frame : List Nat) (hp : p < N) (hk : k < frame.length)
    (hlen : frame.length ≤ N) :
    ringWith N p frame (DMA_INDEX N p k) = frame.getD k 0 := by
  have hN : 0 < N := by omega
  have hi : DMA_INDEX N p k < N := DMA_INDEX_lt hN p k
  have hm : (DMA_INDEX N p k + N - p) % N = k := by
    rw [DMA_INDEX_wrap hp (by omega)]
    split
    · rw [show p + k + N - p = k + N by omega, Nat.add_mod_right]
      exact Nat.mod_eq_of_lt (by omega)
    · rw [show p + k - N + N - p = k by omega]
      exact Nat.mod_eq_of_lt (by omega)
  unfold ringWith
  rw [hm, if_pos ⟨hi, hk⟩]

theorem size_bytes (S : Nat) : (S / 256) <<< 8 ||| S % 256 = S := by
  rw [Nat.shiftLeft_eq, Nat.mul_comm,
    ← Nat.mul_add_lt_is_or (show S % 256 < 2 ^ 8 from Nat.mod_lt _ (by norm_num))]
  exact Nat.div_add_mod S 256

theorem xor_pad (x : Nat) : (x ^^^ 0xFF) ^^^ x = 0xFF := by
  rw [Nat.xor_comm x, Nat.xor_cancel_right]

theorem bytes_eq_of_getD (cmd : Mem) (P : List Nat) (h : ∀ k < P.length, cmd k = P.getD k 0) :
    bytes cmd P.length = P := by
  unfold bytes
  apply List.ext_getElem
  · simp
  · intro n h1 h2
    simp only [List.getElem_map, List.getElem_range]
    rw [h n h2, List.getD_eq_getElem _ _ h2]


theorem avail_after {N p L : Nat} (hp : p < N) (hL0 : 0 < L) (hL : L < N) :
    avail N (DMA_INDEX N p L) p = L ∧ p ≠ DMA_INDEX N p L := by
  rw [DMA_INDEX_wrap hp (by omega)]
  unfold avail
  split <;> constructor <;> (try split) <;> omega

theorem SendReply_getD_add (enc : Bool) (P : List Nat) (S k : Nat) :
    (SendReply enc P S).getD (4 + k) 0 =
      if k < S then (if enc then P.getD k 0 ^^^ obf k else P.getD k 0)
      else if k = S then (if enc then obf S ^^^ 0xFF else 0xFF)
      else if k = S + 1 then (if enc then obf (S + 1) ^^^ 0xFF else 0xFF)
      else if k = S + 2 then 0xDC else if k = S + 3 then 0xBA else 0 := by
  rw [SendReply_getD, if_neg (by omega), if_neg (by omega), if_neg (by omega),
    if_neg (by omega), show 4 + k - 4 = k by omega]
  split_ifs <;> first | rfl | omega

theorem rawPayload_ringWith {N p k : Nat} (enc : Bool) (P : List Nat) (hp : p < N)
    (hS : P.length + 8 < N) (hk : k < P.length + 4) :
    rawPayload N (ringWith N p (SendReply enc P P.length)) p k
      = (SendReply enc P P.length).getD (4 + k) 0 := by
  unfold rawPayload
  exact ringWith_at _ hp (by rw [SendReply_length]; omega) (by rw [SendReply_length]; omega)

/-- C1, as amended: the bytes `SendReply` emits for a payload `P`, alone in the ring at any
offset `p`, are taken as a frame that leaves `P` in the command buffer, provided the
emitted bytes do not begin with a mode-switch ID that flips the obfuscation flag; the
call returns `true` exactly when `CRC_Calculate` of `P` is `0xFFFF`, the value the
two padding bytes of a reply decode to. -/
theorem sendReply_roundtrip (crc : List Nat → Nat) (N p : Nat) (P : List Nat) (enc : Bool)
    (st : State) (hN16 : N ≤ 65536) (hp : p < N) (hS : P.length + 8 < N)
    (hring : st.UART_DMA_Buffer = ringWith N p (SendReply enc P P.length))
    (hw : st.gUART_WriteIndex = p) (henc : st.bIsEncrypted = enc)
    (h0514 : enc = true → replyRawID enc P P.length ≠ 0x0514)
    (h6902 : enc = false → replyRawID enc P P.length ≠ 0x6902) :
    ∃ st', UART_IsCommandAvailable crc N (DMA_INDEX N p (P.length + 8)) st
          = some (decide (crc P = 0xFFFF), st')
        ∧ bytes st'.UART_Command P.length = P
        ∧ st'.bIsEncrypted = enc := by
  obtain ⟨hav, hne⟩ := avail_after hp (show 0 < P.length + 8 by omega) hS
  have hlenF : (SendReply enc P P.length).length = P.length + 8 := SendReply_length _ _ _
  have hat : ∀ k, k < P.length + 8 →
      st.UART_DMA_Buffer (DMA_INDEX N st.gUART_WriteIndex k)
        = (SendReply enc P P.length).getD k 0 := by
    intro k hk
    rw [hring, hw]
    exact ringWith_at _ hp (by omega) (by omega)
  have hsz : sizeField N st.UART_DMA_Buffer st.gUART_WriteIndex = P.length := by
    unfold sizeField
    rw [hat 3 (by omega), hat 2 (by omega), SendReply_getD, SendReply_getD]
    simp only [OfNat.ofNat_ne_zero, if_false, Nat.reduceEqDiff, if_true]
    rw [u16_of_lt (show P.length < 65536 by omega), size_bytes,
      u16_of_lt (show P.length < 65536 by omega)]
  have hframed := UART_IsCommandAvailable_framed crc st hN16 (by omega)
    (DMA_INDEX_lt (by omega) p (P.length + 8)) (by rw [hw]; exact hne)
    (by have := hat 0 (by omega); rw [DMA_INDEX_zero (by omega)] at this
        rw [this, SendReply_getD]; rfl)
    (by rw [hat 1 (by omega), SendReply_getD]; rfl)
    hsz (by rw [hw, hav])
    (by rw [hat _ (by omega), SendReply_getD]; simp)
    (by rw [hat _ (by omega), SendReply_getD]; simp)
  rw [hw] at hframed
  have hraw : ∀ k, k < P.length + 4 →
      rawPayload N st.UART_DMA_Buffer p k = (SendReply enc P P.length).getD (4 + k) 0 := by
    intro k hk
    rw [hring]
    exact rawPayload_ringWith enc P hp hS hk
  have hmode : modeSwitch (le16 (rawPayload N st.UART_DMA_Buffer p) 0) st.bIsEncrypted = enc := by
    have hid : le16 (rawPayload N st.UART_DMA_Buffer p) 0 = replyRawID enc P P.length := by
      unfold le16 replyRawID
      rw [hraw 0 (by omega), hraw (0 + 1) (by omega)]
    rw [hid, henc]
    unfold modeSwitch
    cases enc
    · simp [h6902 rfl]
    · simp [h0514 rfl]
  have hcmd : ∀ k, k < P.length + 2 →
      decodedCommand N st.UART_DMA_Buffer p P.length st.bIsEncrypted st.UART_Command k
        = if k < P.length then P.getD k 0 else 0xFF := by
    intro k hk
    unfold decodedCommand
    rw [if_pos hk, hmode, hraw k (by omega), SendReply_getD_add]
    by_cases hkS : k < P.length
    · rw [if_pos hkS, if_pos hkS]
      cases enc
      · rfl
      · simp only [if_true]; exact Nat.xor_cancel_right _ _
    · rw [if_neg hkS, if_neg hkS]
      obtain rfl | rfl : k = P.length ∨ k = P.length + 1 := by omega
      · simp only [if_true]
        cases enc
        · rfl
        · simp only [if_true]; exact xor_pad _
      · have h1 : ¬ (P.length + 1 = P.length) := by omega
        simp only [h1, if_false, if_true]
        cases enc
        · rfl
        · simp only [if_true]; exact xor_pad _
  have hbytes : bytes (decodedCommand N st.UART_DMA_Buffer p P.length st.bIsEncrypted
      st.UART_Command) P.length = P :=
    bytes_eq_of_getD _ P (fun k hk => by rw [hcmd k (by omega), if_pos hk])
  rw [hframed]
  simp only [Option.some.injEq, Prod.mk.injEq]
  refine ⟨_, ⟨?_, rfl⟩, hbytes, hmode⟩
  simp only [hbytes, hcmd P.length (by omega), hcmd (P.length + 1) (by omega)]
  simp [u16]

theorem bytes_congr {f g : Mem} {n : Nat} (h : ∀ k < n, f k = g k) : bytes f n = bytes g n := by
  unfold bytes
  apply List.map_congr_left
  intro k hk
  exact h k (List.mem_range.mp hk)

theorem decodedCommand_congr {N M : Nat} {b1 b2 : Mem} {s1 s2 S : Nat} (enc : Bool)
    (old1 old2 : Mem) (h : ∀ k < S + 2, rawPayload N b1 s1 k = rawPayload M b2 s2 k) :
    ∀ k < S + 2, decodedCommand N b1 s1 S enc old1 k = decodedCommand M b2 s2 S enc old2 k := by
  intro k hk
  have hid : le16 (rawPayload N b1 s1) 0 = le16 (rawPayload M b2 s2) 0 := by
    unfold le16
    rw [h 0 (by omega), h (0 + 1) (by omega)]
  unfold decodedCommand
  rw [if_pos hk, if_pos hk, hid, h k hk]

theorem UART_IsCommandAvailable_framedAt (crc : List Nat → Nat) {N DmaLength s S : Nat}
    (st : State) (hN16 : N ≤ 65536) (hs : s < N) (hD : DmaLength < N)
    (hw : st.gUART_WriteIndex = s) (hfr : framedAt N st.UART_DMA_Buffer DmaLength s S) :
    UART_IsCommandAvailable crc N DmaLength st =
      some
      (let cmd := decodedCommand N st.UART_DMA_Buffer s S st.bIsEncrypted st.UART_Command
       (if crc (bytes cmd S) ≠ u16 (cmd S ||| (cmd (S + 1) <<< 8)) then false else true,
        { st with
            UART_DMA_Buffer := clearedRing N st.UART_DMA_Buffer s (S + 8)
            gUART_WriteIndex := DMA_INDEX N s (S + 8)
            UART_Command := cmd
            bIsEncrypted := modeSwitch (le16 (rawPayload N st.UART_DMA_Buffer s) 0)
              st.bIsEncrypted })) := by
  obtain ⟨hne, hAB, hCD, hsz, hav, hDC, hBA⟩ := hfr
  rw [← hw] at hs hne hAB hCD hsz hav hDC hBA ⊢
  exact UART_IsCommandAvailable_framed crc st hN16 hs hD hne hAB hCD hsz hav hDC hBA

theorem framedAt_of_holds {N p S : Nat} {buf : Mem} {F : List Nat} (hp : p < N)
    (hS : S + 8 < N) (hF : wellFormedFrame F S) (hring : holdsFrameAt N buf p F) :
    framedAt N buf (DMA_INDEX N p (S + 8)) p S := by
  obtain ⟨hlen, hAB, hCD, hsz, hDC, hBA⟩ := hF
  obtain ⟨hav, hne⟩ := avail_after hp (show 0 < S + 8 by omega) hS
  have h0 := hring 0 (by omega)
  rw [DMA_INDEX_zero hp] at h0
  refine ⟨hne, h0.trans hAB, (hring 1 (by omega)).trans hCD, ?_, by rw [hav],
    (hring _ (by omega)).trans hDC, (hring _ (by omega)).trans hBA⟩
  unfold sizeField
  rw [hring 3 (by omega), hring 2 (by omega)]
  exact hsz

/-- C2: a well-formed frame stored at the ring positions `(p + k) % N`, with the read
cursor at `p` and the write cursor at `(p + S + 8) % N`, gives the same result and the
same `S + 2` bytes in the command buffer as the same frame stored at offset 0. -/
theorem wraparound_independent (crc : List Nat → Nat) (N p S : Nat) (F : List Nat)
    (stp st0 : State) (hN16 : N ≤ 65536) (hp : p < N) (hS : S + 8 < N)
    (hF : wellFormedFrame F S)
    (hringp : holdsFrameAt N stp.UART_DMA_Buffer p F) (hwp : stp.gUART_WriteIndex = p)
    (hring0 : holdsFrameAt N st0.UART_DMA_Buffer 0 F) (hw0 : st0.gUART_WriteIndex = 0)
    (henc : stp.bIsEncrypted = st0.bIsEncrypted) :
    ∃ b stp' st0',
      UART_IsCommandAvailable crc N (DMA_INDEX N p (S + 8)) stp = some (b, stp')
      ∧ UART_IsCommandAvailable crc N (DMA_INDEX N 0 (S + 8)) st0 = some (b, st0')
      ∧ ∀ k < S + 2, stp'.UART_Command k = st0'.UART_Command k := by
  have hN : 0 < N := by omega
  have e1 := UART_IsCommandAvailable_framedAt crc stp hN16 hp
    (DMA_INDEX_lt hN p (S + 8)) hwp (framedAt_of_holds hp hS hF hringp)
  have e0 := UART_IsCommandAvailable_framedAt crc st0 hN16 hN
    (DMA_INDEX_lt hN 0 (S + 8)) hw0 (framedAt_of_holds hN hS hF hring0)
  have hraw : ∀ k < S + 2, rawPayload N stp.UART_DMA_Buffer p k
      = rawPayload N st0.UART_DMA_Buffer 0 k := by
    intro k hk
    unfold rawPayload
    rw [hringp _ (by rw [hF.1]; omega), hring0 _ (by rw [hF.1]; omega)]
  have hcmd := decodedCommand_congr stp.bIsEncrypted stp.UART_Command st0.UART_Command hraw
  rw [henc] at e1 hcmd
  simp only [bytes_congr (fun k hk => hcmd k (Nat.lt_add_right 2 hk)), hcmd S (by omega),
    hcmd (S + 1) (by omega)] at e1
  exact ⟨_, _, _, e1, e0, hcmd⟩




theorem holdsFrameAt_ringWith {N p : Nat} (F : List Nat) (hp : p < N) (hlen : F.length ≤ N) :
    holdsFrameAt N (ringWith N p F) p F :=
  fun _ hk => ringWith_at F hp hk hlen

/-- C2, witness: capacity 256, a frame of payload length 20 that starts at offset 250 and
so straddles the end of the ring. -/
theorem wraparound_independent_witness :
    ∃ b stp' st0',
      UART_IsCommandAvailable CRC16 256 (DMA_INDEX 256 250 (20 + 8))
          { idleState with UART_DMA_Buffer := ringWith 256 250 sampleFrame20
                           gUART_WriteIndex := 250 } = some (b, stp')
      ∧ UART_IsCommandAvailable CRC16 256 (DMA_INDEX 256 0 (20 + 8))
          { idleState with UART_DMA_Buffer := ringWith 256 0 sampleFrame20 } = some (b, st0')
      ∧ ∀ k < 20 + 2, stp'.UART_Command k = st0'.UART_Command k :=
  wraparound_independent CRC16 256 250 20 sampleFrame20 _ _ (by decide) (by decide)
    (by decide) (by unfold wellFormedFrame; decide)
    (holdsFrameAt_ringWith _ (by decide) (by decide)) rfl
    (holdsFrameAt_ringWith _ (by decide) (by decide)) rfl rfl

/-- C3: when the synchroniser stops on a sync pair at `s`, the size field `S` fits the
ring, `S + 8` bytes are available, and the two bytes at the footer position are not
`0xDC, 0xBA`, the call returns `false` and moves the read cursor to the write cursor. -/
theorem corrupted_footer (crc : List Nat → Nat) (N DmaLength s len S : Nat) (st : State)
    (hN : 0 < N) (hN16 : N ≤ 65536)
    (hsync : syncLoop N st.UART_DMA_Buffer DmaLength (N + 1) st.gUART_WriteIndex
      = some (.brk s len))
    (hsz : sizeField N st.UART_DMA_Buffer s = S) (hcap : S + 8 ≤ N) (hav : S + 8 ≤ len)
    (hbad : ¬ (st.UART_DMA_Buffer (DMA_INDEX N s (S + 6)) = 0xDC
      ∧ st.UART_DMA_Buffer (DMA_INDEX N s (S + 7)) = 0xBA)) :
    UART_IsCommandAvailable crc N DmaLength st
      = some (false, { st with gUART_WriteIndex := DmaLength }) := by
  unfold sizeField at hsz
  unfold UART_IsCommandAvailable
  rw [hsync]
  simp only [extractFrame, u16_DMA_INDEX hN hN16, DMA_INDEX_DMA_INDEX, hsz]
  rw [if_neg (by omega), if_neg (by omega)]
  simp only [show 2 + 2 + (S + 2) = S + 6 by omega, show S + 6 + 1 = S + 7 by omega]
  rw [if_pos (by
    by_cases h : st.UART_DMA_Buffer (DMA_INDEX N s (S + 6)) = 0xDC
    · exact Or.inr (fun h2 => hbad ⟨h, h2⟩)
    · exact Or.inl h)]

/-- C1, counterexample: with obfuscation on, the reply frame for the payload `1, 2, 3`
is not accepted when read back (the CRC-16 of the payload is not `0xFFFF`), and the
reply frame for the payload `0x02, 0x69, 0x07`, whose first two bytes go out as the
mode-switch ID `0x0514`, leaves `0x14, 0x05, 0x13` in the command buffer. -/
theorem sendReply_roundtrip_fails :
    (UART_IsCommandAvailable CRC16 256 11
        { idleState with UART_DMA_Buffer := ringWith 256 0 (SendReply true [1, 2, 3] 3) }).map
      Prod.fst = some false
    ∧ (UART_IsCommandAvailable CRC16 256 11
        { idleState with
            UART_DMA_Buffer := ringWith 256 0 (SendReply true [0x02, 0x69, 0x07] 3) }).map
      (fun r => bytes r.2.UART_Command 3) = some [0x14, 0x05, 0x13] := by
  decide

/-- C1, witness: the amended round trip at capacity 256, offset 250 and payload `1, 2, 3`,
a frame that wraps round the end of the ring. -/
theorem sendReply_roundtrip_witness :
    ∃ st', UART_IsCommandAvailable CRC16 256 (DMA_INDEX 256 250 ([1, 2, 3].length + 8))
          { idleState with
              UART_DMA_Buffer := ringWith 256 250 (SendReply true [1, 2, 3] [1, 2, 3].length)
              gUART_WriteIndex := 250 }
          = some (decide (CRC16 [1, 2, 3] = 0xFFFF), st')
        ∧ bytes st'.UART_Command [1, 2, 3].length = [1, 2, 3]
        ∧ st'.bIsEncrypted = true :=
  sendReply_roundtrip CRC16 256 250 [1, 2, 3] true _ (by decide) (by decide) (by decide)
    rfl rfl rfl (by decide) (by decide)

/-- C3, witness: a frame of size 3 at offset 5 whose second footer byte is `0x00`, the
read cursor three bytes before it and four more bytes buffered after it. -/
theorem corrupted_footer_witness :
    UART_IsCommandAvailable CRC16 256 20
        { idleState with
            UART_DMA_Buffer :=
              ringWith 256 5 [0xAB, 0xCD, 3, 0, 1, 2, 3, 0x11, 0x22, 0xDC, 0x00, 9, 9, 9, 9]
            gUART_WriteIndex := 2 }
      = some (false,
        { idleState with
            UART_DMA_Buffer :=
              ringWith 256 5 [0xAB, 0xCD, 3, 0, 1, 2, 3, 0x11, 0x22, 0xDC, 0x00, 9, 9, 9, 9]
            gUART_WriteIndex := 20 }) :=
  corrupted_footer CRC16 256 20 5 15 3 _ (by decide) (by decide) (by decide) (by decide)
    (by decide) (by decide) (by decide)

/-- C4: a complete frame at the read cursor whose CRC field, read little-endian after
decoding, differs from `CRC_Calculate` over the decoded payload makes the call return
`false`; nothing is sent, the session token, the lock flag and the try counter keep
their values, and the read cursor moves on by `S + 8`, round the ring. -/
theorem crc_mismatch (crc : List Nat → Nat) (N DmaLength s S : Nat) (st : State)
    (hN16 : N ≤ 65536) (hs : s < N) (hD : DmaLength < N) (hw : st.gUART_WriteIndex = s)
    (hfr : framedAt N st.UART_DMA_Buffer DmaLength s S)
    (hcrc : crc (bytes (decodedCommand N st.UART_DMA_Buffer s S st.bIsEncrypted
        st.UART_Command) S)
      ≠ u16 (decodedCommand N st.UART_DMA_Buffer s S st.bIsEncrypted st.UART_Command S
        ||| (decodedCommand N st.UART_DMA_Buffer s S st.bIsEncrypted st.UART_Command (S + 1)
          <<< 8))) :
    ∃ st', UART_IsCommandAvailable crc N DmaLength st = some (false, st')
      ∧ st'.tx = st.tx ∧ st'.Timestamp = st.Timestamp ∧ st'.gIsLocked = st.gIsLocked
      ∧ st'.gTryCount = st.gTryCount
      ∧ st'.gUART_WriteIndex = DMA_INDEX N s (S + 8) := by
  have e := UART_IsCommandAvailable_framedAt crc st hN16 hs hD hw hfr
  simp only [if_pos hcrc] at e
  exact ⟨_, e, rfl, rfl, rfl, rfl, rfl⟩

set_option maxRecDepth 100000 in
/-- C4, witness: the sample frame of size 20 at offset 250 of a ring of 256 bytes; its
CRC field does not match its payload. -/
theorem crc_mismatch_witness :
    ∃ st', UART_IsCommandAvailable CRC16 256 22
          { idleState with UART_DMA_Buffer := ringWith 256 250 sampleFrame20
                           gUART_WriteIndex := 250 } = some (false, st')
      ∧ st'.tx = [] ∧ st'.Timestamp = 0 ∧ st'.gIsLocked = false ∧ st'.gTryCount = 0
      ∧ st'.gUART_WriteIndex = DMA_INDEX 256 250 (20 + 8) :=
  crc_mismatch CRC16 256 22 250 20 _ (by decide) (by decide) (by decide) rfl
    (by unfold framedAt; decide) (by decide)

/-! ## Challenge response -/

theorem emitReply_fields (r : List Nat) (n : Nat) (st : State) :
    (emitReply r n st).gIsLocked = st.gIsLocked
    ∧ (emitReply r n st).gTryCount = st.gTryCount
    ∧ (emitReply r n st).bHasCustomAesKey = st.bHasCustomAesKey
    ∧ (emitReply r n st).gCustomAesKey = st.gCustomAesKey
    ∧ (emitReply r n st).gDefaultAesKey = st.gDefaultAesKey
    ∧ (emitReply r n st).gChallenge = st.gChallenge :=
  ⟨rfl, rfl, rfl, rfl, rfl, rfl⟩

theorem resetFmCountdown_fields (st : State) :
    (resetFmCountdown st).gIsLocked = st.gIsLocked
    ∧ (resetFmCountdown st).gTryCount = st.gTryCount
    ∧ (resetFmCountdown st).bHasCustomAesKey = st.bHasCustomAesKey
    ∧ (resetFmCountdown st).gCustomAesKey = st.gCustomAesKey
    ∧ (resetFmCountdown st).gDefaultAesKey = st.gDefaultAesKey
    ∧ (resetFmCountdown st).gChallenge = st.gChallenge
    ∧ (resetFmCountdown st).tx = st.tx
    ∧ (resetFmCountdown st).bIsEncrypted = st.bIsEncrypted
    ∧ (resetFmCountdown st).uninit = st.uninit := by
  unfold resetFmCountdown
  split <;> exact ⟨rfl, rfl, rfl, rfl, rfl, rfl, rfl, rfl, rfl⟩

/-- What `CMD_052D` leaves in `gIsLocked` and `gTryCount`, and what it keeps. -/
theorem CMD_052D_result (aes : Mem → Mem → Mem → Mem) (c : Mem) (st : State) :
    let badC := IsBadChallenge aes st.gCustomAesKey st.gChallenge (responseOf c)
    let badD := IsBadChallenge aes st.gDefaultAesKey st.gChallenge (responseOf c)
    let t := if st.bHasCustomAesKey = false ∧ badC = false ∧ badD = true
             then u8 (st.gTryCount + 1) else st.gTryCount
    let l := if t < 3 then (st.bHasCustomAesKey || badC || badD) else true
    (CMD_052D aes c st).gIsLocked = l
    ∧ (CMD_052D aes c st).gTryCount = (if t < 3 then (if l = false then 0 else t) else 3)
    ∧ (CMD_052D aes c st).bHasCustomAesKey = st.bHasCustomAesKey
    ∧ (CMD_052D aes c st).gCustomAesKey = st.gCustomAesKey
    ∧ (CMD_052D aes c st).gDefaultAesKey = st.gDefaultAesKey
    ∧ (CMD_052D aes c st).gChallenge = st.gChallenge
    ∧ (CMD_052D aes c st).tx = st.tx ++ SendReply st.bIsEncrypted
        [0x2E, 0x05, 4, 0, if l then 1 else 0, st.uninit 5, st.uninit 6, st.uninit 7] 8 := by
  obtain ⟨h1, h2, h3, h4, h5, h6, h7, h8, h9⟩ := resetFmCountdown_fields st
  simp only [CMD_052D, emitReply, h1, h2, h3, h4, h5, h6, h7, h8, h9]
  cases st.bHasCustomAesKey
    <;> cases IsBadChallenge aes st.gCustomAesKey st.gChallenge (responseOf c)
    <;> cases IsBadChallenge aes st.gDefaultAesKey st.gChallenge (responseOf c)
    <;> simp
  all_goals split
  all_goals simp_all
  rw [if_neg (by omega)]

/-- C5, counterexample: no custom key provisioned, `gTryCount = 0`, and three commands
whose response `0, 0, 0, 0` is wrong for the default key; the device is locked, yet
`gTryCount` is still 0, not 3. -/
theorem lockout_after_three_fails :
    sampleAuthState.bHasCustomAesKey = false ∧ sampleAuthState.gTryCount = 0
    ∧ IsBadChallenge toyAES sampleAuthState.gDefaultAesKey sampleAuthState.gChallenge
        (responseOf (challengeResponse 0 0 0 0)) = true
    ∧ (CMD_052D toyAES (challengeResponse 0 0 0 0)
        (CMD_052D toyAES (challengeResponse 0 0 0 0)
          (CMD_052D toyAES (challengeResponse 0 0 0 0) sampleAuthState))).gIsLocked = true
    ∧ (CMD_052D toyAES (challengeResponse 0 0 0 0)
        (CMD_052D toyAES (challengeResponse 0 0 0 0)
          (CMD_052D toyAES (challengeResponse 0 0 0 0) sampleAuthState))).gTryCount = 0 := by
  decide

/-- C5, as amended: with no custom key provisioned and `gTryCount = 0`, three commands
whose responses are wrong for the default key leave the device locked, and `gTryCount`
counts those of the three responses that pass the test against the contents of
`gCustomAesKey`; it is 3 only when all three do. -/
theorem lockout_after_three (aes : Mem → Mem → Mem → Mem) (c1 c2 c3 : Mem) (st : State)
    (hk : st.bHasCustomAesKey = false) (h0 : st.gTryCount = 0)
    (w1 : IsBadChallenge aes st.gDefaultAesKey st.gChallenge (responseOf c1) = true)
    (w2 : IsBadChallenge aes st.gDefaultAesKey st.gChallenge (responseOf c2) = true)
    (w3 : IsBadChallenge aes st.gDefaultAesKey st.gChallenge (responseOf c3) = true) :
    (CMD_052D aes c3 (CMD_052D aes c2 (CMD_052D aes c1 st))).gIsLocked = true
    ∧ (CMD_052D aes c3 (CMD_052D aes c2 (CMD_052D aes c1 st))).gTryCount
        = passesCustomTest aes st c1 + passesCustomTest aes st c2 + passesCustomTest aes st c3 := by
  obtain ⟨l1, t1, k1, a1, d1, g1, -⟩ := CMD_052D_result aes c1 st
  obtain ⟨l2, t2, k2, a2, d2, g2, -⟩ := CMD_052D_result aes c2 (CMD_052D aes c1 st)
  obtain ⟨l3, t3, k3, a3, d3, g3, -⟩ :=
    CMD_052D_result aes c3 (CMD_052D aes c2 (CMD_052D aes c1 st))
  simp only [k1, a1, d1, g1, hk, h0, w1] at l1 t1 l2 t2 k2 a2 d2 g2
  simp only [w2] at l2 t2
  simp only [k2, a2, d2, g2, hk, w3] at l3 t3
  unfold passesCustomTest
  cases h1 : IsBadChallenge aes st.gCustomAesKey st.gChallenge (responseOf c1)
    <;> cases h2 : IsBadChallenge aes st.gCustomAesKey st.gChallenge (responseOf c2)
    <;> cases h3 : IsBadChallenge aes st.gCustomAesKey st.gChallenge (responseOf c3)
    <;> simp [h1, h2, h3, u8] at l1 t1 l2 t2 l3 t3
    <;> simp [l1, t1, u8] at l2 t2
    <;> simp [l2, t2, u8] at l3 t3
    <;> simp [l3, t3]




/-- C5, witness: three responses `4, 5, 6, 7`, which pass the test against the blank
key slot and fail the test against the default key, bring `gTryCount` to 3. -/
theorem lockout_after_three_witness :
    (CMD_052D toyAES (challengeResponse 4 5 6 7)
        (CMD_052D toyAES (challengeResponse 4 5 6 7)
          (CMD_052D toyAES (challengeResponse 4 5 6 7) sampleAuthState))).gIsLocked = true
    ∧ (CMD_052D toyAES (challengeResponse 4 5 6 7)
        (CMD_052D toyAES (challengeResponse 4 5 6 7)
          (CMD_052D toyAES (challengeResponse 4 5 6 7) sampleAuthState))).gTryCount = 3 :=
  ⟨(lockout_after_three toyAES (challengeResponse 4 5 6 7) (challengeResponse 4 5 6 7)
      (challengeResponse 4 5 6 7) sampleAuthState rfl rfl (by decide) (by decide)
      (by decide)).1,
   (lockout_after_three toyAES (challengeResponse 4 5 6 7) (challengeResponse 4 5 6 7)
      (challengeResponse 4 5 6 7) sampleAuthState rfl rfl (by decide) (by decide)
      (by decide)).2.trans (by decide)⟩

/-- C6, counterexample: no custom key provisioned, the device locked with `gTryCount = 3`,
and a response `6, 8, 10, 12` that passes both tests of the handler (the key slot holds
the default key); the device stays locked, `gTryCount` stays 3 and the reply reports
`bIsLocked = 1`. -/
theorem recovery_from_lockout_fails :
    IsBadChallenge toyAES (memOf [1, 2, 3, 4]) sampleAuthState.gChallenge
        (responseOf (challengeResponse 6 8 10 12)) = false
    ∧ (CMD_052D toyAES (challengeResponse 6 8 10 12)
        { sampleAuthState with
            gCustomAesKey := memOf [1, 2, 3, 4], gIsLocked := true, gTryCount := 3 }).gIsLocked
      = true
    ∧ (CMD_052D toyAES (challengeResponse 6 8 10 12)
        { sampleAuthState with
            gCustomAesKey := memOf [1, 2, 3, 4], gIsLocked := true, gTryCount := 3 }).gTryCount
      = 3
    ∧ (CMD_052D toyAES (challengeResponse 6 8 10 12)
        { sampleAuthState with
            gCustomAesKey := memOf [1, 2, 3, 4], gIsLocked := true, gTryCount := 3 }).tx
      = SendReply true [0x2E, 0x05, 4, 0, 1, 0, 0, 0] 8 := by
  decide

/-- C6, as amended: once `gTryCount` is 3, a challenge-response command leaves the device
locked with `gTryCount = 3` and its reply reports `bIsLocked = 1`, whatever the response
is: the handler forces the lock whenever the counter is not below 3. -/
theorem lockout_is_permanent (aes : Mem → Mem → Mem → Mem) (c : Mem) (st : State)
    (hk : st.bHasCustomAesKey = false) (h3 : st.gTryCount = 3) :
    (CMD_052D aes c st).gIsLocked = true
    ∧ (CMD_052D aes c st).gTryCount = 3
    ∧ (CMD_052D aes c st).tx = st.tx ++ SendReply st.bIsEncrypted
        [0x2E, 0x05, 4, 0, 1, st.uninit 5, st.uninit 6, st.uninit 7] 8 := by
  obtain ⟨l, t, -, -, -, -, x⟩ := CMD_052D_result aes c st
  simp only [hk, h3] at l t x
  cases h1 : IsBadChallenge aes st.gCustomAesKey st.gChallenge (responseOf c)
    <;> cases h2 : IsBadChallenge aes st.gDefaultAesKey st.gChallenge (responseOf c)
    <;> simp [h1, h2, u8] at l t x
    <;> exact ⟨l, t, x⟩

/-- C6, witness: the locked sample state with `gTryCount = 3` and the response that is
correct for the default key. -/
theorem lockout_is_permanent_witness :
    (CMD_052D toyAES (challengeResponse 6 8 10 12)
        { sampleAuthState with gIsLocked := true, gTryCount := 3 }).gIsLocked = true
    ∧ (CMD_052D toyAES (challengeResponse 6 8 10 12)
        { sampleAuthState with gIsLocked := true, gTryCount := 3 }).gTryCount = 3
    ∧ (CMD_052D toyAES (challengeResponse 6 8 10 12)
        { sampleAuthState with gIsLocked := true, gTryCount := 3 }).tx
      = [] ++ SendReply true [0x2E, 0x05, 4, 0, 1, 0, 0, 0] 8 :=
  lockout_is_permanent toyAES (challengeResponse 6 8 10 12)
    { sampleAuthState with gIsLocked := true, gTryCount := 3 } rfl rfl

/-- C7, counterexample: a custom key `9, 9, 9, 9` is provisioned and the response
`14, 15, 16, 17` equals the encryption of the challenge under it; the device is locked
after the command. -/
theorem custom_key_unlock_fails :
    IsBadChallenge toyAES (memOf [9, 9, 9, 9]) sampleAuthState.gChallenge
        (responseOf (challengeResponse 14 15 16 17)) = false
    ∧ (CMD_052D toyAES (challengeResponse 14 15 16 17)
        { sampleAuthState with
            bHasCustomAesKey := true, gCustomAesKey := memOf [9, 9, 9, 9] }).gIsLocked
      = true := by
  decide

/-- C7, as amended: when a custom key is provisioned, a challenge-response command tests
no response and leaves the device locked; `gTryCount` is not incremented: it keeps its
value when below 3 and is set to 3 otherwise. -/
theorem custom_key_stays_locked (aes : Mem → Mem → Mem → Mem) (c : Mem) (st : State)
    (hk : st.bHasCustomAesKey = true) :
    (CMD_052D aes c st).gIsLocked = true
    ∧ (CMD_052D aes c st).gTryCount = (if st.gTryCount < 3 then st.gTryCount else 3)
    ∧ (CMD_052D aes c st).tx = st.tx ++ SendReply st.bIsEncrypted
        [0x2E, 0x05, 4, 0, 1, st.uninit 5, st.uninit 6, st.uninit 7] 8 := by
  obtain ⟨l, t, -, -, -, -, x⟩ := CMD_052D_result aes c st
  simp [hk] at l t x
  exact ⟨l, t, x⟩

/-- C7, witness: the custom key `9, 9, 9, 9`, the matching response and `gTryCount = 2`. -/
theorem custom_key_stays_locked_witness :
    (CMD_052D toyAES (challengeResponse 14 15 16 17)
        { sampleAuthState with bHasCustomAesKey := true, gCustomAesKey := memOf [9, 9, 9, 9],
                               gTryCount := 2 }).gIsLocked = true
    ∧ (CMD_052D toyAES (challengeResponse 14 15 16 17)
        { sampleAuthState with bHasCustomAesKey := true, gCustomAesKey := memOf [9, 9, 9, 9],
                               gTryCount := 2 }).gTryCount = 2 :=
  ⟨(custom_key_stays_locked toyAES (challengeResponse 14 15 16 17)
      { sampleAuthState with bHasCustomAesKey := true, gCustomAesKey := memOf [9, 9, 9, 9],
                             gTryCount := 2 } rfl).1,
   (custom_key_stays_locked toyAES (challengeResponse 14 15 16 17)
      { sampleAuthState with bHasCustomAesKey := true, gCustomAesKey := memOf [9, 9, 9, 9],
                             gTryCount := 2 } rfl).2.1⟩

/-! ## Session binding and EEPROM access -/

/-- C8: an EEPROM read or write command whose `Timestamp` field differs from the stored
session token leaves the whole state as it is: nothing is added to `tx`, no EEPROM
call is made, no reload is counted, and token, lock state and countdown keep their
values. -/
theorem session_binding (pBuffer : Mem) (st : State)
    (hT : u32 (le32 pBuffer 8) ≠ st.Timestamp) :
    CMD_051B pBuffer st = some st ∧ CMD_051D pBuffer st = st := by
  constructor
  · unfold CMD_051B
    rw [if_pos hT]
  · unfold CMD_051D
    rw [if_pos hT]

/-- C8, witness: the stored token is 7, the commands carry the token 8. -/
theorem session_binding_witness :
    CMD_051B (readCommand 0x0E98 4 8) { idleState with Timestamp := 7 }
      = some { idleState with Timestamp := 7 }
    ∧ CMD_051D (writeCommand 0x0E98 true 8 [1, 2, 3, 4, 5, 6, 7, 8])
        { idleState with Timestamp := 7 }
      = { idleState with Timestamp := 7 } :=
  ⟨(session_binding (readCommand 0x0E98 4 8) { idleState with Timestamp := 7 }
      (by decide)).1,
   (session_binding (writeCommand 0x0E98 true 8 [1, 2, 3, 4, 5, 6, 7, 8])
      { idleState with Timestamp := 7 } (by decide)).2⟩

/-- C9, failing input: a read command with a matching token that asks for 200 bytes. The
record `Reply` holds 128 data bytes, so `EEPROM_ReadBuffer` is told to write past its
end and no reply is determined. -/
theorem eeprom_read_oversize :
    u32 (le32 (readCommand 0x0E98 200 7) 8) = 7
    ∧ CMD_051B (readCommand 0x0E98 200 7)
        { idleState with Timestamp := 7, eeprom := sampleEeprom } = none :=
  ⟨by decide, rfl⟩

theorem le16_memOf_pair (x : Nat) (l r : List Nat) (hl : l.length = 4) :
    le16 (memOf (l ++ x % 256 :: x / 256 :: r)) 4 = x := by
  unfold le16 memOf
  rw [List.getD_append_right _ _ _ _ (by omega), List.getD_append_right _ _ _ _ (by omega), hl]
  simp only [Nat.sub_self, Nat.add_sub_cancel_left, List.getD_cons_zero, List.getD_cons_succ]
  rw [Nat.lor_comm]
  exact size_bytes x

theorem resetFmCountdown_more (s : State) :
    (resetFmCountdown s).eeprom = s.eeprom
    ∧ (resetFmCountdown s).eepromOps = s.eepromOps
    ∧ (resetFmCountdown s).reloads = s.reloads
    ∧ (resetFmCountdown s).bIsInLockScreen = s.bIsInLockScreen
    ∧ (resetFmCountdown s).Timestamp = s.Timestamp := by
  unfold resetFmCountdown
  split <;> exact ⟨rfl, rfl, rfl, rfl, rfl⟩

/-- The state that `CMD_051B` leaves for a matching token and `Size` at most 128. -/
theorem CMD_051B_matching (pBuffer : Mem) (st : State)
    (hT : u32 (le32 pBuffer 8) = st.Timestamp) (hS : u8 (pBuffer 6) ≤ 128) :
    ∃ st', CMD_051B pBuffer st = some st'
      ∧ st'.tx = st.tx ++ SendReply st.bIsEncrypted (readReply pBuffer st) (u8 (pBuffer 6) + 8)
      ∧ st'.eepromOps
          = (if st.bHasCustomAesKey && st.gIsLocked then st.eepromOps
             else st.eepromOps ++ [.read (u16 (le16 pBuffer 4)) (u8 (pBuffer 6))])
      ∧ st'.eeprom = st.eeprom := by
  obtain ⟨g1, -, g3, -, -, -, g7, g8, -⟩ := resetFmCountdown_fields
    { st with gSerialConfigCountDown_500ms := 12 }
  obtain ⟨e1, e2, -, -, -⟩ := resetFmCountdown_more
    { st with gSerialConfigCountDown_500ms := 12 }
  have hb : (if (resetFmCountdown { st with gSerialConfigCountDown_500ms := 12 }).bHasCustomAesKey
        = true
      then (resetFmCountdown { st with gSerialConfigCountDown_500ms := 12 }).gIsLocked
      else false) = (st.bHasCustomAesKey && st.gIsLocked) := by
    rw [g1, g3]
    cases st.bHasCustomAesKey <;> simp
  unfold CMD_051B
  rw [if_neg (by rw [hT]; exact fun h => h rfl)]
  simp only [hb]
  unfold readReply
  cases hl : (st.bHasCustomAesKey && st.gIsLocked)
  · simp only [Bool.not_false, if_true, gt_iff_lt, show ¬ (128 < u8 (pBuffer 6)) by omega,
      if_false, Bool.false_eq_true]
    refine ⟨_, rfl, ?_, ?_, ?_⟩
    · simp only [emitReply, EEPROM_ReadBuffer, g7, g8, e1, List.append_assoc]
    · simp only [emitReply, EEPROM_ReadBuffer, e2]
    · simp only [emitReply, EEPROM_ReadBuffer, e1]
  · simp only [Bool.not_true, Bool.false_eq_true, if_false, gt_iff_lt,
      show ¬ (136 < u8 (pBuffer 6) + 8) by omega, if_true]
    refine ⟨_, rfl, ?_, ?_, ?_⟩
    · simp only [emitReply, g7, g8]
    · simp only [emitReply, e2]
    · simp only [emitReply, e1]

/-- An EEPROM read command with a matching token and `Size` at most 128
sends exactly one reply with ID `0x051C` that echoes `Offset` and `Size`; its `Size`
data bytes are the EEPROM contents from `Offset` on, except when a custom key is
provisioned and the device is locked: then they are all zero and the EEPROM is not
read. -/
theorem eeprom_read_reply (pBuffer : Mem) (st : State)
    (hT : u32 (le32 pBuffer 8) = st.Timestamp) (hS : u8 (pBuffer 6) ≤ 128) :
    ∃ st' Reply, CMD_051B pBuffer st = some st'
      ∧ st'.tx = st.tx ++ SendReply st.bIsEncrypted Reply (u8 (pBuffer 6) + 8)
      ∧ le16 (memOf Reply) 0 = 0x051C
      ∧ le16 (memOf Reply) 4 = u16 (le16 pBuffer 4)
      ∧ Reply.getD 6 0 = u8 (pBuffer 6)
      ∧ (∀ i < u8 (pBuffer 6), Reply.getD (8 + i) 0
          = if st.bHasCustomAesKey && st.gIsLocked then 0
            else st.eeprom (u16 (le16 pBuffer 4) + i))
      ∧ st'.eepromOps
          = (if st.bHasCustomAesKey && st.gIsLocked then st.eepromOps
             else st.eepromOps ++ [.read (u16 (le16 pBuffer 4)) (u8 (pBuffer 6))])
      ∧ st'.eeprom = st.eeprom := by
  obtain ⟨st', h1, h2, h3, h4⟩ := CMD_051B_matching pBuffer st hT hS
  refine ⟨st', readReply pBuffer st, h1, h2, ?_, ?_, ?_, ?_, h3, h4⟩
  · simp only [le16, memOf, readReply, List.cons_append, List.getD_cons_zero,
      List.getD_cons_succ]
    rfl
  · exact le16_memOf_pair (u16 (le16 pBuffer 4)) [0x1C, 0x05, _, _] _ rfl
  · rfl
  · intro i hi
    unfold readReply
    rw [List.getD_append_right _ _ _ _ (by simp), show ([0x1C, 0x05,
      u16 (u8 (pBuffer 6) + 4) % 256, u16 (u8 (pBuffer 6) + 4) / 256,
      u16 (le16 pBuffer 4) % 256, u16 (le16 pBuffer 4) / 256, u8 (pBuffer 6), 0]
        : List Nat).length = 8 from rfl, Nat.add_sub_cancel_left]
    cases (st.bHasCustomAesKey && st.gIsLocked)
    · simp only [Bool.false_eq_true, if_false]
      rw [List.getD_append _ _ _ _ (by simpa using hi)]
      simp [List.getElem?_range hi, hi]
    · simp only [if_true]
      rw [List.getD_eq_getElem?_getD, List.getElem?_replicate, if_pos (by omega)]
      rfl




/-- The reply to a read of four bytes at `0x0E98` with the matching token 7. -/
theorem eeprom_read_reply_sample :
    ∃ st' Reply,
      CMD_051B (readCommand 0x0E98 4 7)
        { idleState with Timestamp := 7, eeprom := sampleEeprom } = some st'
      ∧ st'.tx = [] ++ SendReply true Reply (u8 (readCommand 0x0E98 4 7 6) + 8)
      ∧ le16 (memOf Reply) 0 = 0x051C
      ∧ le16 (memOf Reply) 4 = u16 (le16 (readCommand 0x0E98 4 7) 4)
      ∧ Reply.getD 6 0 = u8 (readCommand 0x0E98 4 7 6)
      ∧ (∀ i < u8 (readCommand 0x0E98 4 7 6), Reply.getD (8 + i) 0
          = if false && false then 0
            else sampleEeprom (u16 (le16 (readCommand 0x0E98 4 7) 4) + i))
      ∧ st'.eepromOps
          = (if false && false then []
             else [] ++ [.read (u16 (le16 (readCommand 0x0E98 4 7) 4))
                          (u8 (readCommand 0x0E98 4 7 6))])
      ∧ st'.eeprom = sampleEeprom :=
  eeprom_read_reply (readCommand 0x0E98 4 7)
    { idleState with Timestamp := 7, eeprom := sampleEeprom } (by decide) (by decide)

/-- C10, failing input: in the lock screen, with `bAllowPassword` clear and a matching
token, a write of 8 bytes at `0x0E94` passes the window test, which looks at the first
address of the chunk only, and `EEPROM_WriteBuffer` stores the chunk to
`0x0E94 .. 0x0E9B`: the bytes at `0x0E98 .. 0x0E9B` change from `223 .. 226` to
`5 .. 8`. -/
theorem password_window_unaligned :
    (List.range 4).map (fun i => sampleEeprom (0x0E98 + i)) = [223, 224, 225, 226]
    ∧ (List.range 4).map (fun i =>
        (CMD_051D (writeCommand 0x0E94 false 7 [1, 2, 3, 4, 5, 6, 7, 8])
          { idleState with Timestamp := 7, eeprom := sampleEeprom,
                           bIsInLockScreen := true }).eeprom (0x0E98 + i)) = [5, 6, 7, 8]
    ∧ (CMD_051D (writeCommand 0x0E94 false 7 [1, 2, 3, 4, 5, 6, 7, 8])
          { idleState with Timestamp := 7, eeprom := sampleEeprom,
                           bIsInLockScreen := true }).eepromOps = [.write 0x0E94] := by
  decide




theorem foldl_invariant {α β : Type} (P : α → Prop) (f : α → β → α) (l : List β) (a : α)
    (h0 : P a) (hstep : ∀ x b, b ∈ l → P x → P (f x b)) : P (l.foldl f a) := by
  induction l generalizing a with
  | nil => exact h0
  | cons b l ih =>
    rw [List.foldl_cons]
    exact ih (f a b) (hstep a b (List.mem_cons_self b l) h0)
      (fun x c hc hx => hstep x c (List.mem_cons_of_mem b hc) hx)

theorem writeChunk_flags (pBuffer : Mem) (acc : State × Bool) (i : Nat) :
    (writeChunk pBuffer acc i).1.bIsInLockScreen = acc.1.bIsInLockScreen
    ∧ (writeChunk pBuffer acc i).1.gIsLocked = acc.1.gIsLocked := by
  unfold writeChunk
  simp only
  split <;> exact ⟨rfl, rfl⟩

theorem writeChunk_eeprom (pBuffer : Mem) (acc : State × Bool) (i a : Nat) :
    (writeChunk pBuffer acc i).1.eeprom a =
      if ((u16 (u16 (le16 pBuffer 4) + i * 8) < 0x0E98 ∨ u16 (u16 (le16 pBuffer 4) + i * 8) ≥ 0x0EA0)
            ∨ acc.1.bIsInLockScreen = false ∨ pBuffer 7 ≠ 0)
          ∧ u16 (u16 (le16 pBuffer 4) + i * 8) ≤ a ∧ a < u16 (u16 (le16 pBuffer 4) + i * 8) + 8
      then pBuffer (12 + i * 8 + (a - u16 (u16 (le16 pBuffer 4) + i * 8)))
      else acc.1.eeprom a := by
  unfold writeChunk
  simp only
  by_cases hg : (u16 (u16 (le16 pBuffer 4) + i * 8) < 0x0E98
      ∨ u16 (u16 (le16 pBuffer 4) + i * 8) ≥ 0x0EA0)
      ∨ (!acc.1.bIsInLockScreen) = true ∨ pBuffer 7 ≠ 0
  · rw [if_pos hg]
    have hg' : (u16 (u16 (le16 pBuffer 4) + i * 8) < 0x0E98
      ∨ u16 (u16 (le16 pBuffer 4) + i * 8) ≥ 0x0EA0)
      ∨ acc.1.bIsInLockScreen = false ∨ pBuffer 7 ≠ 0 := by simpa using hg
    simp only [EEPROM_WriteBuffer, memcpy_apply, hg', true_and, Nat.zero_add]
  · rw [if_neg hg]
    have hg' : ¬ ((u16 (u16 (le16 pBuffer 4) + i * 8) < 0x0E98
      ∨ u16 (u16 (le16 pBuffer 4) + i * 8) ≥ 0x0EA0)
      ∨ acc.1.bIsInLockScreen = false ∨ pBuffer 7 ≠ 0) := by simpa using hg
    simp only [hg', false_and, if_false]

theorem CMD_051D_eeprom (pBuffer : Mem) (st : State) :
    (CMD_051D pBuffer st).eeprom =
      if u32 (le32 pBuffer 8) ≠ st.Timestamp ∨ (st.bHasCustomAesKey && st.gIsLocked) = true
      then st.eeprom
      else ((List.range (u8 (pBuffer 6) / 8)).foldl (writeChunk pBuffer)
        (resetFmCountdown { st with gSerialConfigCountDown_500ms := 12 }, false)).1.eeprom := by
  obtain ⟨g1, -, g3, -, -, -, -, -, -⟩ := resetFmCountdown_fields
    { st with gSerialConfigCountDown_500ms := 12 }
  obtain ⟨e1, -, -, -, -⟩ := resetFmCountdown_more
    { st with gSerialConfigCountDown_500ms := 12 }
  have hb : (if (resetFmCountdown { st with gSerialConfigCountDown_500ms := 12 }).bHasCustomAesKey
        = true
      then (resetFmCountdown { st with gSerialConfigCountDown_500ms := 12 }).gIsLocked
      else (resetFmCountdown { st with gSerialConfigCountDown_500ms := 12 }).bHasCustomAesKey)
      = (st.bHasCustomAesKey && st.gIsLocked) := by
    rw [g1, g3]
    cases st.bHasCustomAesKey <;> simp
  unfold CMD_051D
  by_cases hT : u32 (le32 pBuffer 8) ≠ st.Timestamp
  · rw [if_pos hT, if_pos (Or.inl hT)]
  · rw [if_neg hT]
    simp only [emitReply, hb]
    cases hl : (st.bHasCustomAesKey && st.gIsLocked)
    · have hc : ¬ (u32 (le32 pBuffer 8) ≠ st.Timestamp ∨ false = true) := by
        rintro (h | h)
        · exact hT h
        · exact Bool.false_ne_true h
      rw [if_neg hc, if_pos (show (!false) = true from rfl)]
      split <;> rfl
    · rw [if_pos (Or.inr rfl)]
      rw [if_neg (show ¬ ((!true) = true) by decide)]
      exact e1

/-- In the lock screen and with `bAllowPassword` clear, a write command whose `Offset` is a
multiple of 8 leaves the bytes at `0x0E98 .. 0x0E9F` as they are. -/
theorem password_window_aligned (pBuffer : Mem) (st : State)
    (hls : st.bIsInLockScreen = true) (hallow : pBuffer 7 = 0)
    (halign : u16 (le16 pBuffer 4) % 8 = 0) (a : Nat) (ha1 : 0x0E98 ≤ a) (ha2 : a < 0x0EA0) :
    (CMD_051D pBuffer st).eeprom a = st.eeprom a := by
  obtain ⟨e1, -, -, e4, -⟩ := resetFmCountdown_more
    { st with gSerialConfigCountDown_500ms := 12 }
  rw [CMD_051D_eeprom]
  split
  · rfl
  · have h := foldl_invariant
      (fun acc : State × Bool => acc.1.bIsInLockScreen = true ∧ acc.1.eeprom a = st.eeprom a)
      (writeChunk pBuffer) (List.range (u8 (pBuffer 6) / 8))
      (resetFmCountdown { st with gSerialConfigCountDown_500ms := 12 }, false)
      ⟨by rw [e4]; exact hls, by rw [e1]⟩
      (by
        intro x i _ hx
        refine ⟨by rw [(writeChunk_flags pBuffer x i).1]; exact hx.1, ?_⟩
        rw [writeChunk_eeprom, if_neg, hx.2]
        rw [hx.1, hallow]
        unfold u16 at halign ⊢
        simp only [Bool.true_eq_false, ne_eq, not_true_eq_false, or_false]
        omega)
    exact h.2

/-- With the write gate open and `bAllowPassword` set, a write command of at least 8 bytes
addressed to `0x0E98` stores its first 8 data bytes to `0x0E98 .. 0x0E9F`. -/
theorem password_window_override (pBuffer : Mem) (st : State)
    (hT : u32 (le32 pBuffer 8) = st.Timestamp)
    (hgate : (st.bHasCustomAesKey && st.gIsLocked) = false) (hallow : pBuffer 7 ≠ 0)
    (hoff : u16 (le16 pBuffer 4) = 0x0E98) (hsz : 8 ≤ u8 (pBuffer 6)) (j : Nat) (hj : j < 8) :
    (CMD_051D pBuffer st).eeprom (0x0E98 + j) = pBuffer (12 + j) := by
  rw [CMD_051D_eeprom, if_neg (by rw [hT, hgate]; simp)]
  obtain ⟨m, hm⟩ : ∃ m, u8 (pBuffer 6) / 8 = m + 1 := ⟨u8 (pBuffer 6) / 8 - 1, by omega⟩
  have hm30 : m ≤ 30 := by unfold u8 at hm; omega
  rw [hm, List.range_succ_eq_map, List.foldl_cons]
  refine foldl_invariant
    (fun acc : State × Bool => acc.1.eeprom (0x0E98 + j) = pBuffer (12 + j))
    (writeChunk pBuffer) _ _ ?_ ?_
  · beta_reduce
    rw [writeChunk_eeprom, hoff, if_pos]
    · have hidx : 12 + 0 * 8 + (0x0E98 + j - u16 (0x0E98 + 0 * 8)) = 12 + j := by
        simp only [u16]
        omega
      rw [hidx]
    · simp only [u16]
      exact ⟨Or.inr (Or.inr hallow), by omega, by omega⟩
  · intro x b hb hx
    obtain ⟨k, hk, rfl⟩ := List.mem_map.mp hb
    have hk' := List.mem_range.mp hk
    beta_reduce at hx ⊢
    rw [writeChunk_eeprom, hoff, if_neg, hx]
    simp only [u16]
    omega

/-! ## Oversize frames, partial arrival, wire layout -/

/-- C13: when the synchroniser stops on a sync pair at `s` (so at least 8 bytes are
available) and the size field `S`, any 16-bit value, has `S + 8` above the capacity, the
call returns `false` and moves the read cursor to the write cursor. -/
theorem oversize_frame (crc : List Nat → Nat) (N DmaLength s len S : Nat) (st : State)
    (hN : 0 < N) (hN16 : N ≤ 65536)
    (hsync : syncLoop N st.UART_DMA_Buffer DmaLength (N + 1) st.gUART_WriteIndex
      = some (.brk s len))
    (hsz : sizeField N st.UART_DMA_Buffer s = S) (hbig : S + 8 > N) :
    UART_IsCommandAvailable crc N DmaLength st
      = some (false, { st with gUART_WriteIndex := DmaLength }) := by
  unfold sizeField at hsz
  unfold UART_IsCommandAvailable
  rw [hsync]
  simp only [extractFrame, u16_DMA_INDEX hN hN16, DMA_INDEX_DMA_INDEX, hsz]
  rw [if_pos hbig]

/-- C13, witness: a ring of 256 bytes and a frame header whose size field is `0xFFFF`. -/
theorem oversize_frame_witness :
    UART_IsCommandAvailable CRC16 256 9
        { idleState with
            UART_DMA_Buffer := ringWith 256 0 [0xAB, 0xCD, 0xFF, 0xFF, 1, 2, 3, 4, 5] }
      = some (false,
        { idleState with
            UART_DMA_Buffer := ringWith 256 0 [0xAB, 0xCD, 0xFF, 0xFF, 1, 2, 3, 4, 5]
            gUART_WriteIndex := 9 }) :=
  oversize_frame CRC16 256 9 0 9 0xFFFF _ (by decide) (by decide) (by decide) (by decide)
    (by decide)

theorem available_eq {N DmaLength w : Nat} (hw : w < N) (hD : DmaLength < N) :
    available N DmaLength w = if w = DmaLength then 0 else avail N DmaLength w := by
  unfold available avail
  split
  · subst_vars
    rw [show w + N - w = N by omega, Nat.mod_self]
  · split
    · rw [show DmaLength + N - w = DmaLength - w + N by omega, Nat.add_mod_right]
      exact Nat.mod_eq_of_lt (by omega)
    · exact Nat.mod_eq_of_lt (by omega)

/-- C14: with the read cursor on a sync pair whose frame is not complete yet, that is with
fewer than 8 bytes buffered, whatever the bytes of the size field read as, or with
at least 8 but fewer than `S + 8` for a size field `S` that fits the ring, the call
returns `false` and leaves the whole state, read cursor, ring and obfuscation flag
included, as it is; and once the ring holds a complete frame at the cursor, of
whatever size, a call from that state takes it out: the cursor ends `S + 8` further
and the command buffer holds the decoded payload and CRC. -/
theorem partial_arrival (crc : List Nat → Nat) (N DmaLength : Nat) (st : State)
    (hN16 : N ≤ 65536) (hw : st.gUART_WriteIndex < N) (hD : DmaLength < N)
    (h0 : st.UART_DMA_Buffer st.gUART_WriteIndex = 0xAB)
    (h1 : st.UART_DMA_Buffer (DMA_INDEX N st.gUART_WriteIndex 1) = 0xCD)
    (hpart : available N DmaLength st.gUART_WriteIndex < 8
      ∨ (8 ≤ available N DmaLength st.gUART_WriteIndex
          ∧ sizeField N st.UART_DMA_Buffer st.gUART_WriteIndex + 8 ≤ N
          ∧ available N DmaLength st.gUART_WriteIndex
              < sizeField N st.UART_DMA_Buffer st.gUART_WriteIndex + 8)) :
    UART_IsCommandAvailable crc N DmaLength st = some (false, st)
    ∧ ∀ ring2 Dma2 S, Dma2 < N → framedAt N ring2 Dma2 st.gUART_WriteIndex S →
        ∃ b st2, UART_IsCommandAvailable crc N Dma2 { st with UART_DMA_Buffer := ring2 }
            = some (b, st2)
          ∧ st2.gUART_WriteIndex = DMA_INDEX N st.gUART_WriteIndex (S + 8)
          ∧ st2.UART_Command = decodedCommand N ring2 st.gUART_WriteIndex S st.bIsEncrypted
              st.UART_Command := by
  have hN : 0 < N := by omega
  constructor
  · rw [available_eq hw hD] at hpart
    unfold UART_IsCommandAvailable
    by_cases hne : st.gUART_WriteIndex = DmaLength
    · rw [syncLoop, if_pos hne]
    · rw [if_neg hne] at hpart
      have hlt := avail_lt hw hD hne
      rcases hpart with h8 | ⟨h8, hS, hS8⟩
      · have hs : syncLoop N st.UART_DMA_Buffer DmaLength (N + 1) st.gUART_WriteIndex
            = some (.ret st.gUART_WriteIndex) := by
          rw [syncLoop, if_neg hne, skipToSync_at_sync N _ DmaLength N _ h0]
          simp only [if_neg hne]
          unfold avail at h8 hlt
          split
          · rw [if_pos ‹_›] at h8 hlt
            rw [u16_of_lt (by omega), if_pos h8]
          · rw [if_neg ‹_›] at h8 hlt
            rw [u16_of_lt (by omega), if_pos h8]
        rw [hs]
      · obtain ⟨S, hsz⟩ : ∃ S, sizeField N st.UART_DMA_Buffer st.gUART_WriteIndex = S :=
          ⟨_, rfl⟩
        rw [hsz] at hS hS8
        rw [syncLoop_at_sync N _ DmaLength N _ hne h0 h1 h8 (by omega)]
        unfold sizeField at hsz
        simp only [extractFrame, u16_DMA_INDEX hN hN16, DMA_INDEX_DMA_INDEX, hsz]
        rw [if_neg (by omega), if_pos hS8]
  · intro ring2 Dma2 S hD2 hfr
    have e := UART_IsCommandAvailable_framedAt crc { st with UART_DMA_Buffer := ring2 }
      hN16 hw hD2 rfl hfr
    exact ⟨_, _, e, rfl, rfl⟩

set_option maxRecDepth 100000 in
/-- C14, witness: a ring of 256 bytes with the read cursor at offset 250. First only the
sync pair has arrived, and the two bytes after it still hold `0xFF 0xFF` from
earlier traffic: the call waits. Then the first 10 bytes of the sample frame of size
20 have arrived: the call waits, and after the other 18 bytes have arrived the next
call takes the frame out. -/
theorem partial_arrival_witness :
    UART_IsCommandAvailable CRC16 256 252
        { idleState with UART_DMA_Buffer := ringWith 256 250 [0xAB, 0xCD, 0xFF, 0xFF]
                         gUART_WriteIndex := 250 }
      = some (false,
        { idleState with UART_DMA_Buffer := ringWith 256 250 [0xAB, 0xCD, 0xFF, 0xFF]
                         gUART_WriteIndex := 250 })
    ∧ UART_IsCommandAvailable CRC16 256 4
        { idleState with UART_DMA_Buffer := ringWith 256 250 (sampleFrame20.take 10)
                         gUART_WriteIndex := 250 }
      = some (false,
        { idleState with UART_DMA_Buffer := ringWith 256 250 (sampleFrame20.take 10)
                         gUART_WriteIndex := 250 })
    ∧ ∃ b st2, UART_IsCommandAvailable CRC16 256 22
          { idleState with UART_DMA_Buffer := ringWith 256 250 sampleFrame20
                           gUART_WriteIndex := 250 } = some (b, st2)
        ∧ st2.gUART_WriteIndex = DMA_INDEX 256 250 (20 + 8)
        ∧ st2.UART_Command = decodedCommand 256 (ringWith 256 250 sampleFrame20) 250 20 true
            zeroMem :=
  ⟨(partial_arrival CRC16 256 252
      { idleState with UART_DMA_Buffer := ringWith 256 250 [0xAB, 0xCD, 0xFF, 0xFF]
                       gUART_WriteIndex := 250 }
      (by decide) (by decide) (by decide) (by decide) (by decide)
      (Or.inl (by decide))).1,
   (partial_arrival CRC16 256 4
      { idleState with UART_DMA_Buffer := ringWith 256 250 (sampleFrame20.take 10)
                       gUART_WriteIndex := 250 }
      (by decide) (by decide) (by decide) (by decide) (by decide)
      (Or.inr (by decide))).1,
   (partial_arrival CRC16 256 4
      { idleState with UART_DMA_Buffer := ringWith 256 250 (sampleFrame20.take 10)
                       gUART_WriteIndex := 250 }
      (by decide) (by decide) (by decide) (by decide) (by decide)
      (Or.inr (by decide))).2 (ringWith 256 250 sampleFrame20) 22 20 (by decide)
      (by unfold framedAt; decide)⟩

/-- C15: for a payload of `Size` bytes `SendReply` emits `Size + 8` bytes: `0xAB`, `0xCD`,
`Size` as two little-endian bytes, the payload (byte `i` XORed with
`Obfuscation[i % 16]` when obfuscation is on), two padding bytes
(`Obfuscation[Size % 16] ^ 0xFF` and `Obfuscation[(Size + 1) % 16] ^ 0xFF` when
obfuscation is on, `0xFF` twice when it is off), then `0xDC`, `0xBA`. -/
theorem reply_wire_layout (enc : Bool) (P : List Nat) (hS : P.length < 65536) :
    (SendReply enc P P.length).length = P.length + 8
    ∧ SendReply enc P P.length =
        [0xAB, 0xCD, P.length % 256, P.length / 256]
        ++ (List.range P.length).map (fun i =>
              if enc then P.getD i 0 ^^^ Obfuscation.getD (i % 16) 0 else P.getD i 0)
        ++ (if enc then [Obfuscation.getD (P.length % 16) 0 ^^^ 0xFF,
                         Obfuscation.getD ((P.length + 1) % 16) 0 ^^^ 0xFF]
            else [0xFF, 0xFF])
        ++ [0xDC, 0xBA] := by
  refine ⟨SendReply_length enc P P.length, ?_⟩
  unfold SendReply encodePayload obf
  rw [u16_of_lt hS]
  rfl

/-- C15, witness: the reply bytes for the payload `1, 2, 3` with obfuscation on. -/
theorem reply_wire_layout_witness :
    (SendReply true [1, 2, 3] 3).length = 3 + 8
    ∧ SendReply true [1, 2, 3] 3
        = [0xAB, 0xCD, 3, 0, 1 ^^^ 0x16, 2 ^^^ 0x6C, 3 ^^^ 0x14, 0xE6 ^^^ 0xFF, 0x2E ^^^ 0xFF,
           0xDC, 0xBA] :=
  reply_wire_layout true [1, 2, 3] (by decide)

/-- C19: XORing byte `i` of a byte sequence with `Obfuscation[i % 16]` twice gives the
sequence back, and the decode loop of `UART_IsCommandAvailable`, run over a buffer that
starts with the bytes the encode loop of `SendReply` produced for a payload, leaves
the payload in the first `Size` bytes, whatever follows them. -/
theorem keystream_involution (B tail : List Nat) :
    encodePayload true (encodePayload true B B.length) B.length = B
    ∧ bytes (deobfuscate (memOf (encodePayload true B B.length ++ tail)) B.length) B.length
        = B := by
  constructor
  · apply List.ext_getElem
    · simp [encodePayload]
    · intro n h1 h2
      have hn : n < B.length := h2
      rw [← List.getD_eq_getElem _ 0 h1, encodePayload_getD true _ hn,
        encodePayload_getD true _ hn]
      simp only [if_true]
      rw [Nat.xor_cancel_right, List.getD_eq_getElem _ 0 hn]
  · apply bytes_eq_of_getD
    intro k hk
    unfold deobfuscate memOf
    rw [if_pos (by omega), List.getD_append _ _ _ _ (by rw [encodePayload_length]; exact hk),
      encodePayload_getD true _ hk]
    simp only [if_true]
    exact Nat.xor_cancel_right _ _

/-! ## The synchroniser loop: termination and cursor bounds -/

theorem available_cases {N D w : Nat} (hw : w < N) (hD : D < N) :
    available N D w = if w ≤ D then D - w else D + N - w := by
  unfold available
  split
  · rw [show D + N - w = D - w + N by omega, Nat.add_mod_right]
    exact Nat.mod_eq_of_lt (by omega)
  · exact Nat.mod_eq_of_lt (by omega)

theorem available_lt {N D w : Nat} (hN : 0 < N) : available N D w < N :=
  Nat.mod_lt _ hN

theorem available_advance {N D w L : Nat} (hw : w < N) (hD : D < N)
    (hL : L ≤ available N D w) :
    available N D (DMA_INDEX N w L) = available N D w - L := by
  have hN : 0 < N := by omega
  have hlt : available N D w < N := available_lt hN
  rw [available_cases (DMA_INDEX_lt hN w L) hD]
  rw [available_cases hw hD] at hL hlt ⊢
  rw [DMA_INDEX_wrap hw (by omega)]
  split_ifs at hL hlt ⊢ <;> omega

theorem available_consumed {N D w w1 : Nat} (hw : w < N) (hw1 : w1 < N) (hD : D < N)
    (h : available N D w1 ≤ available N D w) :
    available N w1 w = available N D w - available N D w1 := by
  rw [available_cases hw hw1]
  rw [available_cases hw hD, available_cases hw1 hD] at h ⊢
  split_ifs at h ⊢ <;> omega

theorem skipToSync_spec (N : Nat) (buf : Mem) (D : Nat) (hN16 : N ≤ 65536) (hD : D < N) :
    ∀ fuel w, w < N → available N D w < fuel →
      ∃ w1, skipToSync N buf D fuel w = some w1 ∧ w1 < N
        ∧ available N D w1 ≤ available N D w ∧ (w1 = D ∨ buf w1 = 0xAB) := by
  have hN : 0 < N := by omega
  intro fuel
  induction fuel with
  | zero => intro w _ h; omega
  | succ fuel ih =>
    intro w hw hf
    rw [skipToSync]
    by_cases hc : w ≠ D ∧ buf w ≠ 0xAB
    · rw [if_pos hc, u16_DMA_INDEX hN hN16]
      have hpos : 1 ≤ available N D w := by
        rw [available_cases hw hD]
        have := hc.1
        split <;> omega
      have hadv := available_advance hw hD hpos
      obtain ⟨w1, e, h1, h2, h3⟩ := ih (DMA_INDEX N w 1) (DMA_INDEX_lt hN w 1) (by omega)
      exact ⟨w1, e, h1, by omega, h3⟩
    · rw [if_neg hc]
      refine ⟨w, rfl, hw, Nat.le_refl _, ?_⟩
      by_cases hwD : w = D
      · exact Or.inl hwD
      · right
        by_contra hb
        exact hc ⟨hwD, hb⟩

theorem syncLoop_spec (N : Nat) (buf : Mem) (D : Nat) (hN16 : N ≤ 65536) (hD : D < N) :
    ∀ fuel w, w < N → available N D w < fuel →
      ∃ r, syncLoop N buf D fuel w = some r ∧ SyncPost N buf D w r := by
  have hN : 0 < N := by omega
  intro fuel
  induction fuel with
  | zero => intro w _ h; omega
  | succ fuel ih =>
    intro w hw hf
    rw [syncLoop]
    by_cases hwD : w = D
    · rw [if_pos hwD]
      exact ⟨_, rfl, hw, Nat.le_refl _⟩
    · rw [if_neg hwD]
      obtain ⟨w1, e, h1, h2, h3⟩ := skipToSync_spec N buf D hN16 hD (N + 1) w hw
        (Nat.lt_succ_of_lt (available_lt hN))
      rw [e]
      simp only
      by_cases hw1D : w1 = D
      · rw [if_pos hw1D]
        exact ⟨_, rfl, h1, h2⟩
      · rw [if_neg hw1D]
        have hAB : buf w1 = 0xAB := h3.resolve_left hw1D
        have hav : available N D w1 = avail N D w1 := by
          rw [available_eq h1 hD, if_neg hw1D]
        have hlt : avail N D w1 < N := avail_lt h1 hD hw1D
        have hlen : (if w1 < D then u16 (D - w1) else u16 (D + N - w1)) = avail N D w1 := by
          unfold avail at hlt ⊢
          split
          · rw [if_pos ‹_›] at hlt; exact u16_of_lt (by omega)
          · rw [if_neg ‹_›] at hlt; exact u16_of_lt (by omega)
        rw [hlen]
        by_cases h8 : avail N D w1 < 8
        · rw [if_pos h8]
          exact ⟨_, rfl, h1, h2⟩
        · rw [if_neg h8]
          by_cases hCD : buf (DMA_INDEX N w1 1) = 0xCD
          · rw [if_pos hCD]
            exact ⟨_, rfl, h1, hw1D, h2, hav.symm, by omega, hAB, hCD⟩
          · rw [if_neg hCD, u16_DMA_INDEX hN hN16]
            have hadv := available_advance h1 hD (show 1 ≤ available N D w1 by omega)
            obtain ⟨r, er, hr⟩ := ih (DMA_INDEX N w1 1) (DMA_INDEX_lt hN w1 1) (by omega)
            refine ⟨r, er, ?_⟩
            cases r with
            | ret w2 => exact ⟨hr.1, by have := hr.2; omega⟩
            | brk s len =>
              obtain ⟨a, b, c, d⟩ := hr
              exact ⟨a, b, by omega, d⟩

theorem extractFrame_cursor (crc : List Nat → Nat) (N D len : Nat) (st : State)
    (hN : 0 < N) (hN16 : N ≤ 65536) :
    (extractFrame crc N D len st).2.gUART_WriteIndex = D
    ∨ (extractFrame crc N D len st).2.gUART_WriteIndex = st.gUART_WriteIndex
    ∨ ∃ S, S + 8 ≤ len
        ∧ (extractFrame crc N D len st).2.gUART_WriteIndex
            = DMA_INDEX N st.gUART_WriteIndex (S + 8) := by
  simp only [extractFrame, u16_DMA_INDEX hN hN16, DMA_INDEX_DMA_INDEX]
  split
  · exact Or.inl rfl
  · split
    · exact Or.inr (Or.inl rfl)
    · split
      · exact Or.inl rfl
      · refine Or.inr (Or.inr ⟨u16 ((st.UART_DMA_Buffer (DMA_INDEX N st.gUART_WriteIndex (2 + 1))
            <<< 8) ||| st.UART_DMA_Buffer (DMA_INDEX N st.gUART_WriteIndex 2)), by omega, ?_⟩)
        simp only
        congr 1
        omega

/-- C18: for cursors `r` and `w` below the capacity the call ends, its new read cursor is
below the capacity, and the number of bytes it has consumed, `(r' - r) mod N`, is at
most the number that was available, `(w - r) mod N`. -/
theorem cursor_never_passes (crc : List Nat → Nat) (N DmaLength : Nat) (st : State)
    (hN16 : N ≤ 65536) (hr : st.gUART_WriteIndex < N) (hD : DmaLength < N) :
    ∃ b st', UART_IsCommandAvailable crc N DmaLength st = some (b, st')
      ∧ st'.gUART_WriteIndex < N
      ∧ available N st'.gUART_WriteIndex st.gUART_WriteIndex
          ≤ available N DmaLength st.gUART_WriteIndex := by
  have hN : 0 < N := by omega
  obtain ⟨r, e, hpost⟩ := syncLoop_spec N st.UART_DMA_Buffer DmaLength hN16 hD (N + 1)
    st.gUART_WriteIndex hr (Nat.lt_succ_of_lt (available_lt hN))
  unfold UART_IsCommandAvailable
  rw [e]
  cases r with
  | ret w1 =>
    obtain ⟨h1, h2⟩ := hpost
    refine ⟨false, { st with gUART_WriteIndex := w1 }, rfl, h1, ?_⟩
    show available N w1 st.gUART_WriteIndex ≤ _
    rw [available_consumed hr h1 hD h2]
    omega
  | brk s len =>
    obtain ⟨hs, hsD, hle, hlen, h8, -, -⟩ := hpost
    dsimp only
    have hc := extractFrame_cursor crc N DmaLength len { st with gUART_WriteIndex := s } hN hN16
    generalize extractFrame crc N DmaLength len { st with gUART_WriteIndex := s } = res at hc ⊢
    obtain ⟨b, st'⟩ := res
    refine ⟨b, st', rfl, ?_⟩
    dsimp only at hc
    rcases hc with h | h | ⟨S, hS, h⟩
    · rw [h]
      exact ⟨hD, Nat.le_refl _⟩
    · rw [h]
      refine ⟨hs, ?_⟩
      rw [available_consumed hr hs hD hle]
      omega
    · rw [h]
      have hadv := available_advance hs hD (show S + 8 ≤ available N DmaLength s by omega)
      refine ⟨DMA_INDEX_lt hN _ _, ?_⟩
      rw [available_consumed hr (DMA_INDEX_lt hN _ _) hD (by omega)]
      omega

/-- C18, witness: a ring of 256 bytes with the read cursor at 250 and the sample frame of
size 20 ahead of it. -/
theorem cursor_never_passes_witness :
    ∃ b st', UART_IsCommandAvailable CRC16 256 22
        { idleState with UART_DMA_Buffer := ringWith 256 250 sampleFrame20
                         gUART_WriteIndex := 250 } = some (b, st')
      ∧ st'.gUART_WriteIndex < 256
      ∧ available 256 st'.gUART_WriteIndex 250 ≤ available 256 22 250 :=
  cursor_never_passes CRC16 256 22
    { idleState with UART_DMA_Buffer := ringWith 256 250 sampleFrame20
                     gUART_WriteIndex := 250 } (by decide) (by decide) (by decide)

/-! ## The consumed region -/

theorem clearedRing_inside {N s L k : Nat} (hs : s < N) (hL : L < N) (hk : k < L) (buf : Mem) :
    clearedRing N buf s L (DMA_INDEX N s k) = 0 := by
  unfold clearedRing
  rw [DMA_INDEX_wrap hs (by omega : L ≤ N), DMA_INDEX_wrap hs (by omega : k ≤ N)]
  split_ifs <;> simp only [memset_apply] <;> split_ifs <;> omega

theorem clearedRing_outside {N s L i : Nat} (hs : s < N) (hL : L < N) (buf : Mem)
    (hout : ∀ k < L, i ≠ DMA_INDEX N s k) :
    clearedRing N buf s L i = buf i := by
  have h1 : ¬ (s ≤ i ∧ i < s + L ∧ i < N) := by
    rintro ⟨a, b, c⟩
    have := hout (i - s) (by omega)
    rw [DMA_INDEX_wrap hs (by omega), if_pos (by omega)] at this
    omega
  have h2 : ¬ (s + L ≥ N ∧ i + N < s + L) := by
    rintro ⟨a, b⟩
    have := hout (i + N - s) (by omega)
    rw [DMA_INDEX_wrap hs (by omega), if_neg (by omega)] at this
    omega
  unfold clearedRing
  rw [DMA_INDEX_wrap hs (by omega : L ≤ N)]
  split_ifs <;> simp only [memset_apply] <;> split_ifs <;> first | rfl | omega

theorem syncLoop_brk_post {N D fuel w s len : Nat} {buf : Mem} (hN16 : N ≤ 65536)
    (hD : D < N) (hw : w < N) (hf : available N D w < fuel)
    (h : syncLoop N buf D fuel w = some (.brk s len)) :
    SyncPost N buf D w (.brk s len) := by
  obtain ⟨r, e, hr⟩ := syncLoop_spec N buf D hN16 hD fuel w hw hf
  rw [h] at e
  cases e
  exact hr

/-- C20: when the synchroniser finds a sync pair at `s` and the frame with size field `S`
passes the size, length and footer tests, then after the call the read cursor is
`(s + S + 8) % N`, every ring byte at a position `(s + k) % N` with `k < S + 8` is
zero, and every other ring byte is as before. -/
theorem consumed_region_zeroed (crc : List Nat → Nat) (N DmaLength s len S : Nat) (st : State)
    (hN16 : N ≤ 65536) (hr : st.gUART_WriteIndex < N) (hD : DmaLength < N)
    (hsync : syncLoop N st.UART_DMA_Buffer DmaLength (N + 1) st.gUART_WriteIndex
      = some (.brk s len))
    (hsz : sizeField N st.UART_DMA_Buffer s = S) (hav : S + 8 ≤ len)
    (hDC : st.UART_DMA_Buffer (DMA_INDEX N s (S + 6)) = 0xDC)
    (hBA : st.UART_DMA_Buffer (DMA_INDEX N s (S + 7)) = 0xBA) :
    ∃ b st', UART_IsCommandAvailable crc N DmaLength st = some (b, st')
      ∧ st'.gUART_WriteIndex = DMA_INDEX N s (S + 8)
      ∧ (∀ k < S + 8, st'.UART_DMA_Buffer (DMA_INDEX N s k) = 0)
      ∧ (∀ i, (∀ k < S + 8, i ≠ DMA_INDEX N s k) →
          st'.UART_DMA_Buffer i = st.UART_DMA_Buffer i) := by
  have hN : 0 < N := by omega
  obtain ⟨hs, hsD, -, hlen, -, -, -⟩ := syncLoop_brk_post hN16 hD hr
    (Nat.lt_succ_of_lt (available_lt hN)) hsync
  have hltN : len < N := by rw [hlen]; exact available_lt hN
  have e := @extractFrame_framed crc N DmaLength len S
    { st with gUART_WriteIndex := s } hN16 hs (by omega) hsz hav hDC hBA
  unfold UART_IsCommandAvailable
  rw [hsync]
  dsimp only
  rw [e]
  exact ⟨_, _, rfl, rfl, fun k hk => clearedRing_inside hs (by omega) hk _,
    fun i hi => clearedRing_outside hs (by omega) _ hi⟩

/-- C20, witness: the sample frame of size 20 at offset 250 of a ring of 256 bytes, so
that the cleared span wraps round the end of the ring. -/
theorem consumed_region_zeroed_witness :
    ∃ b st', UART_IsCommandAvailable CRC16 256 22
        { idleState with UART_DMA_Buffer := ringWith 256 250 sampleFrame20
                         gUART_WriteIndex := 250 } = some (b, st')
      ∧ st'.gUART_WriteIndex = DMA_INDEX 256 250 (20 + 8)
      ∧ (∀ k < 20 + 8, st'.UART_DMA_Buffer (DMA_INDEX 256 250 k) = 0)
      ∧ (∀ i, (∀ k < 20 + 8, i ≠ DMA_INDEX 256 250 k) →
          st'.UART_DMA_Buffer i = ringWith 256 250 sampleFrame20 i) :=
  consumed_region_zeroed CRC16 256 22 250 28 20
    { idleState with UART_DMA_Buffer := ringWith 256 250 sampleFrame20
                     gUART_WriteIndex := 250 }
    (by decide) (by decide) (by decide) (by decide) (by decide) (by decide) (by decide)
    (by decide)

/-! ## Write gate -/

/-- C11: a write command with a matching token, received while a custom key is provisioned
and the device is locked, writes no chunk (the EEPROM and the record of EEPROM calls
are unchanged), triggers no settings reload, and still sends exactly one reply with ID
`0x051E` that echoes the requested `Offset`. -/
theorem write_lock_gate (pBuffer : Mem) (st : State)
    (hT : u32 (le32 pBuffer 8) = st.Timestamp)
    (hk : st.bHasCustomAesKey = true) (hl : st.gIsLocked = true) :
    (CMD_051D pBuffer st).eeprom = st.eeprom
    ∧ (CMD_051D pBuffer st).eepromOps = st.eepromOps
    ∧ (CMD_051D pBuffer st).reloads = st.reloads
    ∧ ∃ Reply, (CMD_051D pBuffer st).tx = st.tx ++ SendReply st.bIsEncrypted Reply 6
        ∧ le16 (memOf Reply) 0 = 0x051E
        ∧ le16 (memOf Reply) 4 = u16 (le16 pBuffer 4) := by
  obtain ⟨g1, -, g3, -, -, -, g7, g8, -⟩ := resetFmCountdown_fields
    { st with gSerialConfigCountDown_500ms := 12 }
  obtain ⟨e1, e2, e3, -, -⟩ := resetFmCountdown_more
    { st with gSerialConfigCountDown_500ms := 12 }
  have hb : (if (resetFmCountdown { st with gSerialConfigCountDown_500ms := 12 }).bHasCustomAesKey
        = true
      then (resetFmCountdown { st with gSerialConfigCountDown_500ms := 12 }).gIsLocked
      else (resetFmCountdown { st with gSerialConfigCountDown_500ms := 12 }).bHasCustomAesKey)
      = true := by
    rw [g1, g3]
    simp [hk, hl]
  have hc : CMD_051D pBuffer st
      = emitReply [0x1E, 0x05, 2, 0, u16 (le16 pBuffer 4) % 256, u16 (le16 pBuffer 4) / 256] 6
          (resetFmCountdown { st with gSerialConfigCountDown_500ms := 12 }) := by
    unfold CMD_051D
    rw [if_neg (by rw [hT]; exact fun h => h rfl)]
    simp only [hb]
    rfl
  rw [hc]
  refine ⟨e1, e2, e3,
    [0x1E, 0x05, 2, 0, u16 (le16 pBuffer 4) % 256, u16 (le16 pBuffer 4) / 256], ?_, ?_, ?_⟩
  · show (resetFmCountdown _).tx ++ SendReply (resetFmCountdown _).bIsEncrypted _ 6 = _
    rw [g7, g8]
  · simp only [le16, memOf, List.getD_cons_zero, List.getD_cons_succ]
    rfl
  · exact le16_memOf_pair (u16 (le16 pBuffer 4)) [0x1E, 0x05, 2, 0] [] rfl

/-- C11, witness: a custom key is provisioned, the device is locked, and a write of 8 bytes
at `0x0E00` arrives with the matching token 7. -/
theorem write_lock_gate_witness :
    (CMD_051D (writeCommand 0x0E00 false 7 [1, 2, 3, 4, 5, 6, 7, 8])
        { idleState with Timestamp := 7, eeprom := sampleEeprom, bHasCustomAesKey := true,
                         gIsLocked := true }).eeprom = sampleEeprom
    ∧ (CMD_051D (writeCommand 0x0E00 false 7 [1, 2, 3, 4, 5, 6, 7, 8])
        { idleState with Timestamp := 7, eeprom := sampleEeprom, bHasCustomAesKey := true,
                         gIsLocked := true }).eepromOps = []
    ∧ (CMD_051D (writeCommand 0x0E00 false 7 [1, 2, 3, 4, 5, 6, 7, 8])
        { idleState with Timestamp := 7, eeprom := sampleEeprom, bHasCustomAesKey := true,
                         gIsLocked := true }).reloads = 0
    ∧ ∃ Reply, (CMD_051D (writeCommand 0x0E00 false 7 [1, 2, 3, 4, 5, 6, 7, 8])
        { idleState with Timestamp := 7, eeprom := sampleEeprom, bHasCustomAesKey := true,
                         gIsLocked := true }).tx = [] ++ SendReply true Reply 6
        ∧ le16 (memOf Reply) 0 = 0x051E
        ∧ le16 (memOf Reply) 4
            = u16 (le16 (writeCommand 0x0E00 false 7 [1, 2, 3, 4, 5, 6, 7, 8]) 4) :=
  write_lock_gate (writeCommand 0x0E00 false 7 [1, 2, 3, 4, 5, 6, 7, 8])
    { idleState with Timestamp := 7, eeprom := sampleEeprom, bHasCustomAesKey := true,
                     gIsLocked := true } (by decide) rfl rfl

/-! ## Frequency scan: the density test -/

theorem receive_radio (N : Nat) (batch : List Nat) (st : State) :
    (receive N batch st).radio = st.radio := by
  unfold receive
  exact foldl_invariant (fun s : State => s.radio = st.radio) _ batch st rfl
    (fun x b _ hx => hx)

theorem extractFrame_radio (crc : List Nat → Nat) (N D len : Nat) (st : State) :
    (extractFrame crc N D len st).2.radio = st.radio := by
  unfold extractFrame
  dsimp only
  split
  · rfl
  · split
    · rfl
    · split <;> rfl

theorem UART_IsCommandAvailable_radio {crc : List Nat → Nat} {N D : Nat} {st st' : State}
    {b : Bool} (h : UART_IsCommandAvailable crc N D st = some (b, st')) :
    st'.radio = st.radio := by
  unfold UART_IsCommandAvailable at h
  cases hs : syncLoop N st.UART_DMA_Buffer D (N + 1) st.gUART_WriteIndex with
  | none => rw [hs] at h; exact absurd h (by simp)
  | some r =>
    rw [hs] at h
    cases r with
    | ret w =>
      have h2 := (Prod.mk.inj (Option.some.inj h)).2
      rw [← h2]
    | brk w len =>
      have h2 := congrArg (fun p : Bool × State => p.2.radio) (Option.some.inj h)
      dsimp only at h2
      rw [← h2]
      exact extractFrame_radio _ _ _ _ _

theorem poll_radio {env : Env} {st st' : State} {b : Bool}
    (h : poll env st = some (b, st')) : st'.radio = st.radio :=
  UART_IsCommandAvailable_radio h

theorem hwCall_hw (c : HwCall) (st : State) :
    (hwCall c st).radio.hw = st.radio.hw ++ [c] := rfl

theorem BK4819_WriteRegister_hw (reg val : Nat) (st : State) :
    (BK4819_WriteRegister reg val st).radio.hw
      = st.radio.hw ++ [.BK4819_WriteRegister reg val] := rfl

theorem RestoreRegisters_hw_length (st : State) :
    (RestoreRegisters st).radio.hw.length = st.radio.hw.length + 12 := by
  simp only [RestoreRegisters, savedRegs, List.foldl_cons, List.foldl_nil,
    BK4819_WriteRegister_hw, List.length_append, List.length_singleton]

theorem sweepStep_hw_length (step steps : Nat) (acc : State × Sweep) (tot : Nat) :
    acc.1.radio.hw.length ≤ (sweepStep step steps acc tot).1.radio.hw.length := by
  unfold sweepStep
  dsimp only
  split <;>
    simp only [emitReplyInPlace, hwCall_hw, BK4819_WriteRegister_hw, List.length_append,
      List.length_singleton] <;> omega

theorem sweep_hw_length (step steps startFreq : Nat) (st : State) :
    st.radio.hw.length ≤ (sweep step steps startFreq st).radio.hw.length := by
  unfold sweep
  exact foldl_invariant (fun acc : State × Sweep => st.radio.hw.length ≤ acc.1.radio.hw.length)
    _ _ _ (Nat.le_refl _)
    (fun x tot _ hx => Nat.le_trans hx (sweepStep_hw_length step steps x tot))

theorem scanRetune_hw_length (f : Nat) (st : State) :
    st.radio.hw.length < (scanRetune f st).radio.hw.length := by
  have h := RestoreRegisters_hw_length st
  have e : (scanRetune f st).radio.hw
      = (RestoreRegisters st).radio.hw ++ [HwCall.RADIO_SetupRegisters] := rfl
  rw [e, List.length_append, h, List.length_singleton]
  omega

theorem scanAbort_hw_length (st : State) :
    st.radio.hw.length < (scanAbort st).radio.hw.length := by
  have h := RestoreRegisters_hw_length (SendVersion st)
  have e : (scanAbort st).radio.hw
      = (RestoreRegisters (SendVersion st)).radio.hw ++ [HwCall.RADIO_SetupRegisters] := rfl
  have e2 : (SendVersion st).radio = st.radio := rfl
  rw [e, List.length_append, h, List.length_singleton, e2]
  omega

/-- A scan that returns has made calls of outside routines. -/
theorem scanLoop_hw_length (env : Env) :
    ∀ fuel step steps startFreq st rx st' rx',
      scanLoop env fuel step steps startFreq st rx = .done st' rx' →
      st.radio.hw.length < st'.radio.hw.length := by
  intro fuel
  induction fuel with
  | zero => intro _ _ _ st rx st' rx' h; simp [scanLoop] at h
  | succ fuel ih =>
    intro step steps startFreq st rx st' rx' h
    cases rx with
    | nil => simp [scanLoop] at h
    | cons batch rx =>
      rw [scanLoop] at h
      cases hp : poll env (receive env.N batch st) with
      | none => rw [hp] at h; simp at h
      | some r =>
        obtain ⟨b, s1⟩ := r
        have hr : s1.radio = st.radio := (poll_radio hp).trans (receive_radio _ _ _)
        rw [hp] at h
        cases b with
        | false =>
          dsimp only at h
          have := ih _ _ _ _ _ _ _ h
          have := sweep_hw_length step steps startFreq s1
          rw [hr] at this
          omega
        | true =>
          dsimp only at h
          split at h
          · split at h
            · cases h
              have := scanRetune_hw_length (u32 (le32 s1.UART_Command 4)) s1
              rw [hr] at this
              exact this
            · have := ih _ _ _ _ _ _ _ h
              have h2 := sweep_hw_length (u32 (le32 s1.UART_Command 8))
                (u16 (le16 s1.UART_Command 12) ||| 1)
                (startFreqOf (u32 (le32 s1.UART_Command 4)) (u32 (le32 s1.UART_Command 8))
                  (u16 (le16 s1.UART_Command 12) ||| 1)) s1
              rw [hr] at h2
              omega
          · cases h
            have := scanAbort_hw_length s1
            rw [hr] at this
            exact this

/-- C12: the scan command enters the scan, which selects the foreground function, saves
the twelve registers, reconfigures the receiver and runs the polling and sweeping
loop, if and only if `0 < Density < 0x300`; for every other `Density`, `0x301`
included, the handler returns at once with the state as it was: no reply, no register
saved or written. -/
theorem scan_density_bound (env : Env) (st : State) (rx : Rx) :
    (0 < u16 (le16 st.UART_Command 12) ∧ u16 (le16 st.UART_Command 12) < 0x300 →
      CMD_0808 env st rx
          = scanLoop env (rx.length + 1) (u32 (le32 st.UART_Command 8))
              (u16 (le16 st.UART_Command 12) ||| 1)
              (startFreqOf (u32 (le32 st.UART_Command 4)) (u32 (le32 st.UART_Command 8))
                (u16 (le16 st.UART_Command 12) ||| 1))
              (scanEntry st) rx
        ∧ (∀ r ∈ savedRegs, (scanEntry st).radio.R r = st.radio.regs r)
        ∧ (scanEntry st).radio.hw = st.radio.hw ++
            [.FUNCTION_Select_FOREGROUND, .RADIO_SetupAGC, .AUDIO_AudioPathOff,
             .BK4819_WriteRegister 0x30 (st.radio.regs 0x30 &&& 0xFDFF),
             .BK4819_WriteRegister 0x47 (st.radio.regs 0x47 &&& 0xFEFF),
             .BK4819_SetFilterBandwidth_WIDE]
        ∧ CMD_0808 env st rx ≠ .done st rx)
    ∧ (¬ (0 < u16 (le16 st.UART_Command 12) ∧ u16 (le16 st.UART_Command 12) < 0x300) →
        CMD_0808 env st rx = .done st rx) := by
  constructor
  · intro hD
    have hc : CMD_0808 env st rx
          = scanLoop env (rx.length + 1) (u32 (le32 st.UART_Command 8))
              (u16 (le16 st.UART_Command 12) ||| 1)
              (startFreqOf (u32 (le32 st.UART_Command 4)) (u32 (le32 st.UART_Command 8))
                (u16 (le16 st.UART_Command 12) ||| 1))
              (scanEntry st) rx := by
      unfold CMD_0808
      dsimp only
      rw [if_pos ⟨hD.2, hD.1⟩]
    have hhw : (scanEntry st).radio.hw = st.radio.hw ++
            [.FUNCTION_Select_FOREGROUND, .RADIO_SetupAGC, .AUDIO_AudioPathOff,
             .BK4819_WriteRegister 0x30 (st.radio.regs 0x30 &&& 0xFDFF),
             .BK4819_WriteRegister 0x47 (st.radio.regs 0x47 &&& 0xFEFF),
             .BK4819_SetFilterBandwidth_WIDE] := by
      have e30 : BK4819_ReadRegister 0x30
          (hwCall HwCall.AUDIO_AudioPathOff (hwCall HwCall.RADIO_SetupAGC
            (BackupRegisters (FUNCTION_Select_FOREGROUND st)))) = st.radio.regs 0x30 := rfl
      have e47 : ∀ v, BK4819_ReadRegister 0x47
          (BK4819_WriteRegister 0x30 v
            (hwCall HwCall.AUDIO_AudioPathOff (hwCall HwCall.RADIO_SetupAGC
              (BackupRegisters (FUNCTION_Select_FOREGROUND st))))) = st.radio.regs 0x47 := by
        intro v
        show (if (0x47 : Nat) = 0x30 then v else st.radio.regs 0x47) = _
        rw [if_neg (by decide)]
      have eb : (BackupRegisters (FUNCTION_Select_FOREGROUND st)).radio.hw
          = st.radio.hw ++ [HwCall.FUNCTION_Select_FOREGROUND] := rfl
      simp only [scanEntry, hwCall_hw, BK4819_WriteRegister_hw, List.append_assoc,
        List.singleton_append, e30, e47, eb, List.cons_append, List.nil_append]
    refine ⟨hc, ?_, hhw, ?_⟩
    · intro r hr
      show (if r ∈ savedRegs then st.radio.regs r else st.radio.R r) = _
      rw [if_pos hr]
    · intro hdone
      rw [hc] at hdone
      have h1 := scanLoop_hw_length env _ _ _ _ _ _ _ _ hdone
      rw [hhw, List.length_append] at h1
      omega
  · intro hD
    unfold CMD_0808
    dsimp only
    rw [if_neg (fun h => hD ⟨h.2, h.1⟩)]


/-- C12, witness: density `0x301` is refused with the state untouched, and density `1` enters
the scan, whose first calls are the six of the entry sequence. -/
theorem scan_density_bound_witness :
    (¬ (0 < u16 (le16 ({ idleState with UART_Command := scanCommand 1000 10 0x301 }
            : State).UART_Command 12)
          ∧ u16 (le16 ({ idleState with UART_Command := scanCommand 1000 10 0x301 }
            : State).UART_Command 12) < 0x300)
      ∧ CMD_0808 sampleEnv { idleState with UART_Command := scanCommand 1000 10 0x301 } [[]]
          = .done { idleState with UART_Command := scanCommand 1000 10 0x301 } [[]])
    ∧ ((0 < u16 (le16 ({ idleState with UART_Command := scanCommand 1000 10 1 }
            : State).UART_Command 12)
          ∧ u16 (le16 ({ idleState with UART_Command := scanCommand 1000 10 1 }
            : State).UART_Command 12) < 0x300)
      ∧ CMD_0808 sampleEnv { idleState with UART_Command := scanCommand 1000 10 1 } [[]]
          ≠ .done { idleState with UART_Command := scanCommand 1000 10 1 } [[]]) :=
  ⟨⟨by decide,
    (scan_density_bound sampleEnv
      { idleState with UART_Command := scanCommand 1000 10 0x301 } [[]]).2 (by decide)⟩,
   ⟨by decide,
    ((scan_density_bound sampleEnv
      { idleState with UART_Command := scanCommand 1000 10 1 } [[]]).1 (by decide)).2.2.2⟩⟩

/-! ## The mode-switch IDs and the dispatcher -/

theorem handleAt_0514 (env : Env) (depth : Nat) (st : State) (rx : Rx)
    (hid : le16 st.UART_Command 0 = 0x0514) :
    handleAt env (depth + 1) st rx
      = .done (CMD_0514 st.UART_Command { st with handled := st.handled ++ [0x0514] }) rx := by
  rw [handleAt]
  dsimp only
  rw [if_pos hid, hid]

theorem CMD_0514_fields (pBuffer : Mem) (st : State) :
    (CMD_0514 pBuffer st).Timestamp = u32 (le32 pBuffer 4)
    ∧ (CMD_0514 pBuffer st).tx = st.tx ++ SendReply st.bIsEncrypted (versionReply st) 40
    ∧ (CMD_0514 pBuffer st).bIsEncrypted = st.bIsEncrypted
    ∧ (CMD_0514 pBuffer st).handled = st.handled := by
  unfold CMD_0514 SendVersion emitReply resetFmCountdown
  cases h : st.ENABLE_FMRADIO <;> simp [h, versionReply]

/-- C16, as the code has it: a complete frame whose first two payload bytes are the raw ID
`0x0514`, or the raw ID `0x6902`, sets the obfuscation flag (off for `0x0514`, on for
`0x6902`) and in both cases leaves the command ID `0x0514` in the command buffer; the
result of `UART_IsCommandAvailable` is whether the CRC matches, and
`UART_HandleCommand` on that buffer runs `CMD_0514`: the session token becomes the
`Timestamp` field of the command and the version reply is sent under the new flag. -/
theorem mode_switch_dispatch (env : Env) (st : State) (rx : Rx) (s S : Nat)
    (hN16 : env.N ≤ 65536) (hs : s < env.N) (hD : st.dmaST % 4096 < env.N)
    (hw : st.gUART_WriteIndex = s)
    (hfr : framedAt env.N st.UART_DMA_Buffer (st.dmaST % 4096) s S)
    (hid : (rawPayload env.N st.UART_DMA_Buffer s 0 = 0x14
              ∧ rawPayload env.N st.UART_DMA_Buffer s 1 = 0x05)
           ∨ (rawPayload env.N st.UART_DMA_Buffer s 0 = 0x02
              ∧ rawPayload env.N st.UART_DMA_Buffer s 1 = 0x69)) :
    ∃ b st1 st2,
      poll env st = some (b, st1)
      ∧ st1.bIsEncrypted = decide (rawPayload env.N st.UART_DMA_Buffer s 0 = 0x02)
      ∧ le16 st1.UART_Command 0 = 0x0514
      ∧ st1.Timestamp = st.Timestamp ∧ st1.tx = st.tx ∧ st1.handled = st.handled
      ∧ (b = true ↔ env.CRC_Calculate (bytes st1.UART_Command S)
                      = u16 (st1.UART_Command S ||| (st1.UART_Command (S + 1) <<< 8)))
      ∧ UART_HandleCommand env st1 rx = .done st2 rx
      ∧ st2.handled = st.handled ++ [0x0514]
      ∧ st2.Timestamp = u32 (le32 st1.UART_Command 4)
      ∧ st2.tx = st.tx ++ SendReply st1.bIsEncrypted (versionReply st) 40
      ∧ st2.bIsEncrypted = st1.bIsEncrypted := by
  have hp := UART_IsCommandAvailable_framedAt env.CRC_Calculate st hN16 hs hD hw hfr
  have hmode : modeSwitch (le16 (rawPayload env.N st.UART_DMA_Buffer s) 0) st.bIsEncrypted
      = decide (rawPayload env.N st.UART_DMA_Buffer s 0 = 0x02) := by
    unfold le16
    rcases hid with ⟨h0, h1⟩ | ⟨h0, h1⟩
    · rw [h1, h0]; cases st.bIsEncrypted <;> rfl
    · rw [h1, h0]; cases st.bIsEncrypted <;> rfl
  have hID : le16 (decodedCommand env.N st.UART_DMA_Buffer s S st.bIsEncrypted st.UART_Command) 0
      = 0x0514 := by
    unfold le16 decodedCommand
    rw [if_pos (show 0 < S + 2 by omega), if_pos (show 0 + 1 < S + 2 by omega), hmode]
    rcases hid with ⟨h0, h1⟩ | ⟨h0, h1⟩
    · rw [h1, h0]; rfl
    · rw [h1, h0]; rfl
  dsimp only at hp
  obtain ⟨cmd, hcmd⟩ : ∃ c, c
      = decodedCommand env.N st.UART_DMA_Buffer s S st.bIsEncrypted st.UART_Command := ⟨_, rfl⟩
  rw [← hcmd] at hp hID
  refine ⟨if env.CRC_Calculate (bytes cmd S) ≠ u16 (cmd S ||| (cmd (S + 1) <<< 8))
            then false else true,
    { st with
        UART_DMA_Buffer := clearedRing env.N st.UART_DMA_Buffer s (S + 8)
        gUART_WriteIndex := DMA_INDEX env.N s (S + 8)
        UART_Command := cmd
        bIsEncrypted :=
          modeSwitch (le16 (rawPayload env.N st.UART_DMA_Buffer s) 0) st.bIsEncrypted },
    CMD_0514 cmd
      { st with
        UART_DMA_Buffer := clearedRing env.N st.UART_DMA_Buffer s (S + 8)
        gUART_WriteIndex := DMA_INDEX env.N s (S + 8)
        UART_Command := cmd
        bIsEncrypted :=
          modeSwitch (le16 (rawPayload env.N st.UART_DMA_Buffer s) 0) st.bIsEncrypted
        handled := st.handled ++ [0x0514] },
    hp, hmode, hID, rfl, rfl, rfl, ?_, ?_, ?_⟩
  · by_cases hc : env.CRC_Calculate (bytes cmd S) = u16 (cmd S ||| (cmd (S + 1) <<< 8))
    · simp [hc]
    · simp [hc]
  · exact handleAt_0514 env 1 _ rx hID
  · obtain ⟨h1, h2, h3, h4⟩ := CMD_0514_fields cmd
      { st with
          UART_DMA_Buffer := clearedRing env.N st.UART_DMA_Buffer s (S + 8)
          gUART_WriteIndex := DMA_INDEX env.N s (S + 8)
          UART_Command := cmd
          bIsEncrypted :=
            modeSwitch (le16 (rawPayload env.N st.UART_DMA_Buffer s) 0) st.bIsEncrypted
          handled := st.handled ++ [0x0514] }
    exact ⟨h4, h1, h2, h3⟩


set_option maxRecDepth 1000000 in
/-- C16, counterexample: a frame with the raw ID `0x0514` arrives while obfuscation is on,
and a frame with the raw ID `0x6902` arrives while it is off; both carry the
`Timestamp` `0x12345678` and a matching CRC. In both runs the flag is switched,
`UART_IsCommandAvailable` returns true, and `UART_HandleCommand` handles the ID
`0x0514`: the session token goes from 0 to `0x12345678` and 48 bytes of reply are
sent. -/
theorem mode_switch_not_dispatched_fails :
    ((helloFrame false 0x12345678).getD 4 0, (helloFrame false 0x12345678).getD 5 0)
        = (0x14, 0x05)
    ∧ ((helloFrame true 0x12345678).getD 4 0, (helloFrame true 0x12345678).getD 5 0)
        = (0x02, 0x69)
    ∧ (idleState.bIsEncrypted, idleState.Timestamp, idleState.tx) = (true, 0, [])
    ∧ (poll sampleEnv (receive 256 (helloFrame false 0x12345678) idleState)).map
        (fun r => (r.1, r.2.bIsEncrypted,
          (UART_HandleCommand sampleEnv r.2 []).state.map
            (fun s => (s.handled, s.Timestamp, s.tx.length))))
        = some (true, false, some ([0x0514], 0x12345678, 48))
    ∧ (poll sampleEnv (receive 256 (helloFrame true 0x12345678)
          { idleState with bIsEncrypted := false })).map
        (fun r => (r.1, r.2.bIsEncrypted,
          (UART_HandleCommand sampleEnv r.2 []).state.map
            (fun s => (s.handled, s.Timestamp, s.tx.length))))
        = some (true, true, some ([0x0514], 0x12345678, 48)) := by
  refine ⟨by decide, by decide, by decide, ?_, ?_⟩
  · decide
  · decide

set_option maxRecDepth 1000000 in
/-- C16, witness: the frame with the raw ID `0x6902` and the `Timestamp` `0x12345678` has
arrived at the start of a ring of 256 bytes while obfuscation is off. -/
theorem mode_switch_dispatch_witness :
    ∃ b st1 st2,
      poll sampleEnv (receive 256 (helloFrame true 0x12345678)
          { idleState with bIsEncrypted := false }) = some (b, st1)
      ∧ st1.bIsEncrypted = true
      ∧ le16 st1.UART_Command 0 = 0x0514
      ∧ UART_HandleCommand sampleEnv st1 [] = .done st2 []
      ∧ st2.handled = [0x0514]
      ∧ st2.Timestamp = u32 (le32 st1.UART_Command 4) :=
  let ⟨b, st1, st2, h1, h2, h3, _, _, _, _, h8, h9, h10, _, _⟩ :=
    mode_switch_dispatch sampleEnv
      (receive 256 (helloFrame true 0x12345678) { idleState with bIsEncrypted := false })
      [] 0 8 (by decide) (by decide) (by decide) (by decide)
      (by unfold framedAt; decide) (Or.inr (by decide))
  ⟨b, st1, st2, h1, h2.trans (by decide), h3, h8, h9, h10⟩

/-! ## Hardware pass-through: what the nested dispatch can do -/

theorem receive_handled (N : Nat) (batch : List Nat) (st : State) :
    (receive N batch st).handled = st.handled := by
  unfold receive
  exact foldl_invariant (fun s : State => s.handled = st.handled) _ batch st rfl
    (fun x b _ hx => hx)

theorem extractFrame_handled (crc : List Nat → Nat) (N D len : Nat) (st : State) :
    (extractFrame crc N D len st).2.handled = st.handled := by
  unfold extractFrame
  dsimp only
  split
  · rfl
  · split
    · rfl
    · split <;> rfl

theorem UART_IsCommandAvailable_handled {crc : List Nat → Nat} {N D : Nat} {st st' : State}
    {b : Bool} (h : UART_IsCommandAvailable crc N D st = some (b, st')) :
    st'.handled = st.handled := by
  unfold UART_IsCommandAvailable at h
  cases hs : syncLoop N st.UART_DMA_Buffer D (N + 1) st.gUART_WriteIndex with
  | none => rw [hs] at h; exact absurd h (by simp)
  | some r =>
    rw [hs] at h
    cases r with
    | ret w =>
      have h2 := (Prod.mk.inj (Option.some.inj h)).2
      rw [← h2]
    | brk w len =>
      have h2 := congrArg (fun p : Bool × State => p.2.handled) (Option.some.inj h)
      dsimp only at h2
      rw [← h2]
      exact extractFrame_handled _ _ _ _ _

theorem poll_receive_savedAndLog {env : Env} {batch : List Nat} {st st' : State} {b : Bool}
    (h : poll env (receive env.N batch st) = some (b, st')) :
    savedAndLog st' = savedAndLog st := by
  unfold savedAndLog
  rw [poll_radio h, receive_radio, UART_IsCommandAvailable_handled h, receive_handled]

theorem resetFmCountdown_savedAndLog (st : State) :
    savedAndLog (resetFmCountdown st) = savedAndLog st := by
  unfold resetFmCountdown
  split <;> rfl

theorem CMD_0514_savedAndLog (p : Mem) (st : State) :
    savedAndLog (CMD_0514 p st) = savedAndLog st := by
  unfold CMD_0514 SendVersion emitReply resetFmCountdown
  dsimp only
  split <;> rfl

theorem CMD_051B_savedAndLog {p : Mem} {st st' : State} (h : CMD_051B p st = some st') :
    savedAndLog st' = savedAndLog st := by
  unfold CMD_051B at h
  dsimp only at h
  have hr := resetFmCountdown_savedAndLog { st with gSerialConfigCountDown_500ms := 12 }
  repeat' split at h
  all_goals
    first
    | (cases h; done)
    | (have h2 := Option.some.inj h
       rw [← h2]
       try exact hr)

theorem writeChunk_savedAndLog (p : Mem) (acc : State × Bool) (i : Nat) :
    savedAndLog (writeChunk p acc i).1 = savedAndLog acc.1 := by
  unfold writeChunk
  dsimp only
  split <;> rfl

theorem CMD_051D_savedAndLog (p : Mem) (st : State) :
    savedAndLog (CMD_051D p st) = savedAndLog st := by
  unfold CMD_051D
  dsimp only
  have hr := resetFmCountdown_savedAndLog { st with gSerialConfigCountDown_500ms := 12 }
  have hf := foldl_invariant
    (fun acc : State × Bool => savedAndLog acc.1 = savedAndLog st) (writeChunk p)
    (List.range (u8 (p 6) / 8))
    (resetFmCountdown { st with gSerialConfigCountDown_500ms := 12 }, false) hr
    (fun x i _ hx => (writeChunk_savedAndLog p x i).trans hx)
  repeat' split
  all_goals first | rfl | exact hr | exact hf

theorem CMD_052D_savedAndLog (aes : Mem → Mem → Mem → Mem) (p : Mem) (st : State) :
    savedAndLog (CMD_052D aes p st) = savedAndLog st :=
  resetFmCountdown_savedAndLog st

theorem CMD_052F_savedAndLog (p : Mem) (st : State) :
    savedAndLog (CMD_052F p st) = savedAndLog st := by
  unfold CMD_052F
  dsimp only
  split <;> rfl

theorem CMD_0801_savedAndLog (p : Mem) (st : State) :
    savedAndLog (CMD_0801 p st) = savedAndLog st := by
  unfold CMD_0801
  dsimp only
  split
  · split <;> rfl
  · rfl

theorem CMD_0850_savedAndLog (p : Mem) (st : State) :
    savedAndLog (CMD_0850 p st) = savedAndLog st := by
  unfold CMD_0850
  exact foldl_invariant (fun s : State => savedAndLog s = savedAndLog st) _ _ _ rfl
    (fun x i _ hx => hx)

theorem CMD_0851_savedAndLog (p : Mem) (st : State) :
    savedAndLog (CMD_0851 p st) = savedAndLog st := by
  unfold CMD_0851
  exact foldl_invariant (fun s : State => savedAndLog s = savedAndLog st) _ _ _ rfl
    (fun x i _ hx => hx)

theorem CMD_0860_savedAndLog (p : Mem) (st : State) :
    savedAndLog (CMD_0860 p st) = savedAndLog st := by
  unfold CMD_0860
  refine foldl_invariant (fun s : State => savedAndLog s = savedAndLog st) _ _ _ rfl ?_
  intro x i _ hx
  dsimp only
  split
  · exact hx
  · split
    · exact hx
    · exact hx

theorem CMD_0861_savedAndLog (p : Mem) (st : State) :
    savedAndLog (CMD_0861 p st) = savedAndLog st := by
  unfold CMD_0861
  exact foldl_invariant (fun s : State => savedAndLog s = savedAndLog st) _ _ _ rfl
    (fun x i _ hx => hx)

theorem ite_elim {α : Type} {c : Prop} [Decidable c] {a b r : α} {P : Prop}
    (h : (if c then a else b) = r) (h1 : c → a = r → P) (h2 : ¬ c → b = r → P) : P := by
  by_cases hc : c
  · rw [if_pos hc] at h; exact h1 hc h
  · rw [if_neg hc] at h; exact h2 hc h

theorem RestoreRegisters_savedAndLog (st : State) :
    savedAndLog (RestoreRegisters st) = savedAndLog st := by
  unfold RestoreRegisters
  exact foldl_invariant (fun s : State => savedAndLog s = savedAndLog st) _ _ _ rfl
    (fun x i _ hx => hx)

theorem RestoreRegisters_regs (st : State) (r : Nat) (hr : r ∈ savedRegs) :
    (RestoreRegisters st).radio.regs r = st.radio.R r := by
  simp only [savedRegs, List.mem_cons, List.mem_singleton, List.not_mem_nil, or_false] at hr
  unfold RestoreRegisters
  simp only [savedRegs, List.foldl_cons, List.foldl_nil, BK4819_WriteRegister]
  rcases hr with h | h | h | h | h | h | h | h | h | h | h | h <;> subst h <;> rfl

theorem passThroughExit_regs (st : State) (r : Nat) (hr : r ∈ savedRegs) :
    (passThroughExit st).radio.regs r = st.radio.R r :=
  RestoreRegisters_regs st r hr

theorem passThroughExit_handled (st : State) :
    (passThroughExit st).handled = st.handled :=
  congrArg Prod.snd (RestoreRegisters_savedAndLog st)

theorem hwCall_handled (c : HwCall) (st : State) : (hwCall c st).handled = st.handled := rfl

theorem BK4819_WriteRegister_handled (reg val : Nat) (st : State) :
    (BK4819_WriteRegister reg val st).handled = st.handled := rfl

theorem sweepStep_handled (step steps : Nat) (acc : State × Sweep) (tot : Nat) :
    (sweepStep step steps acc tot).1.handled = acc.1.handled := by
  unfold sweepStep
  dsimp only
  split <;>
    simp only [emitReplyInPlace, hwCall_handled, BK4819_WriteRegister_handled]

theorem sweep_handled (step steps startFreq : Nat) (st : State) :
    (sweep step steps startFreq st).handled = st.handled := by
  unfold sweep
  exact foldl_invariant (fun acc : State × Sweep => acc.1.handled = st.handled)
    _ _ _ rfl (fun x tot _ hx => (sweepStep_handled step steps x tot).trans hx)

theorem scanRetune_handled (f : Nat) (st : State) :
    (scanRetune f st).handled = st.handled :=
  congrArg Prod.snd (RestoreRegisters_savedAndLog st)

theorem scanAbort_handled (st : State) :
    (scanAbort st).handled = st.handled :=
  congrArg Prod.snd (RestoreRegisters_savedAndLog (SendVersion st))

theorem scanLoop_handled (env : Env) :
    ∀ fuel step steps startFreq st rx st' rx',
      scanLoop env fuel step steps startFreq st rx = .done st' rx' →
      st'.handled = st.handled := by
  intro fuel
  induction fuel with
  | zero => intro _ _ _ st rx st' rx' h; simp [scanLoop] at h
  | succ fuel ih =>
    intro step steps startFreq st rx st' rx' h
    cases rx with
    | nil => simp [scanLoop] at h
    | cons batch rx =>
      rw [scanLoop] at h
      cases hp : poll env (receive env.N batch st) with
      | none => rw [hp] at h; simp at h
      | some r =>
        obtain ⟨b, s1⟩ := r
        have hr : s1.handled = st.handled := congrArg Prod.snd (poll_receive_savedAndLog hp)
        rw [hp] at h
        cases b with
        | false =>
          dsimp only at h
          rw [ih _ _ _ _ _ _ _ h, sweep_handled, hr]
        | true =>
          dsimp only at h
          split at h
          · split at h
            · cases h
              rw [scanRetune_handled, hr]
            · rw [ih _ _ _ _ _ _ _ h, sweep_handled, hr]
          · cases h
            rw [scanAbort_handled, hr]

theorem CMD_0808_handled {env : Env} {st st' : State} {rx rx' : Rx}
    (h : CMD_0808 env st rx = .done st' rx') : st'.handled = st.handled := by
  unfold CMD_0808 at h
  dsimp only at h
  refine ite_elim h (fun _ e => ?_) (fun _ e => ?_)
  · have h1 := scanLoop_handled env (rx.length + 1) (u32 (le32 st.UART_Command 8))
      (u16 (le16 st.UART_Command 12) ||| 1)
      (startFreqOf (u32 (le32 st.UART_Command 4)) (u32 (le32 st.UART_Command 8))
        (u16 (le16 st.UART_Command 12) ||| 1))
      (scanEntry st) rx st' rx' e
    have h2 : (scanEntry st).handled = st.handled := by
      simp only [scanEntry, hwCall_handled, BK4819_WriteRegister_handled]
      rfl
    exact h1.trans h2
  · cases e
    rfl

/-- A nested call of the dispatcher, for an ID other than `0x0870`: the ID is logged, and
unless it is `0x0808` the statics `R10 .. R7E` keep their values. -/
theorem handleAt_one {env : Env} {st st' : State} {rx rx' : Rx}
    (h : handleAt env 1 st rx = .done st' rx') (h870 : le16 st.UART_Command 0 ≠ 0x870) :
    st'.handled = st.handled ++ [le16 st.UART_Command 0]
    ∧ (le16 st.UART_Command 0 ≠ 0x0808 → st'.radio.R = st.radio.R) := by
  rw [handleAt] at h
  dsimp only at h
  have key : ∀ s : State,
      savedAndLog s
        = savedAndLog { st with handled := st.handled ++ [le16 st.UART_Command 0] } →
      s.handled = st.handled ++ [le16 st.UART_Command 0]
      ∧ (le16 st.UART_Command 0 ≠ 0x0808 → s.radio.R = st.radio.R) :=
    fun s hs => ⟨congrArg Prod.snd hs, fun _ => congrArg Prod.fst hs⟩
  refine ite_elim h
    (fun _ e => by cases e; exact key _ (CMD_0514_savedAndLog _ _)) (fun _ h => ?_)
  refine ite_elim h (fun _ e => ?_) (fun _ h => ?_)
  · cases hb : CMD_051B st.UART_Command
        { st with handled := st.handled ++ [le16 st.UART_Command 0] } with
    | none => rw [hb] at e; cases e
    | some s1 =>
      rw [hb] at e
      cases e
      exact key _ (CMD_051B_savedAndLog hb)
  refine ite_elim h
    (fun _ e => by cases e; exact key _ (CMD_051D_savedAndLog _ _)) (fun _ h => ?_)
  refine ite_elim h (fun _ e => by cases e; exact key _ rfl) (fun _ h => ?_)
  refine ite_elim h (fun _ e => by cases e; exact key _ rfl) (fun _ h => ?_)
  refine ite_elim h (fun _ e => by cases e; exact key _ rfl) (fun _ h => ?_)
  refine ite_elim h (fun _ e => by cases e; exact key _ rfl) (fun _ h => ?_)
  refine ite_elim h
    (fun _ e => by cases e; exact key _ (CMD_052D_savedAndLog _ _ _)) (fun _ h => ?_)
  refine ite_elim h
    (fun _ e => by cases e; exact key _ (CMD_052F_savedAndLog _ _)) (fun _ h => ?_)
  refine ite_elim h (fun _ e => by cases e; exact key _ rfl) (fun _ h => ?_)
  refine ite_elim h (fun _ e => by cases e; exact key _ rfl) (fun _ h => ?_)
  refine ite_elim h (fun _ e => by cases e; exact key _ rfl) (fun _ h => ?_)
  refine ite_elim h (fun _ e => by cases e; exact key _ rfl) (fun _ h => ?_)
  refine ite_elim h
    (fun _ e => by cases e; exact key _ (CMD_0801_savedAndLog _ _)) (fun _ h => ?_)
  refine ite_elim h
    (fun hc e => ⟨CMD_0808_handled e, fun hne => absurd hc.1 hne⟩) (fun _ h => ?_)
  refine ite_elim h
    (fun _ e => by cases e; exact key _ (CMD_0850_savedAndLog _ _)) (fun _ h => ?_)
  refine ite_elim h
    (fun _ e => by cases e; exact key _ (CMD_0851_savedAndLog _ _)) (fun _ h => ?_)
  refine ite_elim h
    (fun _ e => by cases e; exact key _ (CMD_0860_savedAndLog _ _)) (fun _ h => ?_)
  refine ite_elim h
    (fun _ e => by cases e; exact key _ (CMD_0861_savedAndLog _ _)) (fun _ h => ?_)
  refine ite_elim h (fun hc _ => absurd hc.1 h870) (fun _ e => ?_)
  cases e
  exact key _ rfl

theorem passThroughLoop_spec (env : Env) :
    ∀ fuel st rx st' rx',
      passThroughLoop env (handleAt env 1) fuel st rx = .done st' rx' →
      ∃ ids, st'.handled = st.handled ++ ids ∧ 0x0870 ∉ ids
        ∧ (0x0808 ∉ ids → ∀ r ∈ savedRegs, st'.radio.regs r = st.radio.R r) := by
  intro fuel
  induction fuel with
  | zero => intro st rx st' rx' h; simp [passThroughLoop] at h
  | succ fuel ih =>
    intro st rx st' rx' h
    cases rx with
    | nil => simp [passThroughLoop] at h
    | cons batch rx =>
      rw [passThroughLoop] at h
      cases hp : poll env (receive env.N batch st) with
      | none => rw [hp] at h; simp at h
      | some r =>
        obtain ⟨b, s1⟩ := r
        have hs1 := poll_receive_savedAndLog hp
        have hR : s1.radio.R = st.radio.R := congrArg Prod.fst hs1
        have hH : s1.handled = st.handled := congrArg Prod.snd hs1
        rw [hp] at h
        cases b with
        | false =>
          dsimp only at h
          obtain ⟨ids, i1, i2, i3⟩ := ih _ _ _ _ h
          refine ⟨ids, ?_, i2, fun h8 r hr => ?_⟩
          · rw [i1, hwCall_handled, hH]
          · rw [i3 h8 r hr]
            exact congrFun hR r
        | true =>
          dsimp only at h
          refine ite_elim h (fun _ e => ?_) (fun _ h => ?_)
          · cases e
            refine ⟨[], ?_, List.not_mem_nil _, fun _ r hr => ?_⟩
            · rw [passThroughExit_handled, hH, List.append_nil]
            · rw [passThroughExit_regs _ r hr]
              exact congrFun hR r
          · refine ite_elim h (fun hne h => ?_) (fun _ h => ?_)
            · cases hh : handleAt env 1 s1 rx with
              | undefined => rw [hh] at h; simp at h
              | waiting s2 => rw [hh] at h; simp at h
              | done s2 rx2 =>
                rw [hh] at h
                dsimp only at h
                obtain ⟨g1, g2⟩ := handleAt_one hh hne
                obtain ⟨ids, i1, i2, i3⟩ := ih _ _ _ _ h
                refine ⟨le16 s1.UART_Command 0 :: ids, ?_, ?_, fun h8 r hr => ?_⟩
                · rw [i1, hwCall_handled, g1, hH, List.append_assoc, List.singleton_append]
                · intro hm
                  rcases List.mem_cons.mp hm with e | e
                  · exact hne e.symm
                  · exact i2 e
                · have h8a : le16 s1.UART_Command 0 ≠ 0x0808 :=
                    fun e => h8 (List.mem_cons.mpr (Or.inl e.symm))
                  have h8b : 0x0808 ∉ ids := fun e => h8 (List.mem_cons.mpr (Or.inr e))
                  rw [i3 h8b r hr]
                  exact (congrFun (g2 h8a) r).trans (congrFun hR r)
            · obtain ⟨ids, i1, i2, i3⟩ := ih _ _ _ _ h
              refine ⟨ids, ?_, i2, fun h8 r hr => ?_⟩
              · rw [i1, hwCall_handled, hH]
              · rw [i3 h8 r hr]
                exact congrFun hR r

/-- C22: a challenge-response command received with `gTryCount ≤ 3` leaves
`gTryCount ≤ 3`; and when `gTryCount` was 3 the device is locked afterwards (so
"locked, or the counter reset to 0" holds by its first half) and the counter is
still 3. -/
theorem try_counter_invariant (aes : Mem → Mem → Mem → Mem) (c : Mem) (st : State)
    (h : st.gTryCount ≤ 3) :
    (CMD_052D aes c st).gTryCount ≤ 3
    ∧ (st.gTryCount = 3 →
        ((CMD_052D aes c st).gIsLocked = true ∨ (CMD_052D aes c st).gTryCount = 0)
        ∧ (CMD_052D aes c st).gIsLocked = true
        ∧ (CMD_052D aes c st).gTryCount = 3) := by
  obtain ⟨hl, ht, -⟩ := CMD_052D_result aes c st
  constructor
  · rw [ht]
    split_ifs <;> omega
  · intro h3
    have hge : ¬ (if st.bHasCustomAesKey = false
          ∧ IsBadChallenge aes st.gCustomAesKey st.gChallenge (responseOf c) = false
          ∧ IsBadChallenge aes st.gDefaultAesKey st.gChallenge (responseOf c) = true
        then u8 (st.gTryCount + 1) else st.gTryCount) < 3 := by
      rw [h3]
      split
      · decide
      · decide
    rw [if_neg hge] at hl ht
    exact ⟨Or.inl hl, hl, ht⟩

/-- C22, witness: the sample state with `gTryCount` set to 3, and a response of zeros. -/
theorem try_counter_invariant_witness :
    (CMD_052D toyAES (challengeResponse 0 0 0 0)
        { sampleAuthState with gTryCount := 3 }).gTryCount ≤ 3
    ∧ ((3 : Nat) = 3 →
        ((CMD_052D toyAES (challengeResponse 0 0 0 0)
            { sampleAuthState with gTryCount := 3 }).gIsLocked = true
          ∨ (CMD_052D toyAES (challengeResponse 0 0 0 0)
            { sampleAuthState with gTryCount := 3 }).gTryCount = 0)
        ∧ (CMD_052D toyAES (challengeResponse 0 0 0 0)
            { sampleAuthState with gTryCount := 3 }).gIsLocked = true
        ∧ (CMD_052D toyAES (challengeResponse 0 0 0 0)
            { sampleAuthState with gTryCount := 3 }).gTryCount = 3) :=
  try_counter_invariant toyAES (challengeResponse 0 0 0 0)
    { sampleAuthState with gTryCount := 3 } (by decide)

/-- C23: a complete frame whose first two payload bytes are the raw ID `0x0514` leaves the
obfuscation flag off, and one whose first two payload bytes are the raw ID `0x6902`
leaves it on, whatever the flag was before and whatever the result of the call; the
result is `false` when the CRC does not match, and the flag has been switched all the
same. -/
theorem mode_switch_before_crc (crc : List Nat → Nat) (N DmaLength s S : Nat) (st : State)
    (hN16 : N ≤ 65536) (hs : s < N) (hD : DmaLength < N)
    (hw : st.gUART_WriteIndex = s) (hfr : framedAt N st.UART_DMA_Buffer DmaLength s S) :
    ∃ b st', UART_IsCommandAvailable crc N DmaLength st = some (b, st')
      ∧ (b = false ↔ crc (bytes st'.UART_Command S)
                      ≠ u16 (st'.UART_Command S ||| (st'.UART_Command (S + 1) <<< 8)))
      ∧ (rawPayload N st.UART_DMA_Buffer s 0 = 0x14
          ∧ rawPayload N st.UART_DMA_Buffer s 1 = 0x05 → st'.bIsEncrypted = false)
      ∧ (rawPayload N st.UART_DMA_Buffer s 0 = 0x02
          ∧ rawPayload N st.UART_DMA_Buffer s 1 = 0x69 → st'.bIsEncrypted = true) := by
  have hp := UART_IsCommandAvailable_framedAt crc st hN16 hs hD hw hfr
  dsimp only at hp
  obtain ⟨cmd, hcmd⟩ : ∃ c, c
      = decodedCommand N st.UART_DMA_Buffer s S st.bIsEncrypted st.UART_Command := ⟨_, rfl⟩
  rw [← hcmd] at hp
  refine ⟨if crc (bytes cmd S) ≠ u16 (cmd S ||| (cmd (S + 1) <<< 8)) then false else true,
    { st with
        UART_DMA_Buffer := clearedRing N st.UART_DMA_Buffer s (S + 8)
        gUART_WriteIndex := DMA_INDEX N s (S + 8)
        UART_Command := cmd
        bIsEncrypted := modeSwitch (le16 (rawPayload N st.UART_DMA_Buffer s) 0) st.bIsEncrypted },
    hp, ?_, ?_, ?_⟩
  · by_cases hc : crc (bytes cmd S) = u16 (cmd S ||| (cmd (S + 1) <<< 8))
    · simp [hc]
    · simp [hc]
  · rintro ⟨h0, h1⟩
    show modeSwitch (le16 (rawPayload N st.UART_DMA_Buffer s) 0) st.bIsEncrypted = false
    unfold le16
    rw [h1, h0]
    cases st.bIsEncrypted <;> rfl
  · rintro ⟨h0, h1⟩
    show modeSwitch (le16 (rawPayload N st.UART_DMA_Buffer s) 0) st.bIsEncrypted = true
    unfold le16
    rw [h1, h0]
    cases st.bIsEncrypted <;> rfl

set_option maxRecDepth 100000 in
/-- C23, witness: obfuscation is on and a frame of size 4 arrives whose payload starts
`0x14 0x05` and whose CRC field `0x12 0x34` does not match; the call returns `false`
and the flag is off afterwards. -/
theorem mode_switch_before_crc_witness :
    idleState.bIsEncrypted = true
    ∧ ∃ st', UART_IsCommandAvailable CRC16 256 12
          { idleState with UART_DMA_Buffer := ringWith 256 0 switchFrameBadCrc }
        = some (false, st')
      ∧ st'.bIsEncrypted = false :=
  ⟨rfl,
    let ⟨b, st', h1, h2, h3, _⟩ := mode_switch_before_crc CRC16 256 12 0 4
      { idleState with UART_DMA_Buffer := ringWith 256 0 switchFrameBadCrc }
      (by decide) (by decide) (by decide) rfl (by unfold framedAt; decide)
    have hb : b = false := by
      have e : (UART_IsCommandAvailable CRC16 256 12
          { idleState with UART_DMA_Buffer := ringWith 256 0 switchFrameBadCrc }).map
          (fun r => r.1) = some false := by decide
      rw [h1] at e
      exact Option.some.inj e
    ⟨st', hb ▸ h1, h3 ⟨by decide, by decide⟩⟩⟩

theorem UART_IsCommandAvailable_incomplete (crc : List Nat → Nat) (N DmaLength S : Nat)
    (st : State) (hN16 : N ≤ 65536) (hw : st.gUART_WriteIndex < N) (hD : DmaLength < N)
    (h0 : st.UART_DMA_Buffer st.gUART_WriteIndex = 0xAB)
    (h1 : st.UART_DMA_Buffer (DMA_INDEX N st.gUART_WriteIndex 1) = 0xCD)
    (hsz : sizeField N st.UART_DMA_Buffer st.gUART_WriteIndex = S) (hS : S + 8 ≤ N)
    (hne : st.gUART_WriteIndex ≠ DmaLength)
    (hpart : avail N DmaLength st.gUART_WriteIndex < S + 8) :
    UART_IsCommandAvailable crc N DmaLength st = some (false, st) := by
  have hN : 0 < N := by omega
  have hlt := avail_lt hw hD hne
  unfold UART_IsCommandAvailable
  by_cases h8 : avail N DmaLength st.gUART_WriteIndex < 8
  · have hs : syncLoop N st.UART_DMA_Buffer DmaLength (N + 1) st.gUART_WriteIndex
        = some (.ret st.gUART_WriteIndex) := by
      rw [syncLoop, if_neg hne, skipToSync_at_sync N _ DmaLength N _ h0]
      simp only [if_neg hne]
      unfold avail at h8 hlt
      split
      · rw [if_pos ‹_›] at h8 hlt
        rw [u16_of_lt (by omega), if_pos h8]
      · rw [if_neg ‹_›] at h8 hlt
        rw [u16_of_lt (by omega), if_pos h8]
    rw [hs]
  · rw [syncLoop_at_sync N _ DmaLength N _ hne h0 h1 (by omega) (by omega)]
    unfold sizeField at hsz
    simp only [extractFrame, u16_DMA_INDEX hN hN16, DMA_INDEX_DMA_INDEX, hsz]
    rw [if_neg (by omega), if_pos hpart]

/-- C24: the read cursor `r` differs from the write cursor, the sync pair is at `r`, and
the size field is `N - 8`. The size test lets the frame through (`S + 8 > N` is
false), at most `N - 1` bytes are ever buffered, which is less than `S + 8`, and so
the call returns `false` with the whole state, read cursor and ring included, as it
was. No call gets past the length test with a size field above `N - 9`. -/
theorem full_ring_frame (crc : List Nat → Nat) (N DmaLength : Nat) (st : State)
    (hN8 : 8 ≤ N) (hN16 : N ≤ 65536) (hr : st.gUART_WriteIndex < N) (hD : DmaLength < N)
    (hne : st.gUART_WriteIndex ≠ DmaLength)
    (h0 : st.UART_DMA_Buffer st.gUART_WriteIndex = 0xAB)
    (h1 : st.UART_DMA_Buffer (DMA_INDEX N st.gUART_WriteIndex 1) = 0xCD)
    (hsz : sizeField N st.UART_DMA_Buffer st.gUART_WriteIndex = N - 8) :
    ¬ ((N - 8) + 8 > N)
    ∧ available N DmaLength st.gUART_WriteIndex ≤ N - 1
    ∧ N - 1 < (N - 8) + 8
    ∧ UART_IsCommandAvailable crc N DmaLength st = some (false, st)
    ∧ ∀ (st2 : State) (D2 s len S : Nat), st2.gUART_WriteIndex < N → D2 < N →
        syncLoop N st2.UART_DMA_Buffer D2 (N + 1) st2.gUART_WriteIndex = some (.brk s len) →
        S + 8 ≤ len → S ≤ N - 9 := by
  have hN : 0 < N := by omega
  have hav : available N DmaLength st.gUART_WriteIndex < N := available_lt hN
  have hlt := avail_lt hr hD hne
  refine ⟨by omega, by omega, by omega, ?_, ?_⟩
  · exact UART_IsCommandAvailable_incomplete crc N DmaLength (N - 8) st hN16 hr hD h0 h1 hsz
      (by omega) hne (by omega)
  · intro st2 D2 s len S hr2 hD2 hsync hlen
    obtain ⟨-, -, -, hl, -, -, -⟩ := syncLoop_brk_post hN16 hD2 hr2
      (Nat.lt_succ_of_lt (available_lt hN)) hsync
    have : available N D2 s < N := available_lt hN
    omega

/-- C24, witness: a ring of 16 bytes, read cursor 0, write cursor 15. With the size field 8
the call returns `false` and changes nothing; with the size field 7 the frame of 15
bytes is taken out and the read cursor ends at 15. -/
theorem full_ring_frame_witness :
    UART_IsCommandAvailable CRC16 16 15 { idleState with UART_DMA_Buffer := fullRing16 }
        = some (false, { idleState with UART_DMA_Buffer := fullRing16 })
    ∧ (UART_IsCommandAvailable CRC16 16 15
          { idleState with UART_DMA_Buffer := largestFrame16 }).map
        (fun r => r.2.gUART_WriteIndex) = some 15 :=
  ⟨(full_ring_frame CRC16 16 15 { idleState with UART_DMA_Buffer := fullRing16 }
      (by decide) (by decide) (by decide) (by decide) (by decide) (by decide) (by decide)
      (by decide)).2.2.2.1,
   by decide⟩

/-! ## Frequency scan: the replies of a sweep -/

theorem bytes_getD (m : Mem) {n k : Nat} (hk : k < n) : (bytes m n).getD k 0 = m k := by
  simp [bytes, List.getD_eq_getElem?_getD, List.getElem?_range hk, hk]

theorem bytes_length (m : Mem) (n : Nat) : (bytes m n).length = n := by
  simp [bytes]

theorem hwCall_tx (c : HwCall) (st : State) :
    (hwCall c st).tx = st.tx ∧ (hwCall c st).bIsEncrypted = st.bIsEncrypted
      ∧ (hwCall c st).UART_Command = st.UART_Command
      ∧ (hwCall c st).radio.rssi = st.radio.rssi
      ∧ (hwCall c st).radio.rssiReads = st.radio.rssiReads := ⟨rfl, rfl, rfl, rfl, rfl⟩

theorem BK4819_WriteRegister_tx (reg val : Nat) (st : State) :
    (BK4819_WriteRegister reg val st).tx = st.tx
      ∧ (BK4819_WriteRegister reg val st).bIsEncrypted = st.bIsEncrypted
      ∧ (BK4819_WriteRegister reg val st).UART_Command = st.UART_Command
      ∧ (BK4819_WriteRegister reg val st).radio.rssi = st.radio.rssi
      ∧ (BK4819_WriteRegister reg val st).radio.rssiReads = st.radio.rssiReads :=
  ⟨rfl, rfl, rfl, rfl, rfl⟩

theorem sweepStep_bIsEncrypted (step steps : Nat) (acc : State × Sweep) (tot : Nat) :
    (sweepStep step steps acc tot).1.bIsEncrypted = acc.1.bIsEncrypted := by
  unfold sweepStep
  dsimp only
  split <;> simp only [emitReplyInPlace, hwCall_tx, BK4819_WriteRegister_tx]

theorem sweepStep_counters (step steps : Nat) (acc : State × Sweep) (tot : Nat) :
    ((acc.2.icnt + 1 ≥ 100 ∨ tot ≥ steps - 1) →
        (sweepStep step steps acc tot).2.sync = u8 (acc.2.sync + 1)
        ∧ (sweepStep step steps acc tot).2.icnt = 0)
    ∧ (¬ (acc.2.icnt + 1 ≥ 100 ∨ tot ≥ steps - 1) →
        (sweepStep step steps acc tot).2.sync = acc.2.sync
        ∧ (sweepStep step steps acc tot).2.icnt = acc.2.icnt + 1) := by
  unfold sweepStep
  dsimp only
  constructor
  · intro hc
    rw [if_pos hc]
    exact ⟨rfl, rfl⟩
  · intro hc
    rw [if_neg hc]
    exact ⟨rfl, rfl⟩

theorem sweepStep_tx (step steps : Nat) (acc : State × Sweep) (tot : Nat) :
    ((acc.2.icnt + 1 ≥ 100 ∨ tot ≥ steps - 1) →
        ∃ P, isScanReply P (u8 (acc.2.icnt + 1)) acc.2.sync
          ∧ (sweepStep step steps acc tot).1.tx
              = acc.1.tx ++ SendReply acc.1.bIsEncrypted P 106)
    ∧ (¬ (acc.2.icnt + 1 ≥ 100 ∨ tot ≥ steps - 1) →
        (sweepStep step steps acc tot).1.tx = acc.1.tx) := by
  unfold sweepStep
  dsimp only
  constructor
  · intro hc
    rw [if_pos hc]
    simp only [emitReplyInPlace, hwCall_tx, BK4819_WriteRegister_tx]
    refine ⟨_, ?_, rfl⟩
    refine ⟨bytes_length _ _, ?_, ?_, ?_, ?_, ?_, ?_⟩ <;>
      rw [bytes_getD _ (by decide)] <;> rfl
  · intro hc
    rw [if_neg hc]
    simp only [hwCall_tx, BK4819_WriteRegister_tx]

theorem sendAll_append (enc : Bool) (pkts : List (List Nat)) (P tx : List Nat) :
    sendAll enc (pkts ++ [P]) tx = sendAll enc pkts tx ++ SendReply enc P 106 := by
  unfold sendAll
  rw [List.foldl_append, List.foldl_cons, List.foldl_nil]

/-- The sweep after `t` of its `steps` rounds: the replies sent so far, and the counters. -/
theorem sweep_prefix (step steps startFreq : Nat) (st : State) :
    ∀ t, t ≤ steps →
      ∃ pkts : List (List Nat),
        ((List.range t).foldl (sweepStep step steps)
            (st, { sync := 0, icnt := 0, freq := startFreq })).1.tx
          = sendAll st.bIsEncrypted pkts st.tx
        ∧ ((List.range t).foldl (sweepStep step steps)
            (st, { sync := 0, icnt := 0, freq := startFreq })).1.bIsEncrypted = st.bIsEncrypted
        ∧ pkts.length = (if t = steps then (steps + 99) / 100 else t / 100)
        ∧ ((List.range t).foldl (sweepStep step steps)
            (st, { sync := 0, icnt := 0, freq := startFreq })).2.icnt
          = (if t = steps then 0 else t % 100)
        ∧ ((List.range t).foldl (sweepStep step steps)
            (st, { sync := 0, icnt := 0, freq := startFreq })).2.sync = pkts.length % 256
        ∧ ∀ k < pkts.length,
            isScanReply (pkts.getD k []) (min 100 (steps - 100 * k)) (k % 256) := by
  intro t
  induction t with
  | zero =>
    intro _
    refine ⟨[], rfl, rfl, ?_, ?_, rfl, fun k hk => absurd hk (Nat.not_lt_zero k)⟩
    · show 0 = _
      split <;> omega
    · show 0 = _
      split <;> omega
  | succ t ih =>
    intro ht
    obtain ⟨pkts, htx, henc, hlen, hicnt, hsync, hpk⟩ := ih (by omega)
    rw [if_neg (by omega)] at hlen hicnt
    rw [List.range_succ, List.foldl_append, List.foldl_cons, List.foldl_nil]
    generalize (List.range t).foldl (sweepStep step steps)
      (st, { sync := 0, icnt := 0, freq := startFreq }) = acc at htx henc hicnt hsync ⊢
    have hE := sweepStep_bIsEncrypted step steps acc t
    obtain ⟨hc1, hc2⟩ := sweepStep_counters step steps acc t
    obtain ⟨ht1, ht2⟩ := sweepStep_tx step steps acc t
    by_cases hc : acc.2.icnt + 1 ≥ 100 ∨ t ≥ steps - 1
    · obtain ⟨P, hP, hPtx⟩ := ht1 hc
      obtain ⟨hs, hi⟩ := hc1 hc
      rw [hicnt] at hc
      refine ⟨pkts ++ [P], ?_, hE.trans henc, ?_, ?_, ?_, ?_⟩
      · rw [hPtx, htx, henc, sendAll_append]
      · rw [List.length_append, List.length_singleton, hlen]
        split <;> omega
      · rw [hi]
        split <;> omega
      · rw [hs, hsync, List.length_append, List.length_singleton]
        unfold u8
        omega
      · intro k hk
        rw [List.length_append, List.length_singleton] at hk
        by_cases hkl : k < pkts.length
        · rw [List.getD_append _ _ _ _ hkl]
          exact hpk k hkl
        · have hke : k = pkts.length := by omega
          rw [List.getD_append_right _ _ _ _ (by omega), hke, Nat.sub_self,
            List.getD_cons_zero]
          have e1 : u8 (acc.2.icnt + 1) = min 100 (steps - 100 * pkts.length) := by
            rw [hicnt, hlen]
            unfold u8
            rw [Nat.min_def]
            split <;> omega
          rw [← e1, ← hsync]
          exact hP
    · obtain ⟨hs, hi⟩ := hc2 hc
      rw [hicnt] at hc
      refine ⟨pkts, ?_, hE.trans henc, ?_, ?_, ?_, hpk⟩
      · rw [ht2 (by rw [hicnt]; exact hc), htx]
      · rw [hlen]
        split <;> omega
      · rw [hi, hicnt]
        split <;> omega
      · rw [hs, hsync]

/-- The replies of one sweep of `steps` rounds: `⌈steps / 100⌉` replies; reply `k` carries
the `Length` `min 100 (steps - 100 k)` and the `Sync` `k mod 256`, `Sync` being a
`uint8_t`. -/
theorem sweep_packets (step steps startFreq : Nat) (st : State) :
    ∃ pkts : List (List Nat),
      (sweep step steps startFreq st).tx = sendAll st.bIsEncrypted pkts st.tx
      ∧ pkts.length = (steps + 99) / 100
      ∧ ∀ k < pkts.length,
          isScanReply (pkts.getD k []) (min 100 (steps - 100 * k)) (k % 256) := by
  obtain ⟨pkts, htx, -, hlen, -, -, hpk⟩ :=
    sweep_prefix step steps startFreq st steps (Nat.le_refl _)
  rw [if_pos rfl] at hlen
  exact ⟨pkts, htx, hlen, hpk⟩

/-- For at most 25600 rounds, which covers every `Density` a `0x0808` command can enter
the scan with, the replies of a sweep are as in C21: each `Length` is between 1 and
100, every reply but the last carries 100 samples, the lengths add up to `steps`,
and reply `k` carries the `Sync` `k`. -/
theorem sweep_packets_small (step steps startFreq : Nat) (st : State)
    (h0 : 0 < steps) (hsmall : steps ≤ 25600) :
    ∃ pkts : List (List Nat),
      (sweep step steps startFreq st).tx = sendAll st.bIsEncrypted pkts st.tx
      ∧ 0 < pkts.length
      ∧ (∀ k < pkts.length, ∃ L, isScanReply (pkts.getD k []) L k
          ∧ 1 ≤ L ∧ L ≤ 100 ∧ (k + 1 < pkts.length → L = 100)
          ∧ (k + 1 = pkts.length → 100 * k + L = steps)) := by
  obtain ⟨pkts, htx, hlen, hpk⟩ := sweep_packets step steps startFreq st
  refine ⟨pkts, htx, by omega, fun k hk => ?_⟩
  have h := hpk k hk
  rw [Nat.mod_eq_of_lt (by omega)] at h
  refine ⟨_, h, ?_, ?_, ?_, ?_⟩ <;> rw [Nat.min_def] <;> split <;> omega

/-- A round of the scan loop in which an adjust command `0x0809` with a `Density` other
than 0 has arrived: `steps` becomes `Density | 1`, with no test of `Density` against
`0x300`, and the sweep of that round runs with the new values. -/
theorem scanLoop_adjust (env : Env) (fuel step steps startFreq : Nat) (st s1 : State)
    (batch : List Nat) (rx : Rx)
    (hp : poll env (receive env.N batch st) = some (true, s1))
    (hid : le16 s1.UART_Command 0 = 0x809) (hD : u16 (le16 s1.UART_Command 12) ≠ 0) :
    scanLoop env (fuel + 1) step steps startFreq st (batch :: rx)
      = scanLoop env fuel (u32 (le32 s1.UART_Command 8))
          (u16 (le16 s1.UART_Command 12) ||| 1)
          (startFreqOf (u32 (le32 s1.UART_Command 4)) (u32 (le32 s1.UART_Command 8))
            (u16 (le16 s1.UART_Command 12) ||| 1))
          (sweep (u32 (le32 s1.UART_Command 8)) (u16 (le16 s1.UART_Command 12) ||| 1)
            (startFreqOf (u32 (le32 s1.UART_Command 4)) (u32 (le32 s1.UART_Command 8))
              (u16 (le16 s1.UART_Command 12) ||| 1)) s1)
          rx := by
  rw [scanLoop, hp]
  dsimp only
  rw [if_pos hid, if_neg hD]

/-- A round of the scan loop in which no command has arrived: the sweep runs with the
values of `step`, `steps` and `startFreq` in force. -/
theorem scanLoop_idle (env : Env) (fuel step steps startFreq : Nat) (st s1 : State)
    (batch : List Nat) (rx : Rx)
    (hp : poll env (receive env.N batch st) = some (false, s1)) :
    scanLoop env (fuel + 1) step steps startFreq st (batch :: rx)
      = scanLoop env fuel step steps startFreq (sweep step steps startFreq s1) rx := by
  rw [scanLoop, hp]

/-- C21, failing input: an adjust command `0x0809` with `Density = 0x6401` makes every
later sweep run `0x6401 | 1 = 25601` rounds. Such a sweep sends 257 replies, and
the last one carries the `Sync` 0, as the first one does: `sync` is a `uint8_t`
and has wrapped. -/
theorem scan_sync_wraps (step startFreq : Nat) (st : State) :
    ∃ pkts : List (List Nat),
      (sweep step (0x6401 ||| 1) startFreq st).tx = sendAll st.bIsEncrypted pkts st.tx
      ∧ pkts.length = 257
      ∧ isScanReply (pkts.getD 0 []) 100 0
      ∧ isScanReply (pkts.getD 255 []) 100 255
      ∧ isScanReply (pkts.getD 256 []) 1 0 := by
  obtain ⟨pkts, htx, hlen, hpk⟩ := sweep_packets step (0x6401 ||| 1) startFreq st
  have hl : pkts.length = 257 := hlen
  exact ⟨pkts, htx, hl, hpk 0 (by omega), hpk 255 (by omega), hpk 256 (by omega)⟩

/-! ## Hardware pass-through: every outcome of a session -/

end Uart
